import Mathlib

/-!
IoT dashboard: the MQTT services.

A shallow embedding of the two MQTT services of the repository

* `backend/services/mqttService.js` (class `MQTTService`, Node side),
* `frontend/src/services/mqttService.js` (class `MQTTService`, browser side),

of the sensor simulator `backend/services/sensorSimulator.js` (class
`SensorSimulator`), of the buffer `historicalData` kept by
`frontend/src/pages/Dashboard.js`, and of the list `alerts` kept by
`frontend/src/components/Alerts.js`.

JavaScript strings are `String`; a callback function is identified by a
natural number (its object identity); a `Map` is an association list in
insertion order; a `Set` is a duplicate-free list in insertion order.

The simulator is given twice. As a state machine (namespace `Simulator`) it
keeps the entries, the timers and the messages, and computes the measured
values exactly, on rationals. Per sensor (namespace `Simulator.InDoubles`) its
arithmetic is the one of JavaScript, on binary64 numbers (namespace `Ieee`):
every operation rounds, and may overflow to an infinity or give `NaN`. The
battery level of a status message is computed in binary64 arithmetic in both.
-/

namespace IotDashboard

/-! ## Backend: the regular expressions of the message handler -/

namespace Backend

/-- The class `\w` of a JavaScript regular expression without the unicode
flag: ASCII letters, ASCII digits and the underscore. -/
def isWordChar (c : Char) : Bool :=
  ('a' ≤ c && c ≤ 'z') || ('A' ≤ c && c ≤ 'Z') || ('0' ≤ c && c ≤ '9') || c == '_'

/-- Match the literal `lit` at the head of `s`; the rest of `s` on success. -/
def matchLit : List Char → List Char → Option (List Char)
  | [], s => some s
  | _ :: _, [] => none
  | l :: ls, c :: cs => if l == c then matchLit ls cs else none

/-- The fragment `\w+` followed by the continuation `k`, tried at the head
of the input with every admissible length of the repetition. -/
def wordPlusThen (k : List Char → Bool) : List Char → Bool
  | [] => false
  | c :: cs => isWordChar c && (wordPlusThen k cs || k cs)

/-- The pattern `sensor\/\w+\/<suffix>` matched at the head of the input. -/
def matchHere (suffix : List Char) (s : List Char) : Bool :=
  match matchLit "sensor/".toList s with
  | none => false
  | some rest => wordPlusThen (fun r => (matchLit ('/' :: suffix) r).isSome) rest

/-- An unanchored search: the pattern is tried at every start position. -/
def searchFrom (suffix : List Char) : List Char → Bool
  | [] => matchHere suffix []
  | c :: cs => matchHere suffix (c :: cs) || searchFrom suffix cs

/-- The test `topic.match(/sensor\/\w+\/data/)` of the message handler. -/
def matchesData (topic : String) : Bool := searchFrom "data".toList topic.toList

/-- The test `topic.match(/sensor\/\w+\/status/)` of the message handler. -/
def matchesStatus (topic : String) : Bool := searchFrom "status".toList topic.toList

/-- What the `message` handler of the backend does with one inbound message. -/
inductive Dispatch where
  /-- `JSON.parse` threw: the error is logged by the `catch`. -/
  | parseError
  /-- `handleSensorData(data)` is awaited. -/
  | sensorData
  /-- `handleSensorStatus(data)` is awaited. -/
  | sensorStatus
  /-- Neither regular expression matches: nothing is called. -/
  | ignored
  deriving DecidableEq, Repr

/-- The `message` handler of `setupEventHandlers`. `wellFormed` says whether
`JSON.parse(message.toString())` returns (rather than throws). -/
def onMessage (topic : String) (wellFormed : Bool) : Dispatch :=
  if !wellFormed then Dispatch.parseError
  else if matchesData topic then Dispatch.sensorData
  else if matchesStatus topic then Dispatch.sensorStatus
  else Dispatch.ignored

/-- The topic `sensor/${sensorId}/data` built by `generateAndPublishData`
(and written out literally by `test/testMqtt.js`). -/
def dataTopic (sensorId : String) : String := "sensor/" ++ sensorId ++ "/data"

/-! ## Backend: the service state and `publish` -/

/-- The value passed to `publish` as `message`. -/
abbrev Message := String

/-- The `options` argument of `publish`, as the retain flag and the QoS. -/
structure PublishOptions where
  retain : Bool
  qos : Nat
  deriving DecidableEq, Repr

/-- The default `options = {}`. -/
def PublishOptions.default : PublishOptions := { retain := false, qos := 0 }

/-- The object returned by `mqtt.connect(brokerUrl, ...)`. -/
structure Client where
  brokerUrl : String
  deriving DecidableEq, Repr

/-- The fields of the backend `MQTTService`. -/
structure Service where
  /-- The field `this.client`; `none` is `null`. -/
  client : Option Client
  topics : List String
  connected : Bool
  deriving DecidableEq, Repr

/-- What the backend service does to the outside. -/
inductive Effect where
  /-- The call `this.client.subscribe(topic, cb)`. -/
  | wireSubscribe (topic : String)
  /-- The call `this.client.publish(topic, payload, options)` that returned. -/
  | wirePublish (topic : String) (payload : String) (options : PublishOptions)
  /-- The call `console.log(text)`. -/
  | consoleLog (text : String)
  /-- The call `console.error(text)`. -/
  | consoleError (text : String)
  deriving DecidableEq, Repr

/-- The messages handed to the transport among a list of effects. -/
def sent (es : List Effect) : List (String × String × PublishOptions) :=
  es.filterMap
    (fun e => match e with
      | Effect.wirePublish t p o => some (t, p, o)
      | _ => none)

/-- The method `publish(topic, message, options)`: the value returned and the
effects. `stringify message` is the value of `JSON.stringify(message)`, `none`
when it throws; `transportThrows` says whether the call
`this.client.publish(topic, payload, options)` throws (as it also does when
`this.client` is `null`). The service state is not changed. -/
def publish (s : Service) (stringify : Message → Option String) (transportThrows : Bool)
    (topic : String) (message : Message) (options : PublishOptions) : Bool × List Effect :=
  if !s.connected then
    (false, [Effect.consoleError "Cannot publish: MQTT client not connected"])
  else
    match stringify message with
    | none => (false, [Effect.consoleError "Error publishing message:"])
    | some payload =>
      if transportThrows then (false, [Effect.consoleError "Error publishing message:"])
      else (true, [Effect.wirePublish topic payload options])

/-- The constructor with `init()`: `connectThrows` says whether
`mqtt.connect(brokerUrl, ...)` throws, in which case `this.client` stays
`null` and no event handler is set up. `brokerUrl` is the value of
`process.env.MQTT_BROKER_URL || 'mqtt://localhost:1883'`. -/
def init (brokerUrl : String) (connectThrows : Bool) : Service :=
  { client := if connectThrows then none else some (Client.mk brokerUrl),
    topics := ["sensor/+/data", "sensor/+/status"],
    connected := false }

/-- The handler of the client event `connect`, which is set up on an existing
client only. The console output of the subscribe callbacks, made later by the
client, is left out. -/
def onConnect (s : Service) : Service × List Effect :=
  ({ s with connected := true },
    [Effect.consoleLog "MQTT Connected"] ++ s.topics.map Effect.wireSubscribe ++
      [Effect.wirePublish "dashboard/status" "online" { retain := true, qos := 0 }])

/-- The method `isConnected()`. -/
def isConnected (s : Service) : Bool := s.connected

end Backend

/-! ## Frontend: the subscriber table -/

namespace Frontend

/-- A callback function, identified by its object identity. -/
abbrev Handler := Nat

/-- The parsed JSON value handed to the callbacks. -/
abbrev Data := String

/-- A JavaScript `Set` of callbacks: its elements in insertion order. -/
abbrev CallbackSet := List Handler

/-- The `subscribers` map: its entries in insertion order. -/
abbrev Table := List (String × CallbackSet)

/-- `Set.prototype.add`: an element already present is not added again. -/
def setAdd (s : CallbackSet) (h : Handler) : CallbackSet :=
  if h ∈ s then s else s ++ [h]

/-- `Set.prototype.delete`: the set without `h` (a set holds `h` at most
once). -/
def setDelete (s : CallbackSet) (h : Handler) : CallbackSet :=
  s.filter (fun g => g != h)

/-- `Map.prototype.get`: `none` stands for `undefined`. -/
def mapGet : Table → String → Option CallbackSet
  | [], _ => none
  | (k, v) :: m, key => if k = key then some v else mapGet m key

/-- `Map.prototype.has`. -/
def mapHas (m : Table) (key : String) : Bool := (mapGet m key).isSome

/-- `Map.prototype.set`: an existing key keeps its place, a new key goes last.
It is also how the in-place mutation of the `Set` stored under `key` shows in
the table. -/
def mapSet : Table → String → CallbackSet → Table
  | [], key, v => [(key, v)]
  | (k, w) :: m, key, v => if k = key then (k, v) :: m else (k, w) :: mapSet m key v

/-- `Map.prototype.delete`. -/
def mapDelete (m : Table) (key : String) : Table :=
  m.filter (fun e => e.1 != key)

/-- The object returned by `mqtt.connect(brokerUrl, ...)`. -/
structure Client where
  brokerUrl : String
  deriving DecidableEq, Repr

/-- The fields of the frontend `MQTTService`. -/
structure Service where
  /-- The field `this.client`; `none` is `null`. -/
  client : Option Client
  subscribers : Table
  connected : Bool
  deriving DecidableEq, Repr

/-- What the service does to the outside: calls on the MQTT client, calls of
registered callbacks, and console output. -/
inductive Effect where
  /-- The call `mqtt.connect(brokerUrl, ...)`. -/
  | mqttConnect (brokerUrl : String)
  /-- The call `this.client.subscribe(topic)`. -/
  | wireSubscribe (topic : String)
  /-- The call `this.client.end()`. -/
  | clientEnd
  /-- The call `callback(data)`. -/
  | call (callback : Handler) (data : Data)
  /-- The call `console.log(text)`. -/
  | consoleLog (text : String)
  /-- The call `console.error(text, error)`. -/
  | consoleError (text : String)
  /-- An exception that leaves an event handler uncaught. -/
  | uncaught
  deriving DecidableEq, Repr

/-- The constructor. -/
def init : Service := { client := none, subscribers := [], connected := false }

/-- The method `connect()`; `brokerUrl` is the value of
`process.env.REACT_APP_MQTT_BROKER_URL || 'ws://localhost:8083/mqtt'`. -/
def connect (s : Service) (brokerUrl : String) : Service × List Effect :=
  match s.client with
  | some _ => (s, [])
  | none => ({ s with client := some { brokerUrl := brokerUrl } }, [Effect.mqttConnect brokerUrl])

/-- The handler of the client event `connect`. -/
def onConnect (s : Service) : Service × List Effect :=
  match s.client with
  | some _ =>
    ({ s with connected := true },
      [Effect.consoleLog "MQTT Connected",
       Effect.wireSubscribe "sensor/+/data",
       Effect.wireSubscribe "sensor/+/status"])
  | none =>
    ({ s with connected := true }, [Effect.consoleLog "MQTT Connected", Effect.uncaught])

/-- The handler of the client event `error`. -/
def onError (s : Service) : Service × List Effect :=
  ({ s with connected := false }, [Effect.consoleError "MQTT Error:"])

/-- The handler of the client event `close`. -/
def onClose (s : Service) : Service × List Effect :=
  ({ s with connected := false }, [Effect.consoleLog "MQTT Connection closed"])

/-- The handle returned by `subscribe`: the closure over `topic` and
`callback`. -/
structure Handle where
  topic : String
  callback : Handler
  deriving DecidableEq, Repr

/-- The method `subscribe(topic, callback)`. -/
def subscribe (s : Service) (topic : String) (callback : Handler) : Service × Handle :=
  let subs1 := if !mapHas s.subscribers topic then mapSet s.subscribers topic [] else s.subscribers
  let subs2 := mapSet subs1 topic (setAdd ((mapGet subs1 topic).getD []) callback)
  ({ s with subscribers := subs2 }, { topic := topic, callback := callback })

/-- A call of the function returned by `subscribe`. -/
def unsubscribe (s : Service) (u : Handle) : Service :=
  match mapGet s.subscribers u.topic with
  | none => s
  | some callbacks =>
    let callbacks1 := setDelete callbacks u.callback
    let subs1 := mapSet s.subscribers u.topic callbacks1
    if callbacks1.length = 0 then { s with subscribers := mapDelete subs1 u.topic }
    else { s with subscribers := subs1 }

/-- The loop `callbacks.forEach(callback => callback(data))`: the calls made,
and whether one of them threw (which ends the loop). `throws h data` says
whether `h(data)` throws. -/
def forEachCall (throws : Handler → Data → Bool) (data : Data) :
    List Handler → List Effect × Bool
  | [] => ([], false)
  | h :: hs =>
    if throws h data then ([Effect.call h data], true)
    else ((Effect.call h data) :: (forEachCall throws data hs).1, (forEachCall throws data hs).2)

/-- The method `notifySubscribers(topic, data)`. -/
def notifySubscribers (s : Service) (throws : Handler → Data → Bool) (topic : String)
    (data : Data) : List Effect × Bool :=
  match mapGet s.subscribers topic with
  | none => ([], false)
  | some callbacks => forEachCall throws data callbacks

/-- The handler of the client event `message`. `parsed` is the value of
`JSON.parse(message.toString())`, `none` when it throws. -/
def onMessage (s : Service) (throws : Handler → Data → Bool) (topic : String)
    (parsed : Option Data) : List Effect :=
  match parsed with
  | none => [Effect.consoleError "Error processing message:"]
  | some data =>
    if (notifySubscribers s throws topic data).2 then
      (notifySubscribers s throws topic data).1 ++
        [Effect.consoleError "Error processing message:"]
    else (notifySubscribers s throws topic data).1

/-- The method `disconnect()`. -/
def disconnect (s : Service) : Service × List Effect :=
  match s.client with
  | some _ => ({ client := none, subscribers := [], connected := false }, [Effect.clientEnd])
  | none => (s, [])

/-- The callbacks registered under `pattern` (none when the key is absent). -/
def handlersOf (s : Service) (pattern : String) : CallbackSet :=
  (mapGet s.subscribers pattern).getD []

/-- The callbacks called in a list of effects, in order. -/
def callsOf : List Effect → List Handler
  | [] => []
  | Effect.call h _ :: es => h :: callsOf es
  | _ :: es => callsOf es

/-- The callbacks that `notifySubscribers(topic, data)` calls. -/
def invoked (s : Service) (throws : Handler → Data → Bool) (topic : String) (data : Data) :
    List Handler :=
  callsOf (notifySubscribers s throws topic data).1

/-- No callback throws. -/
def noThrow : Handler → Data → Bool := fun _ _ => false

/-- The states the service goes through: from the constructor by method
calls and client events. -/
inductive Reachable : Service → Prop where
  | init : Reachable init
  | connect (s : Service) (url : String) : Reachable s → Reachable (connect s url).1
  | onConnect (s : Service) : Reachable s → Reachable (onConnect s).1
  | onError (s : Service) : Reachable s → Reachable (onError s).1
  | onClose (s : Service) : Reachable s → Reachable (onClose s).1
  | subscribe (s : Service) (topic : String) (callback : Handler) :
      Reachable s → Reachable (subscribe s topic callback).1
  | unsubscribe (s : Service) (u : Handle) : Reachable s → Reachable (unsubscribe s u)
  | disconnect (s : Service) : Reachable s → Reachable (disconnect s).1

/-- No key of the table maps to an empty set. -/
def NoEmptySet (m : Table) : Prop := ∀ key, mapGet m key ≠ some []

/-- Every set of the table is duplicate-free. -/
def SetsNodup (m : Table) : Prop := ∀ key callbacks, mapGet m key = some callbacks → callbacks.Nodup

/-- The console text of the `catch` in the `message` handler. -/
def processingError : Effect := Effect.consoleError "Error processing message:"

/-! ### The segment-wise matching rule of the specification -/

/-- The segments of a topic: the pieces between the `/` characters. -/
def segmentsAux : List Char → List Char → List (List Char)
  | acc, [] => [acc.reverse]
  | acc, c :: cs => if c = '/' then acc.reverse :: segmentsAux [] cs else segmentsAux (c :: acc) cs

/-- The segments of a topic string. -/
def segments (topic : String) : List String :=
  (segmentsAux [] topic.toList).map String.mk

/-- The rule of the specification on segment lists: a `+` stands for exactly
one segment, a `#` in last place for zero or more trailing segments, any other
segment for itself. -/
def segmentsMatch : List String → List String → Bool
  | [], [] => true
  | [], _ :: _ => false
  | p :: ps, [] => p == "#" && ps.isEmpty
  | p :: ps, t :: ts =>
    (p == "#" && ps.isEmpty) || ((p == "+" || p == t) && segmentsMatch ps ts)

/-- The structural match of a pattern and a topic. -/
def structuralMatch (pattern topic : String) : Bool :=
  segmentsMatch (segments pattern) (segments topic)

end Frontend

/-! ## Backend: the client events -/

namespace Backend

/-- The events of the MQTT client that `setupEventHandlers` listens to. -/
inductive Event where
  | connect
  | reconnect
  | error
  /-- An inbound message; `wellFormed` as in `onMessage`. -/
  | message (topic : String) (wellFormed : Bool)
  | close
  | offline
  deriving DecidableEq, Repr

/-- The handler of the client event `reconnect`. -/
def onReconnect (s : Service) : Service × List Effect :=
  ({ s with connected := false }, [Effect.consoleLog "MQTT reconnecting..."])

/-- The handler of the client event `error`. -/
def onError (s : Service) : Service × List Effect :=
  ({ s with connected := false }, [Effect.consoleError "MQTT Error:"])

/-- The handler of the client event `close`. -/
def onClose (s : Service) : Service × List Effect :=
  ({ s with connected := false }, [Effect.consoleLog "MQTT connection closed"])

/-- The handler of the client event `offline`. -/
def onOffline (s : Service) : Service × List Effect :=
  ({ s with connected := false }, [Effect.consoleLog "MQTT client is offline"])

/-- The service after one client event. The `message` handler reads and
writes no field of the service. -/
def handle (s : Service) : Event → Service
  | Event.connect => (onConnect s).1
  | Event.reconnect => (onReconnect s).1
  | Event.error => (onError s).1
  | Event.message _ _ => s
  | Event.close => (onClose s).1
  | Event.offline => (onOffline s).1

/-- The service after a sequence of client events, oldest first. -/
def run (s : Service) (events : List Event) : Service := events.foldl handle s

/-- The events `connect`, `reconnect`, `error`, `close`, `offline`. -/
def Event.isConnection : Event → Bool
  | Event.message _ _ => false
  | _ => true

/-- The events `reconnect`, `error`, `close`, `offline`. -/
def Event.isLoss : Event → Bool
  | Event.reconnect => true
  | Event.error => true
  | Event.close => true
  | Event.offline => true
  | _ => false

/-- The most recent of the events `connect`, `reconnect`, `error`, `close`,
`offline` in a sequence, if there is one. -/
def lastConnectionEvent (events : List Event) : Option Event :=
  (events.filter Event.isConnection).getLast?

end Backend

/-! ## A JavaScript `Map` with string keys -/

namespace JsMap

variable {V : Type}

/-- `Map.prototype.get`: `none` stands for `undefined`. -/
def get : List (String × V) → String → Option V
  | [], _ => none
  | (k, v) :: m, key => if k = key then some v else get m key

/-- `Map.prototype.has`. -/
def has (m : List (String × V)) (key : String) : Bool := (get m key).isSome

/-- `Map.prototype.set`: an existing key keeps its place, a new key goes last. -/
def set : List (String × V) → String → V → List (String × V)
  | [], key, v => [(key, v)]
  | (k, w) :: m, key, v => if k = key then (k, v) :: m else (k, w) :: set m key v

/-- `Map.prototype.delete`. -/
def delete (m : List (String × V)) (key : String) : List (String × V) :=
  m.filter (fun e => e.1 != key)

/-- `Array.from(map.keys())`. -/
def keys (m : List (String × V)) : List String := m.map Prod.fst

end JsMap

/-! ## Binary64 arithmetic

The numbers of JavaScript are the binary64 numbers of IEEE 754. A finite one
is given by its exact value, a rational. An operation rounds its exact result
to the nearest binary64 number, ties to even, and overflows to an infinity
from `2 ^ 1024` on. -/

namespace Ieee

/-- The integer nearest to `q`, the even one when two are equally near. -/
def roundHalfEven (q : ℚ) : ℤ :=
  if q - (Rat.floor q : ℤ) < 1 / 2 then Rat.floor q
  else if 1 / 2 < q - (Rat.floor q : ℤ) then Rat.floor q + 1
  else if Rat.floor q % 2 = 0 then Rat.floor q
  else Rat.floor q + 1

/-- The exponent of the unit in the last place of a binary64 number of the
magnitude of `x`: 52 below the binary exponent of `x`, which is at least
`-1022` (below that the numbers are subnormal). -/
def ulpExp (x : ℚ) : ℤ := max (Int.log 2 |x|) (-1022) - 52

/-- The binary64 number nearest to `x`, ties to even, were the exponent
unbounded above. -/
def nearest (x : ℚ) : ℚ := (roundHalfEven (x / (2 : ℚ) ^ ulpExp x) : ℚ) * (2 : ℚ) ^ ulpExp x

/-- A JavaScript number: `NaN`, the two infinities, or a finite value (the
two zeros are not told apart). -/
inductive Number where
  | nan
  | negInf
  | fin (value : ℚ)
  | posInf
  deriving DecidableEq, Repr

/-- The rounding of an exact result: it overflows to an infinity when the
nearest binary64 number with unbounded exponent reaches `2 ^ 1024`. -/
def round (x : ℚ) : Number :=
  if (2 : ℚ) ^ (1024 : ℕ) ≤ nearest x then Number.posInf
  else if nearest x ≤ -(2 : ℚ) ^ (1024 : ℕ) then Number.negInf
  else Number.fin (nearest x)

/-- The value is a finite binary64 number. -/
def IsDouble (x : ℚ) : Prop := nearest x = x ∧ |x| < (2 : ℚ) ^ (1024 : ℕ)

/-- The operator `+`. -/
def add : Number → Number → Number
  | Number.nan, _ => Number.nan
  | _, Number.nan => Number.nan
  | Number.posInf, Number.negInf => Number.nan
  | Number.negInf, Number.posInf => Number.nan
  | Number.posInf, _ => Number.posInf
  | _, Number.posInf => Number.posInf
  | Number.negInf, _ => Number.negInf
  | _, Number.negInf => Number.negInf
  | Number.fin a, Number.fin b => round (a + b)

/-- The operator `-`. -/
def sub : Number → Number → Number
  | Number.nan, _ => Number.nan
  | _, Number.nan => Number.nan
  | Number.posInf, Number.posInf => Number.nan
  | Number.negInf, Number.negInf => Number.nan
  | Number.posInf, _ => Number.posInf
  | _, Number.negInf => Number.posInf
  | Number.negInf, _ => Number.negInf
  | _, Number.posInf => Number.negInf
  | Number.fin a, Number.fin b => round (a - b)

/-- An infinity times a finite value. -/
def infTimes (positive : Bool) (a : ℚ) : Number :=
  if a = 0 then Number.nan
  else if (0 < a) = positive then Number.posInf
  else Number.negInf

/-- The operator `*`. -/
def mul : Number → Number → Number
  | Number.nan, _ => Number.nan
  | _, Number.nan => Number.nan
  | Number.posInf, Number.posInf => Number.posInf
  | Number.negInf, Number.negInf => Number.posInf
  | Number.posInf, Number.negInf => Number.negInf
  | Number.negInf, Number.posInf => Number.negInf
  | Number.posInf, Number.fin a => infTimes true a
  | Number.fin a, Number.posInf => infTimes true a
  | Number.negInf, Number.fin a => infTimes false a
  | Number.fin a, Number.negInf => infTimes false a
  | Number.fin a, Number.fin b => round (a * b)

/-- The expression `x / 2`. -/
def half : Number → Number
  | Number.nan => Number.nan
  | Number.posInf => Number.posInf
  | Number.negInf => Number.negInf
  | Number.fin a => round (a / 2)

/-- The comparison `a <= b`, false when an operand is `NaN`. -/
def le : Number → Number → Prop
  | Number.nan, _ => False
  | _, Number.nan => False
  | Number.negInf, _ => True
  | _, Number.posInf => True
  | Number.posInf, _ => False
  | _, Number.negInf => False
  | Number.fin a, Number.fin b => a ≤ b

instance (a b : Number) : Decidable (le a b) := by
  cases a <;> cases b <;> simp only [le] <;> infer_instance

/-- The function `Math.max` of two arguments. -/
def jsMax (a b : Number) : Number :=
  if a = Number.nan ∨ b = Number.nan then Number.nan else if le a b then b else a

/-- The function `Math.min` of two arguments. -/
def jsMin (a b : Number) : Number :=
  if a = Number.nan ∨ b = Number.nan then Number.nan else if le a b then a else b

end Ieee

/-! ## Backend: the sensor simulator

The simulator as a state machine. The measured values are rationals and the
arithmetic on them is exact: this part follows which entries, timers and
messages the simulator has. The rounding and the overflow of the arithmetic
of JavaScript are in the section on the simulator in binary64 arithmetic
below. The values of `Math.random()`, of `Math.sin(Date.now() / 10000)` and of
`new Date()` are arguments of the functions that read them. -/

namespace Simulator

/-- The `config` argument of `createSensor`: each key is present or absent. -/
structure Config where
  minValue : Option ℚ
  maxValue : Option ℚ
  updateInterval : Option ℚ
  unit : Option String
  noise : Option ℚ
  deriving DecidableEq, Repr

/-- A configuration with every key present. -/
structure SensorConfig where
  minValue : ℚ
  maxValue : ℚ
  updateInterval : ℚ
  unit : String
  noise : ℚ
  deriving DecidableEq, Repr

/-- The object `defaultConfig`. -/
def defaultConfig : SensorConfig :=
  { minValue := 20, maxValue := 30, updateInterval := 5000, unit := "celsius", noise := 1 / 2 }

/-- The spread `{ ...defaultConfig, ...config }`. -/
def mergeConfig (config : Config) : SensorConfig :=
  { minValue := config.minValue.getD defaultConfig.minValue,
    maxValue := config.maxValue.getD defaultConfig.maxValue,
    updateInterval := config.updateInterval.getD defaultConfig.updateInterval,
    unit := config.unit.getD defaultConfig.unit,
    noise := config.noise.getD defaultConfig.noise }

/-- A value of the `sensors` map: `{ ...sensorConfig, lastValue }`. -/
structure Sensor where
  config : SensorConfig
  lastValue : ℚ
  deriving DecidableEq, Repr

/-- The objects handed to `mqttService.publish` as `message`. -/
inductive Payload where
  /-- The object `data` of `generateAndPublishData`. -/
  | reading (sensorId : String) (value : ℚ) (unit : String) (timestamp : Nat)
  /-- The object `statusData` of `publishSensorStatus`. -/
  | status (sensorId : String) (status : String) (battery : ℤ) (timestamp : Nat)
  deriving DecidableEq, Repr

/-- What the simulator does to the outside. -/
inductive Effect where
  /-- The call `mqttService.publish(topic, message)`. -/
  | publish (topic : String) (message : Payload)
  /-- The call `console.log(text)`. -/
  | consoleLog (text : String)
  deriving DecidableEq, Repr

/-- A timer made by `setInterval` and not cleared since. -/
structure Timer where
  id : Nat
  /-- The `sensorId` its callback closes over. -/
  sensorId : String
  /-- The delay passed to `setInterval`. -/
  delay : ℚ
  deriving DecidableEq, Repr

/-- The fields `sensors` and `intervalIds` of the `SensorSimulator`, with the
timers of the runtime that are live and the next timer id it hands out. -/
structure State where
  sensors : List (String × Sensor)
  intervalIds : List (String × Nat)
  timers : List Timer
  nextTimerId : Nat
  deriving DecidableEq, Repr

/-- The constructor, in a runtime without timers. -/
def init : State := { sensors := [], intervalIds := [], timers := [], nextTimerId := 0 }

/-- The topic `sensor/${sensorId}/status`. -/
def statusTopic (sensorId : String) : String := "sensor/" ++ sensorId ++ "/status"

/-- The expression `Math.floor(Math.random() * 30 + 70)`, `r` being the value
of `Math.random()`, a binary64 number in `[0, 1)`: the product and the sum
are rounded to binary64 numbers, and neither overflows. -/
def battery (r : ℚ) : ℤ := Rat.floor (Ieee.nearest (Ieee.nearest (r * 30) + 70))

/-- The method `publishSensorStatus(sensorId, status)`. -/
def publishSensorStatus (sensorId status : String) (r : ℚ) (now : Nat) : List Effect :=
  [Effect.publish (statusTopic sensorId) (Payload.status sensorId status (battery r) now)]

/-- The object `{ ...sensorConfig, lastValue: (maxValue + minValue) / 2 }`. -/
def newSensor (sensorConfig : SensorConfig) : Sensor :=
  Sensor.mk sensorConfig ((sensorConfig.maxValue + sensorConfig.minValue) / 2)

/-- The method `createSensor(sensorId, config)`: the state, the effects and
the value returned. -/
def createSensor (st : State) (sensorId : String) (config : Config) (r : ℚ) (now : Nat) :
    State × List Effect × SensorConfig :=
  ({ st with sensors := JsMap.set st.sensors sensorId (newSensor (mergeConfig config)) },
    publishSensorStatus sensorId "online" r now,
    mergeConfig config)

/-- The outcome of a method that may throw. -/
structure Outcome where
  state : State
  effects : List Effect
  /-- The message of the `Error` thrown, if one is. -/
  error : Option String
  deriving DecidableEq, Repr

/-- The method `startSensor(sensorId)`. -/
def startSensor (st : State) (sensorId : String) : Outcome :=
  match JsMap.get st.sensors sensorId with
  | none => { state := st, effects := [], error := some ("Sensor " ++ sensorId ++ " not found") }
  | some sensor =>
    if JsMap.has st.intervalIds sensorId then
      { state := st,
        effects := [Effect.consoleLog ("Sensor " ++ sensorId ++ " is already running")],
        error := none }
    else
      { state :=
          { st with
            timers := st.timers ++
              [Timer.mk st.nextTimerId sensorId sensor.config.updateInterval],
            nextTimerId := st.nextTimerId + 1,
            intervalIds := JsMap.set st.intervalIds sensorId st.nextTimerId },
        effects := [Effect.consoleLog ("Started sensor " ++ sensorId)],
        error := none }

/-- The call `clearInterval(id)`. -/
def clearInterval (timers : List Timer) (id : Nat) : List Timer :=
  timers.filter (fun t => t.id != id)

/-- The method `stopSensor(sensorId)`. -/
def stopSensor (st : State) (sensorId : String) (r : ℚ) (now : Nat) : State × List Effect :=
  match JsMap.get st.intervalIds sensorId with
  | none => (st, [])
  | some id =>
    ({ st with
        timers := clearInterval st.timers id,
        intervalIds := JsMap.delete st.intervalIds sensorId },
      publishSensorStatus sensorId "offline" r now ++
        [Effect.consoleLog ("Stopped sensor " ++ sensorId)])

/-- The expression `(Math.random() - 0.5) * 2 * sensor.noise`. -/
def noiseTerm (sensor : Sensor) (r : ℚ) : ℚ := (r - 1 / 2) * 2 * sensor.config.noise

/-- The expression `Math.sin(Date.now() / 10000) * range * 0.1`, `sn` being
the value of the sine. -/
def trendTerm (sensor : Sensor) (sn : ℚ) : ℚ :=
  sn * (sensor.config.maxValue - sensor.config.minValue) * (1 / 10)

/-- The expression `Math.max(lo, Math.min(hi, x))`. -/
def keepWithin (lo hi x : ℚ) : ℚ := max lo (min hi x)

/-- The value of `newValue` after the line `Keep value within bounds`. -/
def nextValue (sensor : Sensor) (r sn : ℚ) : ℚ :=
  keepWithin sensor.config.minValue sensor.config.maxValue
    (sensor.lastValue + noiseTerm sensor r + trendTerm sensor sn)

/-- The digits of `x.toFixed(2)` as an exact value: the multiple of `0.01`
nearest to `x`, the one of larger magnitude when two are equally near. -/
def toFixed2 (x : ℚ) : ℚ :=
  if x < 0 then -((Rat.floor (-x * 100 + 1 / 2) : ℤ) : ℚ) / 100
  else ((Rat.floor (x * 100 + 1 / 2) : ℤ) : ℚ) / 100

/-- The method `generateAndPublishData(sensorId)`. -/
def generateAndPublishData (st : State) (sensorId : String) (r sn : ℚ) (now : Nat) :
    State × List Effect :=
  match JsMap.get st.sensors sensorId with
  | none => (st, [])
  | some sensor =>
    ({ st with sensors :=
        JsMap.set st.sensors sensorId (Sensor.mk sensor.config (nextValue sensor r sn)) },
      [Effect.publish (Backend.dataTopic sensorId)
        (Payload.reading sensorId (toFixed2 (nextValue sensor r sn)) sensor.config.unit now)])

/-- The runtime fires the timer `timerId`: the callback of a live timer calls
`generateAndPublishData` for its sensor; a cleared timer does nothing. -/
def fire (st : State) (timerId : Nat) (r sn : ℚ) (now : Nat) : State × List Effect :=
  match st.timers.find? (fun t => t.id == timerId) with
  | none => (st, [])
  | some t => generateAndPublishData st t.sensorId r sn now

/-- The method `getAllSensors()`. -/
def getAllSensors (st : State) : List String := JsMap.keys st.sensors

/-- The states the simulator goes through: from the constructor by method
calls and timer ticks. -/
inductive Reachable : State → Prop where
  | init : Reachable init
  | createSensor (st : State) (sensorId : String) (config : Config) (r : ℚ) (now : Nat) :
      Reachable st → Reachable (createSensor st sensorId config r now).1
  | startSensor (st : State) (sensorId : String) :
      Reachable st → Reachable (startSensor st sensorId).state
  | stopSensor (st : State) (sensorId : String) (r : ℚ) (now : Nat) :
      Reachable st → Reachable (stopSensor st sensorId r now).1
  | fire (st : State) (timerId : Nat) (r sn : ℚ) (now : Nat) :
      Reachable st → Reachable (fire st timerId r sn now).1

/-- The live timers are the entries of `intervalIds`, one for one: the timer
of each entry is live, each live timer is the one of an entry, no sensor has
two entries and no timer id occurs twice. -/
def TimersMatch (st : State) : Prop :=
  st.timers.map (fun t => (t.sensorId, t.id)) = st.intervalIds ∧
  (JsMap.keys st.intervalIds).Nodup ∧
  (st.timers.map (fun t => t.id)).Nodup ∧
  ∀ t ∈ st.timers, t.id < st.nextTimerId

/-- The live timers whose callback generates data for `sensorId`. -/
def timersOf (st : State) (sensorId : String) : List Timer :=
  st.timers.filter (fun t => t.sensorId == sensorId)

/-- The readings among a list of effects that carry the given `sensorId`. -/
def readingsOf (sensorId : String) : List Effect → List Payload
  | [] => []
  | Effect.publish _ (Payload.reading id v u ts) :: es =>
    if id = sensorId then Payload.reading id v u ts :: readingsOf sensorId es
    else readingsOf sensorId es
  | _ :: es => readingsOf sensorId es

/-- The calls of `mqttService.publish` among a list of effects. -/
def published : List Effect → List (String × Payload)
  | [] => []
  | Effect.publish topic message :: es => (topic, message) :: published es
  | _ :: es => published es

/-- The clamp of the specification: `lo` below `lo`, `hi` above `hi`, the
value itself in between. -/
def clamp (x lo hi : ℚ) : ℚ := if x < lo then lo else if hi < x then hi else x

end Simulator

/-! ## The simulator in binary64 arithmetic

The numeric part of an entry of `sensors`, with the operations of JavaScript:
each `+`, `-`, `*` and `/` rounds, and may give an infinity or `NaN`. -/

namespace Simulator

namespace InDoubles

/-- The numeric fields of a value of the `sensors` map. -/
structure Sensor where
  minValue : Ieee.Number
  maxValue : Ieee.Number
  noise : Ieee.Number
  lastValue : Ieee.Number
  deriving DecidableEq, Repr

/-- The object `{ ...sensorConfig, lastValue: (maxValue + minValue) / 2 }`. -/
def newSensor (minValue maxValue noise : Ieee.Number) : Sensor :=
  Sensor.mk minValue maxValue noise (Ieee.half (Ieee.add maxValue minValue))

/-- The expression `(Math.random() - 0.5) * 2 * sensor.noise`, `r` being the
value of `Math.random()`. -/
def noiseTerm (sensor : Sensor) (r : ℚ) : Ieee.Number :=
  Ieee.mul (Ieee.mul (Ieee.sub (Ieee.Number.fin r) (Ieee.Number.fin (1 / 2))) (Ieee.Number.fin 2))
    sensor.noise

/-- The expression `Math.sin(Date.now() / 10000) * range * 0.1`, with
`range = sensor.maxValue - sensor.minValue` and `sn` the value of the sine;
the literal `0.1` is the binary64 number nearest to one tenth. -/
def trendTerm (sensor : Sensor) (sn : ℚ) : Ieee.Number :=
  Ieee.mul (Ieee.mul (Ieee.Number.fin sn) (Ieee.sub sensor.maxValue sensor.minValue))
    (Ieee.round (1 / 10))

/-- The expression `sensor.lastValue + noise + trend`. -/
def candidate (sensor : Sensor) (r sn : ℚ) : Ieee.Number :=
  Ieee.add (Ieee.add sensor.lastValue (noiseTerm sensor r)) (trendTerm sensor sn)

/-- The value of `newValue` after the line `Keep value within bounds`. -/
def nextValue (sensor : Sensor) (r sn : ℚ) : Ieee.Number :=
  Ieee.jsMax sensor.minValue (Ieee.jsMin sensor.maxValue (candidate sensor r sn))

/-- The expression `parseFloat(x.toFixed(2))`: `toFixed` rounds the exact
value of a finite `x` below `1e21` to two decimals, and gives the digits of
`x` itself from `1e21` on; `parseFloat` reads the digits back as a binary64
number. -/
def toFixed2 : Ieee.Number → Ieee.Number
  | Ieee.Number.fin v =>
    if (10 : ℚ) ^ (21 : ℕ) ≤ |v| then Ieee.Number.fin v else Ieee.round (Simulator.toFixed2 v)
  | x => x

/-- The method `generateAndPublishData` on the entry of a registered sensor:
the entry after the call and the `value` of the reading published. -/
def generateAndPublishData (sensor : Sensor) (r sn : ℚ) : Sensor × Ieee.Number :=
  ({ sensor with lastValue := nextValue sensor r sn }, toFixed2 (nextValue sensor r sn))

/-- The clamp of the specification on JavaScript numbers: `lo` up to `lo`,
`hi` from `hi` on, the value itself in between, and `NaN` for `NaN`. -/
def clamp (x lo hi : Ieee.Number) : Ieee.Number :=
  if Ieee.le x lo then lo else if Ieee.le hi x then hi else x

end InDoubles

end Simulator

/-! ## The simulator on the backend service -/

namespace Simulator

/-- What the calls `mqttService.publish(topic, message)` among the effects of
the simulator do on the backend service `service`. `asMessage` gives the
JavaScript value of a payload object; `stringify` and `transportThrows` are as
in `Backend.publish`. The options are the default `{}`. -/
def onWire (service : Backend.Service) (asMessage : Payload → Backend.Message)
    (stringify : Backend.Message → Option String) (transportThrows : Bool) :
    List Effect → List Backend.Effect
  | [] => []
  | Effect.publish topic message :: es =>
    (Backend.publish service stringify transportThrows topic (asMessage message)
      Backend.PublishOptions.default).2 ++ onWire service asMessage stringify transportThrows es
  | Effect.consoleLog _ :: es => onWire service asMessage stringify transportThrows es

end Simulator

/-! ## The simulator: sequences of calls -/

namespace Simulator

/-- A call of a method of the simulator, or a tick of a timer. -/
inductive Call where
  | createSensor (sensorId : String) (config : Config) (r : ℚ) (now : Nat)
  | startSensor (sensorId : String)
  | stopSensor (sensorId : String) (r : ℚ) (now : Nat)
  | tick (timerId : Nat) (r sn : ℚ) (now : Nat)
  deriving DecidableEq, Repr

/-- The state after one call. -/
def applyCall (st : State) : Call → State
  | Call.createSensor sensorId config r now => (createSensor st sensorId config r now).1
  | Call.startSensor sensorId => (startSensor st sensorId).state
  | Call.stopSensor sensorId r now => (stopSensor st sensorId r now).1
  | Call.tick timerId r sn now => (fire st timerId r sn now).1

/-- The state after a sequence of calls, oldest first. -/
def runCalls (st : State) (calls : List Call) : State := calls.foldl applyCall st

/-- The ids `createSensor` is called with in a sequence of calls. -/
def createdIds : List Call → List String
  | [] => []
  | Call.createSensor sensorId _ _ _ :: calls => sensorId :: createdIds calls
  | _ :: calls => createdIds calls

end Simulator

/-! ## Backend: what the `message` handler does -/

namespace Backend

/-- What the `message` handler and the two handlers it awaits do. -/
inductive MessageEffect where
  /-- The call `console.log(text, ...)`. -/
  | consoleLog (text : String)
  /-- The call `console.error(text, error)`. -/
  | consoleError (text : String)
  /-- The call `handleSensorData(data)`. -/
  | handleSensorData
  /-- The call `handleSensorStatus(data)`. -/
  | handleSensorStatus
  /-- The call `newData.save()` that resolved: the document is stored. -/
  | saved
  /-- An error that leaves the `message` handler. -/
  | uncaught
  deriving DecidableEq, Repr

/-- The method `handleSensorData(data)`; `saveFails` says whether building or
saving the document throws or rejects. -/
def handleSensorData (saveFails : Bool) : List MessageEffect :=
  if saveFails then [MessageEffect.consoleError "Error saving sensor data:"]
  else [MessageEffect.saved, MessageEffect.consoleLog "Sensor data saved:"]

/-- The method `handleSensorStatus(data)`. -/
def handleSensorStatus : List MessageEffect :=
  [MessageEffect.consoleLog "Sensor status update:"]

/-- The effects of the `message` handler, by the branch `onMessage` takes. -/
def onMessageEffects (topic : String) (wellFormed : Bool) (saveFails : Bool) :
    List MessageEffect :=
  match onMessage topic wellFormed with
  | Dispatch.parseError => [MessageEffect.consoleError "Error processing MQTT message:"]
  | Dispatch.sensorData =>
    [MessageEffect.consoleLog "Received message on topic", MessageEffect.handleSensorData] ++
      handleSensorData saveFails
  | Dispatch.sensorStatus =>
    [MessageEffect.consoleLog "Received message on topic", MessageEffect.handleSensorStatus] ++
      handleSensorStatus
  | Dispatch.ignored => [MessageEffect.consoleLog "Received message on topic"]

/-- The topic holds, somewhere, `sensor/`, one or more word characters, `/`
and `suffix`. -/
def ContainsSensorPath (suffix : String) (topic : String) : Prop :=
  ∃ pre w post, topic.toList = pre ++ ("sensor/".toList ++ (w ++ ('/' :: suffix.toList ++ post))) ∧
    w ≠ [] ∧ ∀ c ∈ w, isWordChar c = true

end Backend

/-! ## Frontend: the Dashboard buffer and the Alerts list -/

namespace Dashboard

/-- An element of `historicalData`: a reading, with the time value of
`new Date(d.timestamp)` in milliseconds. -/
structure Entry where
  sensorId : String
  value : ℚ
  timestamp : Int
  deriving DecidableEq, Repr

/-- The lookup of `timeRange` in the table of the data callback; `none` is
`undefined`. -/
def timeLimit (timeRange : String) : Option Int :=
  if timeRange = "1h" then some (60 * 60 * 1000)
  else if timeRange = "24h" then some (24 * 60 * 60 * 1000)
  else if timeRange = "7d" then some (7 * 24 * 60 * 60 * 1000)
  else none

/-- The updater passed to `setHistoricalData` by the data callback: `now` is
the value of `Date.now()`. With `timeLimit` undefined the cutoff is an invalid
date and no comparison holds. -/
def insert (timeRange : String) (now : Int) (prev : List Entry) (data : Entry) : List Entry :=
  match timeLimit timeRange with
  | none => []
  | some limit => (prev ++ [data]).filter (fun d => decide (d.timestamp > now - limit))

/-- The state of the Dashboard that the buffer depends on. -/
structure State where
  historicalData : List Entry
  timeRange : String
  deriving DecidableEq, Repr

/-- The callback `handleTimeRangeChange`, with `event.target.value`. -/
def handleTimeRangeChange (st : State) (value : String) : State :=
  { st with timeRange := value }

/-- The data callback of the current effect runs on a reading. -/
def onData (st : State) (data : Entry) (now : Int) : State :=
  { st with historicalData := insert st.timeRange now st.historicalData data }

/-- What happens to the buffer: a reading arrives, or the time range is
changed. -/
inductive Event where
  | data (entry : Entry) (now : Int)
  | timeRange (value : String)
  deriving DecidableEq, Repr

/-- The state after one event. -/
def step (st : State) : Event → State
  | Event.data entry now => onData st entry now
  | Event.timeRange value => handleTimeRangeChange st value

/-- The state after a sequence of events, oldest first. -/
def run (st : State) (events : List Event) : State := events.foldl step st

/-- The readings that arrive in a sequence of events, in order. -/
def arrivals : List Event → List Entry
  | [] => []
  | Event.data entry _ :: events => entry :: arrivals events
  | Event.timeRange _ :: events => arrivals events

/-- The entries are in non-decreasing order of timestamp. -/
def Ordered (buffer : List Entry) : Prop :=
  buffer.Pairwise (fun a b => a.timestamp ≤ b.timestamp)

end Dashboard

namespace Alerts

/-- An element of `alerts`. -/
structure Alert where
  id : Nat
  sensorId : String
  message : String
  severity : String
  deriving DecidableEq, Repr

/-- The updater `prev => [alert, ...prev].slice(0, 50)`. -/
def addAlert (prev : List Alert) (alert : Alert) : List Alert :=
  (alert :: prev).take 50

/-- The list after a sequence of triggered alerts, oldest first, from the
initial empty list. -/
def afterTriggers (triggers : List Alert) : List Alert := triggers.foldl addAlert []

end Alerts

/-! ## Lemmas on the table operations -/

namespace Frontend

theorem mapGet_mapSet_same (m : Table) (k : String) (v : CallbackSet) :
    mapGet (mapSet m k v) k = some v := by
  induction m with
  | nil => simp [mapSet, mapGet]
  | cons e m ih =>
    obtain ⟨k', w⟩ := e
    by_cases hk : k' = k
    · simp [mapSet, mapGet, hk]
    · simp [mapSet, mapGet, hk, ih]

theorem mapGet_mapSet_other (m : Table) (k q : String) (v : CallbackSet) (hq : q ≠ k) :
    mapGet (mapSet m k v) q = mapGet m q := by
  induction m with
  | nil =>
    have hk : ¬ k = q := fun h => hq h.symm
    simp [mapSet, mapGet, hk]
  | cons e m ih =>
    obtain ⟨k', w⟩ := e
    by_cases hk : k' = k
    · have hk' : ¬ k' = q := fun h => hq (h.symm.trans hk)
      have hk2 : ¬ k = q := fun h => hq h.symm
      simp [mapSet, mapGet, hk, hk2]
    · by_cases hkq : k' = q
      · subst hkq
        simp [mapSet, mapGet, hk]
      · simp [mapSet, mapGet, hk, hkq, ih]

theorem mapGet_mapDelete_same (m : Table) (k : String) :
    mapGet (mapDelete m k) k = none := by
  induction m with
  | nil => simp [mapDelete, mapGet]
  | cons e m ih =>
    obtain ⟨k', w⟩ := e
    by_cases hk : k' = k
    · simpa [mapDelete, hk] using ih
    · simpa [mapDelete, hk, mapGet] using ih

theorem mapGet_mapDelete_other (m : Table) (k q : String) (hq : q ≠ k) :
    mapGet (mapDelete m k) q = mapGet m q := by
  induction m with
  | nil => simp [mapDelete, mapGet]
  | cons e m ih =>
    obtain ⟨k', w⟩ := e
    by_cases hk : k' = k
    · have hk' : ¬ k' = q := fun h => hq (h.symm.trans hk)
      have hk2 : ¬ k = q := fun h => hq h.symm
      simpa [mapDelete, hk, mapGet, hk2] using ih
    · by_cases hkq : k' = q
      · subst hkq
        simp [mapDelete, hk, mapGet]
      · simpa [mapDelete, hk, mapGet, hkq] using ih

theorem mapSet_mapSet (m : Table) (k : String) (v w : CallbackSet) :
    mapSet (mapSet m k v) k w = mapSet m k w := by
  induction m with
  | nil => simp [mapSet]
  | cons e m ih =>
    obtain ⟨k', x⟩ := e
    by_cases hk : k' = k
    · simp [mapSet, hk]
    · simp [mapSet, hk, ih]

end Frontend

/-! ## Backend dispatch -/

namespace Backend

theorem matchLit_append (lit rest : List Char) : matchLit lit (lit ++ rest) = some rest := by
  induction lit with
  | nil => rfl
  | cons c cs ih => simp [matchLit, ih]

theorem wordPlusThen_word (k : List Char → Bool) (id rest : List Char) (hne : id ≠ [])
    (hword : ∀ c ∈ id, isWordChar c = true) (hk : k rest = true) :
    wordPlusThen k (id ++ rest) = true := by
  induction id with
  | nil => exact absurd rfl hne
  | cons c cs ih =>
    have hc : isWordChar c = true := hword c (List.mem_cons_self _ _)
    by_cases hcs : cs = []
    · subst hcs
      simp [wordPlusThen, hc, hk]
    · have := ih hcs (fun d hd => hword d (List.mem_cons_of_mem _ hd))
      simp [wordPlusThen, hc, this]

theorem searchFrom_of_matchHere (suffix s : List Char) (h : matchHere suffix s = true) :
    searchFrom suffix s = true := by
  cases s with
  | nil => simpa [searchFrom] using h
  | cons c cs => simp [searchFrom, h]

/-- An id made of one or more word characters is dispatched to
`handleSensorData`. -/
theorem onMessage_word_id (id : List Char) (hne : id ≠ [])
    (hword : ∀ c ∈ id, isWordChar c = true) :
    onMessage (dataTopic (String.mk id)) true = Dispatch.sensorData := by
  have htopic : (dataTopic (String.mk id)).toList =
      "sensor/".toList ++ (id ++ ('/' :: "data".toList)) := by
    simp [dataTopic, String.toList, String.data_append]
  have hmatch : matchesData (dataTopic (String.mk id)) = true := by
    unfold matchesData
    rw [htopic]
    apply searchFrom_of_matchHere
    unfold matchHere
    rw [matchLit_append]
    exact wordPlusThen_word _ id _ hne hword (by decide)
  simp [onMessage, hmatch]

/-- C1, evaluated on the ids the repository publishes under: the well-formed
data messages of `test/testMqtt.js` (id `test-sensor-1`) and of
`test/testSimulator.js` (ids `temp-room1`, `humidity-room1`) are dispatched to
neither `handleSensorData` nor `handleSensorStatus`, because `\w+` does not
match the hyphen in the id. -/
theorem onMessage_hyphen_id_ignored :
    onMessage (dataTopic "test-sensor-1") true = Dispatch.ignored ∧
    onMessage "sensor/test-sensor-1/data" true = Dispatch.ignored ∧
    onMessage (dataTopic "temp-room1") true = Dispatch.ignored ∧
    onMessage (dataTopic "humidity-room1") true = Dispatch.ignored := by
  decide

end Backend

/-! ## Frontend routing -/

namespace Frontend

/-- C2, evaluated: after `subscribe('sensor/+/data', h)` on a fresh service,
`notifySubscribers` on `sensor/a/data` and on `sensor/b/data` calls nothing
(and neither does it on `sensor/a/b/data`): the table is looked up with the
topic as the literal key. -/
theorem notify_wildcard_key_not_reached (h : Handler) (throws : Handler → Data → Bool)
    (data : Data) :
    invoked (subscribe init "sensor/+/data" h).1 throws "sensor/a/data" data = [] ∧
    invoked (subscribe init "sensor/+/data" h).1 throws "sensor/b/data" data = [] ∧
    invoked (subscribe init "sensor/+/data" h).1 throws "sensor/a/b/data" data = [] ∧
    structuralMatch "sensor/+/data" "sensor/a/data" = true ∧
    structuralMatch "sensor/+/data" "sensor/b/data" = true ∧
    structuralMatch "sensor/+/data" "sensor/a/b/data" = false := by
  refine ⟨?_, ?_, ?_, by decide, by decide, by decide⟩ <;>
    simp [invoked, notifySubscribers, subscribe, init, mapHas, mapGet, mapSet, setAdd, callsOf]

/-- C3, evaluated: with `h1` under `sensor/+/data` and `h2` under `sensor/#`,
both of which match the topic `sensor/a/data` structurally,
`notifySubscribers` on `sensor/a/data` calls neither of them. -/
theorem notify_overlapping_patterns_none (h1 h2 : Handler) (throws : Handler → Data → Bool)
    (data : Data) :
    structuralMatch "sensor/+/data" "sensor/a/data" = true ∧
    structuralMatch "sensor/#" "sensor/a/data" = true ∧
    handlersOf (subscribe (subscribe init "sensor/+/data" h1).1 "sensor/#" h2).1
      "sensor/+/data" = [h1] ∧
    handlersOf (subscribe (subscribe init "sensor/+/data" h1).1 "sensor/#" h2).1
      "sensor/#" = [h2] ∧
    invoked (subscribe (subscribe init "sensor/+/data" h1).1 "sensor/#" h2).1 throws
      "sensor/a/data" data = [] := by
  refine ⟨by decide, by decide, ?_, ?_, ?_⟩ <;>
    simp [invoked, handlersOf, notifySubscribers, subscribe, init, mapHas, mapGet, mapSet,
      setAdd, callsOf]

theorem segmentsMatch_self (xs : List String) : segmentsMatch xs xs = true := by
  induction xs with
  | nil => rfl
  | cons x xs ih => simp [segmentsMatch, ih]

theorem structuralMatch_self (p : String) : structuralMatch p p = true :=
  segmentsMatch_self _

theorem mem_callsOf_forEachCall (throws : Handler → Data → Bool) (data : Data)
    (cbs : List Handler) (h : Handler)
    (hmem : h ∈ callsOf (forEachCall throws data cbs).1) : h ∈ cbs := by
  induction cbs with
  | nil => simp [forEachCall, callsOf] at hmem
  | cons c cs ih =>
    by_cases ht : throws c data = true
    · simp [forEachCall, ht, callsOf] at hmem
      simp [hmem]
    · simp [forEachCall, ht, callsOf] at hmem
      rcases hmem with rfl | hmem
      · simp
      · exact List.mem_cons_of_mem _ (ih hmem)

/-- C4: whatever the subscriber table and the topic, a callback that
`notifySubscribers(topic, data)` calls is registered under a pattern that
matches the topic structurally (`+` one segment, trailing `#` the rest, a
literal itself); the pattern is the topic itself. -/
theorem notify_only_structural_match (s : Service) (throws : Handler → Data → Bool)
    (topic : String) (data : Data) (h : Handler)
    (hmem : h ∈ invoked s throws topic data) :
    ∃ pattern callbacks, mapGet s.subscribers pattern = some callbacks ∧ h ∈ callbacks ∧
      structuralMatch pattern topic = true := by
  unfold invoked notifySubscribers at hmem
  cases hget : mapGet s.subscribers topic with
  | none => simp [hget, callsOf] at hmem
  | some cbs =>
    rw [hget] at hmem
    exact ⟨topic, cbs, hget, mem_callsOf_forEachCall throws data cbs h hmem,
      structuralMatch_self topic⟩

/-- C4 at a concrete table: the callback called for `sensor/a/data` is the one
registered under the key `sensor/a/data`. -/
theorem notify_only_structural_match_witness :
    (5 : Handler) ∈ invoked (subscribe init "sensor/a/data" 5).1 noThrow "sensor/a/data" "x" ∧
    ∃ pattern callbacks,
      mapGet (subscribe init "sensor/a/data" 5).1.subscribers pattern = some callbacks ∧
      5 ∈ callbacks ∧ structuralMatch pattern "sensor/a/data" = true :=
  ⟨by decide,
   notify_only_structural_match (subscribe init "sensor/a/data" 5).1 noThrow "sensor/a/data"
     "x" 5 (by decide)⟩

theorem forEachCall_until_throw (throws : Handler → Data → Bool) (data : Data)
    (pre post : List Handler) (h : Handler)
    (hpre : ∀ g ∈ pre, throws g data = false) (hthrow : throws h data = true) :
    forEachCall throws data (pre ++ h :: post) =
      (pre.map (fun g => Effect.call g data) ++ [Effect.call h data], true) := by
  induction pre with
  | nil => simp [forEachCall, hthrow]
  | cons c cs ih =>
    have hc : throws c data = false := hpre c (List.mem_cons_self _ _)
    have hcs : ∀ g ∈ cs, throws g data = false :=
      fun g hg => hpre g (List.mem_cons_of_mem _ hg)
    simp [forEachCall, hc, ih hcs]

/-- C5, refuted: with the callbacks `1` and `2` registered under one key, in
that order, and `1` throwing, `notifySubscribers` calls `1` only: `2` is not
called for the message. -/
theorem notify_throw_skips_later_handler :
    handlersOf (subscribe (subscribe init "sensor/a/data" 1).1 "sensor/a/data" 2).1
      "sensor/a/data" = [1, 2] ∧
    invoked (subscribe (subscribe init "sensor/a/data" 1).1 "sensor/a/data" 2).1
      (fun h _ => h == 1) "sensor/a/data" "x" = [1] ∧
    (2 : Handler) ∉ invoked (subscribe (subscribe init "sensor/a/data" 1).1 "sensor/a/data" 2).1
      (fun h _ => h == 1) "sensor/a/data" "x" := by
  decide

/-- C5, amended: when the callbacks under the key of a message are
`pre ++ h :: post`, no callback of `pre` throws and `h` throws, the `message`
handler calls the callbacks of `pre` and then `h`, calls none of `post`, and
logs the error once in its `catch`. -/
theorem onMessage_throw_caught_once (s : Service) (throws : Handler → Data → Bool)
    (topic : String) (data : Data) (pre post : List Handler) (h : Handler)
    (hget : mapGet s.subscribers topic = some (pre ++ h :: post))
    (hpre : ∀ g ∈ pre, throws g data = false) (hthrow : throws h data = true) :
    onMessage s throws topic (some data) =
      pre.map (fun g => Effect.call g data) ++ [Effect.call h data, processingError] := by
  simp [onMessage, notifySubscribers, hget,
    forEachCall_until_throw throws data pre post h hpre hthrow, processingError]

/-- C5, amended, at a concrete table: callbacks `1, 2, 3` under one key, `2`
throwing. -/
theorem onMessage_throw_caught_once_witness :
    onMessage { client := none, subscribers := [("sensor/a/data", [1, 2, 3])], connected := true }
      (fun h _ => h == 2) "sensor/a/data" (some "x") =
      [Effect.call 1 "x", Effect.call 2 "x", processingError] :=
  onMessage_throw_caught_once
    { client := none, subscribers := [("sensor/a/data", [1, 2, 3])], connected := true }
    (fun h _ => h == 2) "sensor/a/data" "x" [1] [3] 2 (by decide) (by decide) (by decide)

/-! ## Unsubscribing -/

theorem setAdd_ne_nil (cbs : CallbackSet) (h : Handler) : setAdd cbs h ≠ [] := by
  unfold setAdd
  by_cases hm : h ∈ cbs
  · simp only [hm, if_true]
    exact List.ne_nil_of_mem hm
  · simp [hm]

theorem subscribe_noEmptySet (s : Service) (p : String) (h : Handler)
    (hs : NoEmptySet s.subscribers) : NoEmptySet (subscribe s p h).1.subscribers := by
  intro q
  by_cases hq : q = p
  · subst hq
    simp only [subscribe, mapGet_mapSet_same]
    intro hc
    exact setAdd_ne_nil _ _ (Option.some.inj hc)
  · simp only [subscribe, mapGet_mapSet_other _ _ _ _ hq]
    by_cases hhas : mapHas s.subscribers p = true
    · simpa [hhas] using hs q
    · simpa [hhas, mapGet_mapSet_other _ _ _ _ hq] using hs q

theorem unsubscribe_get_other (s : Service) (u : Handle) (q : String) (hq : q ≠ u.topic) :
    mapGet (unsubscribe s u).subscribers q = mapGet s.subscribers q := by
  unfold unsubscribe
  cases hget : mapGet s.subscribers u.topic with
  | none => rfl
  | some cbs =>
    by_cases hlen : (setDelete cbs u.callback).length = 0
    · simp [hlen, mapGet_mapDelete_other _ _ _ hq, mapGet_mapSet_other _ _ _ _ hq]
    · simp [hlen, mapGet_mapSet_other _ _ _ _ hq]

theorem unsubscribe_get_same (s : Service) (u : Handle) :
    mapGet (unsubscribe s u).subscribers u.topic =
      match mapGet s.subscribers u.topic with
      | none => none
      | some cbs => if setDelete cbs u.callback = [] then none else some (setDelete cbs u.callback) := by
  unfold unsubscribe
  cases hget : mapGet s.subscribers u.topic with
  | none => simp [hget]
  | some cbs =>
    by_cases hlen : setDelete cbs u.callback = []
    · simp [hlen, mapGet_mapDelete_same]
    · have hlen2 : ¬ (setDelete cbs u.callback).length = 0 := by
        simpa [List.length_eq_zero] using hlen
      simp [hlen, hlen2, mapGet_mapSet_same]

theorem unsubscribe_handlersOf_same (s : Service) (u : Handle) :
    handlersOf (unsubscribe s u) u.topic = setDelete (handlersOf s u.topic) u.callback := by
  unfold handlersOf
  rw [unsubscribe_get_same]
  cases hget : mapGet s.subscribers u.topic with
  | none => simp [setDelete]
  | some cbs =>
    by_cases hlen : setDelete cbs u.callback = []
    · simp [hlen]
    · simp [hlen]

theorem unsubscribe_noEmptySet (s : Service) (u : Handle)
    (hs : NoEmptySet s.subscribers) : NoEmptySet (unsubscribe s u).subscribers := by
  intro q
  by_cases hq : q = u.topic
  · subst hq
    rw [unsubscribe_get_same]
    cases hget : mapGet s.subscribers u.topic with
    | none => simp
    | some cbs =>
      by_cases hlen : setDelete cbs u.callback = []
      · simp [hlen]
      · simp [hlen]
  · rw [unsubscribe_get_other s u q hq]
    exact hs q

theorem reachable_noEmptySet (s : Service) (hs : Reachable s) : NoEmptySet s.subscribers := by
  induction hs with
  | init => intro q; simp [init, mapGet]
  | connect s url _ ih =>
    unfold connect
    cases s.client <;> simpa using ih
  | onConnect s _ ih =>
    unfold onConnect
    cases s.client <;> simpa using ih
  | onError s _ ih => simpa [onError] using ih
  | onClose s _ ih => simpa [onClose] using ih
  | subscribe s p h _ ih => exact subscribe_noEmptySet s p h ih
  | unsubscribe s u _ ih => exact unsubscribe_noEmptySet s u ih
  | disconnect s _ ih =>
    unfold disconnect
    cases s.client with
    | none => simpa using ih
    | some c => intro q; simp [mapGet]

theorem setAdd_nodup (cbs : CallbackSet) (h : Handler) (hn : cbs.Nodup) :
    (setAdd cbs h).Nodup := by
  unfold setAdd
  by_cases hm : h ∈ cbs
  · simpa [hm] using hn
  · simp only [hm, if_false]
    exact List.Nodup.append hn (List.nodup_singleton h) (by simpa using hm)

theorem subscribe_setsNodup (s : Service) (p : String) (h : Handler)
    (hs : SetsNodup s.subscribers) : SetsNodup (subscribe s p h).1.subscribers := by
  intro q cbs hget
  by_cases hq : q = p
  · subst hq
    simp only [subscribe, mapGet_mapSet_same, Option.some.injEq] at hget
    rw [← hget]
    apply setAdd_nodup
    by_cases hhas : mapHas s.subscribers q = true
    · simp only [hhas, Bool.not_true, Bool.false_eq_true, if_false]
      cases hg : mapGet s.subscribers q with
      | none => simp
      | some old => simpa using hs q old hg
    · simp [hhas, mapGet_mapSet_same]
  · simp only [subscribe, mapGet_mapSet_other _ _ _ _ hq] at hget
    by_cases hhas : mapHas s.subscribers p = true
    · simp only [hhas, Bool.not_true, Bool.false_eq_true, if_false] at hget
      exact hs q cbs hget
    · simp only [hhas, Bool.not_false, if_true, mapGet_mapSet_other _ _ _ _ hq] at hget
      exact hs q cbs hget

theorem unsubscribe_setsNodup (s : Service) (u : Handle)
    (hs : SetsNodup s.subscribers) : SetsNodup (unsubscribe s u).subscribers := by
  intro q cbs hget
  by_cases hq : q = u.topic
  · subst hq
    rw [unsubscribe_get_same] at hget
    cases hg : mapGet s.subscribers u.topic with
    | none => simp [hg] at hget
    | some old =>
      rw [hg] at hget
      by_cases hlen : setDelete old u.callback = []
      · simp [hlen] at hget
      · simp only [hlen, if_false, Option.some.injEq] at hget
        rw [← hget]
        exact List.Nodup.filter _ (hs _ old hg)
  · rw [unsubscribe_get_other s u q hq] at hget
    exact hs q cbs hget

theorem reachable_setsNodup (s : Service) (hs : Reachable s) : SetsNodup s.subscribers := by
  induction hs with
  | init => intro q cbs hget; simp [init, mapGet] at hget
  | connect s url _ ih =>
    unfold connect
    cases s.client <;> simpa using ih
  | onConnect s _ ih =>
    unfold onConnect
    cases s.client <;> simpa using ih
  | onError s _ ih => simpa [onError] using ih
  | onClose s _ ih => simpa [onClose] using ih
  | subscribe s p h _ ih => exact subscribe_setsNodup s p h ih
  | unsubscribe s u _ ih => exact unsubscribe_setsNodup s u ih
  | disconnect s _ ih =>
    unfold disconnect
    cases s.client with
    | none => simpa using ih
    | some c => intro q cbs hget; simp [mapGet] at hget

theorem unsubscribe_fields (s : Service) (u : Handle) :
    (unsubscribe s u).client = s.client ∧ (unsubscribe s u).connected = s.connected := by
  unfold unsubscribe
  cases mapGet s.subscribers u.topic with
  | none => exact ⟨rfl, rfl⟩
  | some cbs =>
    by_cases hlen : (setDelete cbs u.callback).length = 0 <;> simp [hlen]

/-- C6: a call of the function returned by `subscribe(p, h)`, in any state `t`
the service can be in, removes `h` from the set under `p` and nothing else:
the set under `p` is the former one without `h` (every other callback stays,
in its place), the entry of every other key is the former one, the key `p` is
absent when its set has become empty, no key of the table maps to an empty
set, and `client` and `connected` are untouched. -/
theorem unsubscribe_removes_exactly (s t : Service) (p : String) (h : Handler)
    (ht : Reachable t) :
    handlersOf (unsubscribe t (subscribe s p h).2) p = (handlersOf t p).filter (fun g => g != h) ∧
    h ∉ handlersOf (unsubscribe t (subscribe s p h).2) p ∧
    (∀ g, g ≠ h → (g ∈ handlersOf (unsubscribe t (subscribe s p h).2) p ↔ g ∈ handlersOf t p)) ∧
    (∀ q, q ≠ p →
      mapGet (unsubscribe t (subscribe s p h).2).subscribers q = mapGet t.subscribers q) ∧
    (handlersOf (unsubscribe t (subscribe s p h).2) p = [] →
      mapHas (unsubscribe t (subscribe s p h).2).subscribers p = false) ∧
    NoEmptySet (unsubscribe t (subscribe s p h).2).subscribers ∧
    (unsubscribe t (subscribe s p h).2).client = t.client ∧
    (unsubscribe t (subscribe s p h).2).connected = t.connected := by
  have hu : (subscribe s p h).2 = { topic := p, callback := h } := rfl
  rw [hu]
  have hsame := unsubscribe_handlersOf_same t { topic := p, callback := h }
  have hne := unsubscribe_noEmptySet t { topic := p, callback := h } (reachable_noEmptySet t ht)
  simp only [setDelete] at hsame
  refine ⟨hsame, ?_, ?_, ?_, ?_, hne, unsubscribe_fields t _⟩
  · rw [hsame]
    simp
  · intro g hg
    rw [hsame]
    simp [hg]
  · intro q hq
    exact unsubscribe_get_other t { topic := p, callback := h } q hq
  · intro hempty
    have hq := hne p
    unfold handlersOf at hempty
    unfold mapHas
    cases hget : mapGet (unsubscribe t { topic := p, callback := h }).subscribers p with
    | none => rfl
    | some cbs =>
      rw [hget] at hempty hq
      simp only [Option.getD_some] at hempty
      exact absurd (by rw [hempty]) hq

/-- C6 at a concrete table: `1` and `2` under `sensor/+/data`, `3` under
`sensor/+/status`; the handle of `1` is called. -/
theorem unsubscribe_removes_exactly_witness :
    Reachable (subscribe (subscribe (subscribe init "sensor/+/data" 1).1 "sensor/+/data" 2).1
      "sensor/+/status" 3).1 ∧
    handlersOf (unsubscribe (subscribe (subscribe (subscribe init "sensor/+/data" 1).1
      "sensor/+/data" 2).1 "sensor/+/status" 3).1 (subscribe init "sensor/+/data" 1).2)
      "sensor/+/data" = [2] :=
  ⟨Reachable.subscribe _ _ _ (Reachable.subscribe _ _ _ (Reachable.subscribe _ _ _ Reachable.init)),
   (unsubscribe_removes_exactly init
      (subscribe (subscribe (subscribe init "sensor/+/data" 1).1 "sensor/+/data" 2).1
        "sensor/+/status" 3).1 "sensor/+/data" 1
      (Reachable.subscribe _ _ _
        (Reachable.subscribe _ _ _ (Reachable.subscribe _ _ _ Reachable.init)))).1.trans
     (by decide)⟩

theorem callsOf_forEachCall_setDelete (throws : Handler → Data → Bool) (data : Data)
    (cbs : List Handler) (h g : Handler) (hg : g ≠ h)
    (hmem : g ∈ callsOf (forEachCall throws data cbs).1) :
    g ∈ callsOf (forEachCall throws data (setDelete cbs h)).1 := by
  induction cbs with
  | nil => simp [forEachCall, callsOf] at hmem
  | cons c cs ih =>
    by_cases hc : c = h
    · have hdel : setDelete (c :: cs) h = setDelete cs h := by simp [setDelete, hc]
      rw [hdel]
      by_cases ht : throws c data = true
      · simp [forEachCall, ht, callsOf] at hmem
        exact absurd (hmem.trans hc) hg
      · simp [forEachCall, ht, callsOf] at hmem
        rcases hmem with hgc | hmem
        · exact absurd (hgc.trans hc) hg
        · exact ih hmem
    · have hdel : setDelete (c :: cs) h = c :: setDelete cs h := by simp [setDelete, hc]
      rw [hdel]
      by_cases ht : throws c data = true
      · simp [forEachCall, ht, callsOf] at hmem
        simp [forEachCall, ht, callsOf, hmem]
      · simp [forEachCall, ht, callsOf] at hmem
        rcases hmem with hgc | hmem
        · simp [forEachCall, ht, callsOf, hgc]
        · have := ih hmem
          simp [forEachCall, ht, callsOf, this]

theorem unsubscribe_of_absent (s : Service) (u : Handle)
    (hget : mapGet s.subscribers u.topic = none) : unsubscribe s u = s := by
  simp [unsubscribe, hget]

theorem unsubscribe_of_rest (s : Service) (u : Handle) (cbs : CallbackSet)
    (hget : mapGet s.subscribers u.topic = some cbs) (hrest : setDelete cbs u.callback ≠ []) :
    unsubscribe s u =
      { s with subscribers := mapSet s.subscribers u.topic (setDelete cbs u.callback) } := by
  have hlen : ¬ (setDelete cbs u.callback).length = 0 := by
    simpa [List.length_eq_zero] using hrest
  simp [unsubscribe, hget, hlen]

theorem unsubscribe_idem (t : Service) (u : Handle) :
    unsubscribe (unsubscribe t u) u = unsubscribe t u := by
  have hsame := unsubscribe_get_same t u
  cases hget : mapGet t.subscribers u.topic with
  | none =>
    rw [unsubscribe_of_absent t u hget, unsubscribe_of_absent t u hget]
  | some cbs =>
    rw [hget] at hsame
    by_cases hlen : setDelete cbs u.callback = []
    · simp only [hlen, if_true] at hsame
      exact unsubscribe_of_absent _ u hsame
    · simp only [hlen, if_false] at hsame
      have hfix : setDelete (setDelete cbs u.callback) u.callback = setDelete cbs u.callback := by
        simp [setDelete, List.filter_filter]
      have hrest : setDelete (setDelete cbs u.callback) u.callback ≠ [] := by
        rw [hfix]
        exact hlen
      rw [unsubscribe_of_rest _ u _ hsame hrest, hfix]
      rw [unsubscribe_of_rest t u cbs hget hlen]
      simp [mapSet_mapSet]

/-- C7, refuted: the handle `u1` of a first `subscribe(p, 1)` is called, the
same function is subscribed again under `p` by a second call of `subscribe`,
and `u1` is called a second time: the second subscription, whose own handle
was never called, is gone and its callback is no longer called. -/
theorem stale_handle_removes_later_subscription :
    (1 : Handler) ∈ handlersOf
      (subscribe (unsubscribe (subscribe init "sensor/a/status" 1).1
        (subscribe init "sensor/a/status" 1).2) "sensor/a/status" 1).1 "sensor/a/status" ∧
    handlersOf
      (unsubscribe
        (subscribe (unsubscribe (subscribe init "sensor/a/status" 1).1
          (subscribe init "sensor/a/status" 1).2) "sensor/a/status" 1).1
        (subscribe init "sensor/a/status" 1).2) "sensor/a/status" = [] ∧
    invoked
      (unsubscribe
        (subscribe (unsubscribe (subscribe init "sensor/a/status" 1).1
          (subscribe init "sensor/a/status" 1).2) "sensor/a/status" 1).1
        (subscribe init "sensor/a/status" 1).2) noThrow "sensor/a/status" "x" = [] := by
  decide

/-- C7, amended: in any state `t`, a further call of a handle `u` changes
nothing when it directly follows a call of `u`, and whenever it is made it
leaves every subscription under another pattern or with another callback
registered and called as before; `client` and `connected` are untouched. -/
theorem unsubscribe_again_spares_others (t : Service) (u : Handle)
    (throws : Handler → Data → Bool) :
    unsubscribe (unsubscribe t u) u = unsubscribe t u ∧
    (∀ q g, (q ≠ u.topic ∨ g ≠ u.callback) → g ∈ handlersOf t q →
      g ∈ handlersOf (unsubscribe t u) q) ∧
    (∀ q g data, (q ≠ u.topic ∨ g ≠ u.callback) → g ∈ invoked t throws q data →
      g ∈ invoked (unsubscribe t u) throws q data) ∧
    (unsubscribe t u).client = t.client ∧ (unsubscribe t u).connected = t.connected := by
  refine ⟨unsubscribe_idem t u, ?_, ?_, unsubscribe_fields t u⟩
  · intro q g hne hmem
    by_cases hq : q = u.topic
    · subst hq
      have hg : g ≠ u.callback := by
        rcases hne with h1 | h1
        · exact absurd rfl h1
        · exact h1
      rw [unsubscribe_handlersOf_same]
      simp [setDelete, hmem, hg]
    · unfold handlersOf at hmem ⊢
      rw [unsubscribe_get_other t u q hq]
      exact hmem
  · intro q g data hne hmem
    by_cases hq : q = u.topic
    · subst hq
      have hg : g ≠ u.callback := by
        rcases hne with h1 | h1
        · exact absurd rfl h1
        · exact h1
      unfold invoked notifySubscribers at hmem ⊢
      rw [unsubscribe_get_same]
      cases hget : mapGet t.subscribers u.topic with
      | none => simp [hget, callsOf] at hmem
      | some cbs =>
        rw [hget] at hmem
        have hkeep := callsOf_forEachCall_setDelete throws data cbs u.callback g hg hmem
        by_cases hlen : setDelete cbs u.callback = []
        · rw [hlen] at hkeep
          simp [forEachCall, callsOf] at hkeep
        · simpa [hlen] using hkeep
    · unfold invoked notifySubscribers at hmem ⊢
      rw [unsubscribe_get_other t u q hq]
      exact hmem

/-- C7, amended, at a concrete table: `1` and `2` under `sensor/+/data`; the
handle of `1` is called twice and `2` stays registered. -/
theorem unsubscribe_again_spares_others_witness :
    (2 : Handler) ∈ handlersOf
      (unsubscribe
        (unsubscribe (subscribe (subscribe init "sensor/+/data" 1).1 "sensor/+/data" 2).1
          { topic := "sensor/+/data", callback := 1 })
        { topic := "sensor/+/data", callback := 1 }) "sensor/+/data" :=
  (unsubscribe_again_spares_others
    (unsubscribe (subscribe (subscribe init "sensor/+/data" 1).1 "sensor/+/data" 2).1
      { topic := "sensor/+/data", callback := 1 })
    { topic := "sensor/+/data", callback := 1 } noThrow).2.1 "sensor/+/data" 2
    (Or.inr (by decide)) (by decide)

/-! ## Connection events and `disconnect` -/

/-- C8, refuted: `disconnect()` on a connected service with one subscription
empties the subscribers map. -/
theorem disconnect_empties_table :
    (subscribe (connect init "ws://localhost:8083/mqtt").1 "sensor/+/data" 1).1.subscribers =
      [("sensor/+/data", [1])] ∧
    (disconnect
      (subscribe (connect init "ws://localhost:8083/mqtt").1 "sensor/+/data" 1).1).1.subscribers
      = [] ∧
    (disconnect
      (subscribe (connect init "ws://localhost:8083/mqtt").1 "sensor/+/data" 1).1).1.subscribers
      ≠ (subscribe (connect init "ws://localhost:8083/mqtt").1 "sensor/+/data" 1).1.subscribers := by
  decide

/-- C8, amended: with a client, `disconnect()` ends the client, sets
`client` to `null` and `connected` to `false`, and empties the subscribers
map; without a client it does nothing. -/
theorem disconnect_spec (s : Service) :
    (∀ c, s.client = some c →
      disconnect s =
        ({ client := none, subscribers := [], connected := false }, [Effect.clientEnd])) ∧
    (s.client = none → disconnect s = (s, [])) := by
  constructor
  · intro c hc
    simp [disconnect, hc]
  · intro hc
    simp [disconnect, hc]

/-- C8, amended, at the state of the refutation. -/
theorem disconnect_spec_witness :
    disconnect (subscribe (connect init "ws://localhost:8083/mqtt").1 "sensor/+/data" 1).1 =
      ({ client := none, subscribers := [], connected := false }, [Effect.clientEnd]) :=
  (disconnect_spec
    (subscribe (connect init "ws://localhost:8083/mqtt").1 "sensor/+/data" 1).1).1
    { brokerUrl := "ws://localhost:8083/mqtt" } (by decide)

/-- C9, refuted: in the state the Dashboard effect sets up (`connect()`, then
callbacks under `sensor/+/data`, `sensor/+/status` and `sensor/+/config`), the
`connect` event sets `connected` but issues no wire-level subscribe for the
registered pattern `sensor/+/config`. -/
theorem onConnect_skips_registered_pattern :
    mapHas
      (subscribe (subscribe (subscribe (connect init "ws://localhost:8083/mqtt").1
        "sensor/+/data" 1).1 "sensor/+/status" 2).1 "sensor/+/config" 3).1.subscribers
      "sensor/+/config" = true ∧
    (onConnect
      (subscribe (subscribe (subscribe (connect init "ws://localhost:8083/mqtt").1
        "sensor/+/data" 1).1 "sensor/+/status" 2).1 "sensor/+/config" 3).1).1.connected = true ∧
    Effect.wireSubscribe "sensor/+/config" ∉
      (onConnect
        (subscribe (subscribe (subscribe (connect init "ws://localhost:8083/mqtt").1
          "sensor/+/data" 1).1 "sensor/+/status" 2).1 "sensor/+/config" 3).1).2 := by
  decide

/-- C9, amended: on every `connect` event of an existing client the service
sets `connected`, leaves the subscriber table as it is, and issues a
wire-level subscribe for `sensor/+/data` and for `sensor/+/status`; what it
issues is the same whatever the table holds. -/
theorem onConnect_fixed_subscriptions (s : Service) (c : Client) (hc : s.client = some c) :
    (onConnect s).1.connected = true ∧
    (onConnect s).1.subscribers = s.subscribers ∧
    (onConnect s).1.client = s.client ∧
    Effect.wireSubscribe "sensor/+/data" ∈ (onConnect s).2 ∧
    Effect.wireSubscribe "sensor/+/status" ∈ (onConnect s).2 ∧
    (∀ table, (onConnect { s with subscribers := table }).2 = (onConnect s).2) := by
  simp [onConnect, hc]

/-- C9, amended, at the state of the Dashboard. -/
theorem onConnect_fixed_subscriptions_witness :
    Effect.wireSubscribe "sensor/+/data" ∈
      (onConnect
        (subscribe (subscribe (subscribe (connect init "ws://localhost:8083/mqtt").1
          "sensor/+/data" 1).1 "sensor/+/status" 2).1 "sensor/+/config" 3).1).2 :=
  (onConnect_fixed_subscriptions
    (subscribe (subscribe (subscribe (connect init "ws://localhost:8083/mqtt").1
      "sensor/+/data" 1).1 "sensor/+/status" 2).1 "sensor/+/config" 3).1
    { brokerUrl := "ws://localhost:8083/mqtt" } (by decide)).2.2.2.1

end Frontend

/-! ## Backend `publish` -/

namespace Backend

/-- C10, refuted: the service is connected and the transport does not throw,
but `JSON.stringify(message)` throws (as it does on a circular object):
`publish` returns `false` and hands nothing to the transport. -/
theorem publish_rejects_unserialisable :
    (onConnect (init "mqtt://localhost:1883" false)).1.connected = true ∧
    publish (onConnect (init "mqtt://localhost:1883" false)).1 (fun _ => none) false
      "sensor/test-sensor-1/data" "circular" PublishOptions.default =
      (false, [Effect.consoleError "Error publishing message:"]) ∧
    sent (publish (onConnect (init "mqtt://localhost:1883" false)).1 (fun _ => none) false
      "sensor/test-sensor-1/data" "circular" PublishOptions.default).2 = [] := by
  decide

/-- C10, amended: when `connected` is false, `publish` returns `false` and
hands nothing to the transport, whatever the transport would do; when
`connected` is true, `JSON.stringify(message)` returns `payload` and the
transport call does not throw, `publish` returns `true` and hands the
transport exactly the one message `payload` on `topic` with the given options;
when `connected` is true and `JSON.stringify(message)` throws, or the
transport call throws, `publish` returns `false` and hands the transport
nothing. -/
theorem publish_contract (s : Service) (stringify : Message → Option String)
    (topic : String) (message : Message) (options : PublishOptions) :
    (s.connected = false → ∀ transportThrows,
      (publish s stringify transportThrows topic message options).1 = false ∧
      sent (publish s stringify transportThrows topic message options).2 = []) ∧
    (s.connected = true → ∀ payload, stringify message = some payload →
      (publish s stringify false topic message options).1 = true ∧
      (publish s stringify false topic message options).2 =
        [Effect.wirePublish topic payload options] ∧
      sent (publish s stringify false topic message options).2 = [(topic, payload, options)]) ∧
    (s.connected = true → stringify message = none → ∀ transportThrows,
      (publish s stringify transportThrows topic message options).1 = false ∧
      sent (publish s stringify transportThrows topic message options).2 = []) ∧
    (s.connected = true →
      (publish s stringify true topic message options).1 = false ∧
      sent (publish s stringify true topic message options).2 = []) := by
  refine ⟨?_, ?_, ?_, ?_⟩
  · intro hc tt
    simp [publish, hc, sent]
  · intro hc payload hp
    simp [publish, hc, hp, sent]
  · intro hc hp tt
    simp [publish, hc, hp, sent]
  · intro hc
    cases hp : stringify message <;> simp [publish, hc, hp, sent]

/-- C10, amended, at concrete states: a disconnected service rejects, a
connected one sends the reading of `test/testMqtt.js` once. -/
theorem publish_contract_witness :
    (publish (init "mqtt://localhost:1883" false) some true
      "sensor/test-sensor-1/data" "x" PublishOptions.default).1 = false ∧
    sent (publish (onConnect (init "mqtt://localhost:1883" false)).1 some false
        "sensor/test-sensor-1/data" "x" PublishOptions.default).2 =
      [("sensor/test-sensor-1/data", "x", PublishOptions.default)] :=
  ⟨((publish_contract (init "mqtt://localhost:1883" false) some
      "sensor/test-sensor-1/data" "x" PublishOptions.default).1 rfl true).1,
   ((publish_contract (onConnect (init "mqtt://localhost:1883" false)).1 some
      "sensor/test-sensor-1/data" "x" PublishOptions.default).2.1 rfl "x" rfl).2.2⟩

end Backend

/-! ## Backend connection state -/

namespace Backend

theorem getLast?_cons_eq (a : Event) (l : List Event) :
    (a :: l).getLast? = some ((l.getLast?).getD a) := by
  cases l with
  | nil => rfl
  | cons b t =>
    rw [List.getLast?_cons_cons]
    cases h : (b :: t).getLast? with
    | none => simp at h
    | some x => rfl

theorem handle_connected (s : Service) (e : Event) :
    (handle s e).connected =
      if e.isConnection then decide (e = Event.connect) else s.connected := by
  cases e <;> simp [handle, onConnect, onReconnect, onError, onClose, onOffline, Event.isConnection]

theorem run_connected (s : Service) (events : List Event) :
    (run s events).connected =
      match lastConnectionEvent events with
      | none => s.connected
      | some e => decide (e = Event.connect) := by
  induction events generalizing s with
  | nil => rfl
  | cons e es ih =>
    have hrun : run s (e :: es) = run (handle s e) es := rfl
    rw [hrun, ih (handle s e), handle_connected]
    unfold lastConnectionEvent
    by_cases he : e.isConnection = true
    · rw [List.filter_cons_of_pos he, getLast?_cons_eq]
      cases hl : (List.filter Event.isConnection es).getLast? with
      | none => simp [he]
      | some x => simp
    · rw [List.filter_cons_of_neg he]
      cases hl : (List.filter Event.isConnection es).getLast? with
      | none => simp [he]
      | some x => simp

theorem run_stays_disconnected (s : Service) (post : List Event)
    (hs : s.connected = false) (hpost : Event.connect ∉ post) :
    (run s post).connected = false := by
  induction post generalizing s with
  | nil => exact hs
  | cons e es ih =>
    have hrun : run s (e :: es) = run (handle s e) es := rfl
    rw [hrun]
    apply ih
    · rw [handle_connected]
      have hne : e ≠ Event.connect := fun h => hpost (h ▸ List.mem_cons_self _ _)
      by_cases he : e.isConnection = true
      · simp [he, hne]
      · simp [he, hs]
    · exact fun h => hpost (List.mem_cons_of_mem _ h)

theorem run_append (s : Service) (a b : List Event) : run s (a ++ b) = run (run s a) b := by
  simp [run, List.foldl_append]

/-- C11: after any sequence of client events on a fresh service,
`isConnected()` is true exactly when the most recent of the events `connect`,
`reconnect`, `error`, `close`, `offline` is `connect`; and once one of
`reconnect`, `error`, `close`, `offline` has come, with no `connect` after it,
`publish` returns `false` and hands nothing to the transport. -/
theorem isConnected_iff_last_connect (brokerUrl : String) (connectThrows : Bool)
    (events : List Event) :
    (isConnected (run (init brokerUrl connectThrows) events) = true ↔
      lastConnectionEvent events = some Event.connect) ∧
    (∀ pre loss post, events = pre ++ loss :: post → loss.isLoss = true →
      Event.connect ∉ post →
      ∀ stringify transportThrows topic message options,
        (publish (run (init brokerUrl connectThrows) events) stringify transportThrows topic
          message options).1 = false ∧
        sent (publish (run (init brokerUrl connectThrows) events) stringify transportThrows
          topic message options).2 = []) := by
  constructor
  · unfold isConnected
    rw [run_connected]
    cases h : lastConnectionEvent events with
    | none => simp [init]
    | some e => simp
  · intro pre loss post hev hloss hpost stringify tt topic message options
    have hdis : (run (init brokerUrl connectThrows) events).connected = false := by
      rw [hev, run_append]
      have hrun : run (run (init brokerUrl connectThrows) pre) (loss :: post) =
          run (handle (run (init brokerUrl connectThrows) pre) loss) post := rfl
      rw [hrun]
      apply run_stays_disconnected _ _ _ hpost
      cases loss <;> simp [Event.isLoss] at hloss <;>
        simp [handle, onReconnect, onError, onClose, onOffline]
    simp [publish, hdis, sent]

/-- C11 on the sequence `connect`, a message, `close`, a message. -/
theorem isConnected_iff_last_connect_witness :
    isConnected (run (init "mqtt://localhost:1883" false)
      [Event.connect, Event.message "sensor/a/data" true, Event.close,
       Event.message "sensor/a/data" true]) = false ∧
    (publish (run (init "mqtt://localhost:1883" false)
      [Event.connect, Event.message "sensor/a/data" true, Event.close,
       Event.message "sensor/a/data" true]) some false "sensor/a/data" "x"
      PublishOptions.default).1 = false :=
  ⟨by decide,
   ((isConnected_iff_last_connect "mqtt://localhost:1883" false
      [Event.connect, Event.message "sensor/a/data" true, Event.close,
       Event.message "sensor/a/data" true]).2
      [Event.connect, Event.message "sensor/a/data" true] Event.close
      [Event.message "sensor/a/data" true] rfl rfl (by decide)
      some false "sensor/a/data" "x" PublishOptions.default).1⟩

end Backend

/-! ## Lemmas on maps -/

namespace JsMap

variable {V : Type}

theorem get_set_same (m : List (String × V)) (k : String) (v : V) :
    get (set m k v) k = some v := by
  induction m with
  | nil => simp [set, get]
  | cons e m ih =>
    obtain ⟨k', w⟩ := e
    by_cases hk : k' = k
    · simp [set, get, hk]
    · simp [set, get, hk, ih]

theorem get_set_other (m : List (String × V)) (k q : String) (v : V) (hq : q ≠ k) :
    get (set m k v) q = get m q := by
  induction m with
  | nil =>
    have hk : ¬ k = q := fun h => hq h.symm
    simp [set, get, hk]
  | cons e m ih =>
    obtain ⟨k', w⟩ := e
    by_cases hk : k' = k
    · have hk2 : ¬ k = q := fun h => hq h.symm
      simp [set, get, hk, hk2]
    · by_cases hkq : k' = q
      · subst hkq
        simp [set, get, hk]
      · simp [set, get, hk, hkq, ih]

theorem get_delete_same (m : List (String × V)) (k : String) :
    get (delete m k) k = none := by
  induction m with
  | nil => simp [delete, get]
  | cons e m ih =>
    obtain ⟨k', w⟩ := e
    by_cases hk : k' = k
    · simpa [delete, hk] using ih
    · simpa [delete, hk, get] using ih

theorem get_delete_other (m : List (String × V)) (k q : String) (hq : q ≠ k) :
    get (delete m k) q = get m q := by
  induction m with
  | nil => simp [delete, get]
  | cons e m ih =>
    obtain ⟨k', w⟩ := e
    by_cases hk : k' = k
    · have hk2 : ¬ k = q := fun h => hq h.symm
      simpa [delete, hk, get, hk2] using ih
    · by_cases hkq : k' = q
      · subst hkq
        simp [delete, hk, get]
      · simpa [delete, hk, get, hkq] using ih

theorem get_eq_none_iff (m : List (String × V)) (k : String) :
    get m k = none ↔ k ∉ keys m := by
  induction m with
  | nil => simp [get, keys]
  | cons e m ih =>
    obtain ⟨k', w⟩ := e
    by_cases hk : k' = k
    · simp [get, keys, hk]
    · have hk2 : ¬ k = k' := fun h => hk h.symm
      simpa [get, keys, hk, hk2] using ih

theorem has_eq_true_iff (m : List (String × V)) (k : String) :
    has m k = true ↔ k ∈ keys m := by
  unfold has
  rw [← not_iff_not, ← get_eq_none_iff]
  cases get m k <;> simp

theorem mem_of_get (m : List (String × V)) (k : String) (v : V) (h : get m k = some v) :
    (k, v) ∈ m := by
  induction m with
  | nil => simp [get] at h
  | cons e m ih =>
    obtain ⟨k', w⟩ := e
    by_cases hk : k' = k
    · simp [get, hk] at h
      simp [hk, h]
    · simp [get, hk] at h
      exact List.mem_cons_of_mem _ (ih h)

theorem set_of_absent (m : List (String × V)) (k : String) (v : V) (h : get m k = none) :
    set m k v = m ++ [(k, v)] := by
  induction m with
  | nil => rfl
  | cons e m ih =>
    obtain ⟨k', w⟩ := e
    by_cases hk : k' = k
    · simp [get, hk] at h
    · simp [get, hk] at h
      simp [set, hk, ih h]

theorem keys_set_of_present (m : List (String × V)) (k : String) (v : V)
    (h : k ∈ keys m) : keys (set m k v) = keys m := by
  induction m with
  | nil => simp [keys] at h
  | cons e m ih =>
    obtain ⟨k', w⟩ := e
    by_cases hk : k' = k
    · simp [set, keys, hk]
    · have hk2 : ¬ k = k' := fun h => hk h.symm
      have hm : k ∈ keys m := by simpa [keys, hk2] using h
      have := ih hm
      simp only [keys] at this
      simp [set, keys, hk, this]

theorem keys_set_nodup (m : List (String × V)) (k : String) (v : V)
    (hn : (keys m).Nodup) : (keys (set m k v)).Nodup := by
  by_cases hk : k ∈ keys m
  · rw [keys_set_of_present m k v hk]
    exact hn
  · rw [set_of_absent m k v ((get_eq_none_iff m k).2 hk)]
    simp only [keys, List.map_append, List.map_cons, List.map_nil]
    exact List.Nodup.append hn (List.nodup_singleton k) (by simpa [keys] using hk)

theorem mem_keys_set (m : List (String × V)) (k : String) (v : V) : k ∈ keys (set m k v) := by
  rw [← has_eq_true_iff]
  simp [has, get_set_same]

end JsMap

/-! ## The simulator: sensors -/

namespace Simulator

theorem createSensor_registers (st : State) (sensorId : String)
    (config : Config) (r : ℚ) (now : Nat) :
    JsMap.has (createSensor st sensorId config r now).1.sensors sensorId = true := by
  simp [createSensor, JsMap.has, JsMap.get_set_same]

/-- C12, refuted: `createSensor` with `minValue = 30`, `maxValue = 20` and
`updateInterval = 0` registers the sensor. -/
theorem createSensor_registers_bad_config :
    (30 : ℚ) ≥ 20 ∧ (0 : ℚ) ≤ 0 ∧
    JsMap.has (createSensor init "bad"
      (Config.mk (some 30) (some 20) (some 0) none none) 0 0).1.sensors "bad" = true ∧
    getAllSensors (createSensor init "bad"
      (Config.mk (some 30) (some 20) (some 0) none none) 0 0).1 = ["bad"] := by
  refine ⟨by norm_num, le_refl _, ?_, ?_⟩ <;>
    simp [createSensor, init, getAllSensors, JsMap.has, JsMap.get, JsMap.set, JsMap.keys]

/-- C12, amended: `createSensor` checks nothing: whatever the configuration,
the sensor is registered afterwards and the merged configuration is
returned. -/
theorem createSensor_accepts_every_config (st : State) (sensorId : String) (config : Config)
    (r : ℚ) (now : Nat) :
    JsMap.has (createSensor st sensorId config r now).1.sensors sensorId = true ∧
    sensorId ∈ getAllSensors (createSensor st sensorId config r now).1 ∧
    (createSensor st sensorId config r now).2.2 = mergeConfig config := by
  refine ⟨?_, ?_, rfl⟩
  · simp [createSensor, JsMap.has, JsMap.get_set_same]
  · exact JsMap.mem_keys_set _ _ _

theorem generate_sensors_nodup (st : State) (sensorId : String) (r sn : ℚ) (now : Nat)
    (h : (JsMap.keys st.sensors).Nodup) :
    (JsMap.keys (generateAndPublishData st sensorId r sn now).1.sensors).Nodup := by
  unfold generateAndPublishData
  cases JsMap.get st.sensors sensorId with
  | none => exact h
  | some sensor => exact JsMap.keys_set_nodup _ _ _ h

theorem generate_timers (st : State) (sensorId : String) (r sn : ℚ) (now : Nat) :
    (generateAndPublishData st sensorId r sn now).1.timers = st.timers ∧
    (generateAndPublishData st sensorId r sn now).1.intervalIds = st.intervalIds ∧
    (generateAndPublishData st sensorId r sn now).1.nextTimerId = st.nextTimerId := by
  unfold generateAndPublishData
  cases JsMap.get st.sensors sensorId with
  | none => exact ⟨rfl, rfl, rfl⟩
  | some sensor => exact ⟨rfl, rfl, rfl⟩

theorem reachable_sensors_nodup (st : State) (h : Reachable st) :
    (JsMap.keys st.sensors).Nodup := by
  induction h with
  | init => simp [init, JsMap.keys]
  | createSensor st id config r now _ ih => exact JsMap.keys_set_nodup _ _ _ ih
  | startSensor st id _ ih =>
    unfold startSensor
    cases JsMap.get st.sensors id with
    | none => exact ih
    | some sensor =>
      by_cases hh : JsMap.has st.intervalIds id = true
      · simpa [hh] using ih
      · simpa [hh] using ih
  | stopSensor st id r now _ ih =>
    unfold stopSensor
    cases JsMap.get st.intervalIds id with
    | none => exact ih
    | some i => exact ih
  | fire st tid r sn now _ ih =>
    unfold fire
    cases st.timers.find? (fun t => t.id == tid) with
    | none => exact ih
    | some t => exact generate_sensors_nodup st t.sensorId r sn now ih

/-- C13: after `createSensor(sensorId, config)` in any state the simulator
can be in, the entry of `sensorId` holds, key by key, the value given in
`config` or else the default (`20`, `30`, `5000`, `celsius`, `0.5`), with
`lastValue = (minValue + maxValue) / 2` of the values so merged, whether or
not `sensorId` was registered before; in binary64 arithmetic the value stored
is that expression as JavaScript computes it, the sum rounded and its half
rounded; the entry of every other id is the former one; and `sensorId` is
listed once among the registered ids, none of which is listed twice. -/
theorem createSensor_stores_merged (st : State) (sensorId : String) (config : Config)
    (r : ℚ) (now : Nat) (hst : Reachable st) :
    JsMap.get (createSensor st sensorId config r now).1.sensors sensorId =
      some (Sensor.mk
        (SensorConfig.mk (config.minValue.getD 20) (config.maxValue.getD 30)
          (config.updateInterval.getD 5000) (config.unit.getD "celsius")
          (config.noise.getD (1 / 2)))
        ((config.minValue.getD 20 + config.maxValue.getD 30) / 2)) ∧
    (∀ (lo hi : ℚ) (noise : Ieee.Number),
      (InDoubles.newSensor (Ieee.Number.fin lo) (Ieee.Number.fin hi) noise).lastValue =
        Ieee.half (Ieee.add (Ieee.Number.fin lo) (Ieee.Number.fin hi))) ∧
    (∀ other, other ≠ sensorId →
      JsMap.get (createSensor st sensorId config r now).1.sensors other =
        JsMap.get st.sensors other) ∧
    (getAllSensors (createSensor st sensorId config r now).1).Nodup ∧
    (getAllSensors (createSensor st sensorId config r now).1).count sensorId = 1 := by
  have hnd : (getAllSensors (createSensor st sensorId config r now).1).Nodup :=
    JsMap.keys_set_nodup _ _ _ (reachable_sensors_nodup st hst)
  refine ⟨?_, ?_, ?_, hnd, ?_⟩
  · simp [createSensor, JsMap.get_set_same, newSensor, mergeConfig, defaultConfig, add_comm]
  · intro lo hi noise
    show Ieee.half (Ieee.round (hi + lo)) = Ieee.half (Ieee.round (lo + hi))
    rw [add_comm]
  · intro other hne
    simp [createSensor, JsMap.get_set_other _ _ _ _ hne]
  · exact List.count_eq_one_of_mem hnd (JsMap.mem_keys_set _ _ _)

/-- C13 on a sensor created twice: the second configuration (`30`, `70`,
`percent`, the other keys by default) and its midpoint `50` replace the
first. -/
theorem createSensor_stores_merged_witness :
    Reachable (createSensor init "temp-room1"
      (Config.mk (some 18) (some 28) (some 3000) (some "celsius") none) 0 0).1 ∧
    JsMap.get (createSensor (createSensor init "temp-room1"
      (Config.mk (some 18) (some 28) (some 3000) (some "celsius") none) 0 0).1 "temp-room1"
      (Config.mk (some 30) (some 70) none (some "percent") none) 0 0).1.sensors "temp-room1" =
      some (Sensor.mk (SensorConfig.mk 30 70 5000 "percent" (1 / 2)) 50) :=
  ⟨Reachable.createSensor _ _ _ _ _ Reachable.init,
   (createSensor_stores_merged _ "temp-room1"
      (Config.mk (some 30) (some 70) none (some "percent") none) 0 0
      (Reachable.createSensor _ _ _ _ _ Reachable.init)).1.trans (by norm_num)⟩

/-- C14: `startSensor(sensorId)` throws exactly when `sensorId` is not
registered; the error is the not-found error, and then the state, with its
timers, is the former one and nothing else is done. -/
theorem startSensor_not_found_iff (st : State) (sensorId : String) :
    ((startSensor st sensorId).error ≠ none ↔ JsMap.has st.sensors sensorId = false) ∧
    (JsMap.has st.sensors sensorId = false →
      (startSensor st sensorId).error = some ("Sensor " ++ sensorId ++ " not found") ∧
      (startSensor st sensorId).state = st ∧
      (startSensor st sensorId).state.timers = st.timers ∧
      (startSensor st sensorId).effects = []) := by
  unfold startSensor JsMap.has
  cases hget : JsMap.get st.sensors sensorId with
  | none => simp
  | some sensor =>
    by_cases hh : (JsMap.get st.intervalIds sensorId).isSome = true
    · simp [hh]
    · simp [hh]

/-- C14 on a fresh simulator: no sensor is registered, `startSensor` throws
and starts no timer. -/
theorem startSensor_not_found_iff_witness :
    (startSensor init "temp-room1").error = some "Sensor temp-room1 not found" ∧
    (startSensor init "temp-room1").state.timers = [] :=
  ⟨((startSensor_not_found_iff init "temp-room1").2 rfl).1.trans (by decide),
   ((startSensor_not_found_iff init "temp-room1").2 rfl).2.2.1⟩

end Simulator

/-! ## The simulator: timers -/

namespace Simulator

theorem startSensor_timersMatch (st : State) (sensorId : String) (h : TimersMatch st) :
    TimersMatch (startSensor st sensorId).state := by
  unfold startSensor
  cases hget : JsMap.get st.sensors sensorId with
  | none => exact h
  | some sensor =>
    by_cases hh : JsMap.has st.intervalIds sensorId = true
    · simpa [hh] using h
    · obtain ⟨hmap, hkeys, hids, hfresh⟩ := h
      have hnone : JsMap.get st.intervalIds sensorId = none := by
        unfold JsMap.has at hh
        cases hg : JsMap.get st.intervalIds sensorId with
        | none => rfl
        | some i => simp [hg] at hh
      have hnotin : sensorId ∉ JsMap.keys st.intervalIds := (JsMap.get_eq_none_iff _ _).1 hnone
      simp only [hh, Bool.false_eq_true, if_false]
      refine ⟨?_, ?_, ?_, ?_⟩
      · simp only [List.map_append, List.map_cons, List.map_nil, hmap]
        exact (JsMap.set_of_absent _ _ _ hnone).symm
      · simp only [JsMap.set_of_absent _ _ _ hnone, JsMap.keys, List.map_append, List.map_cons,
          List.map_nil]
        exact List.Nodup.append hkeys (List.nodup_singleton _) (by simpa [JsMap.keys] using hnotin)
      · simp only [List.map_append, List.map_cons, List.map_nil]
        refine List.Nodup.append hids (List.nodup_singleton _) ?_
        simp only [List.disjoint_singleton, List.mem_map, not_exists, not_and]
        intro t ht heq
        exact absurd heq (Nat.ne_of_lt (hfresh t ht))
      · intro t ht
        simp only [List.mem_append, List.mem_singleton] at ht
        rcases ht with ht | ht
        · exact Nat.lt_succ_of_lt (hfresh t ht)
        · subst ht
          exact Nat.lt_succ_self _

theorem clearInterval_eq_filter_sensor (st : State) (sensorId : String) (id : Nat)
    (h : TimersMatch st) (hget : JsMap.get st.intervalIds sensorId = some id) :
    clearInterval st.timers id = st.timers.filter (fun t => t.sensorId != sensorId) := by
  obtain ⟨hmap, hkeys, hids, _⟩ := h
  have hmem : (sensorId, id) ∈ st.timers.map (fun t => (t.sensorId, t.id)) := by
    rw [hmap]
    exact JsMap.mem_of_get _ _ _ hget
  obtain ⟨t0, ht0, hf0⟩ := List.mem_map.1 hmem
  have hs0 : t0.sensorId = sensorId := congrArg Prod.fst hf0
  have hi0 : t0.id = id := congrArg Prod.snd hf0
  have hkeys2 : (st.timers.map (fun t => t.sensorId)).Nodup := by
    have : JsMap.keys st.intervalIds = st.timers.map (fun t => t.sensorId) := by
      rw [← hmap]
      simp [JsMap.keys, List.map_map, Function.comp_def]
    rw [← this]
    exact hkeys
  unfold clearInterval
  apply List.filter_congr
  intro t ht
  by_cases hti : t.id = id
  · have : t = t0 := List.inj_on_of_nodup_map hids ht ht0 (hti.trans hi0.symm)
    subst this
    simp [hti, hs0]
  · have hts : t.sensorId ≠ sensorId := by
      intro hts
      have : t = t0 := List.inj_on_of_nodup_map hkeys2 ht ht0 (hts.trans hs0.symm)
      subst this
      exact hti hi0
    have h1 : (t.id != id) = true := bne_iff_ne.2 hti
    have h2 : (t.sensorId != sensorId) = true := bne_iff_ne.2 hts
    rw [h1, h2]

theorem stopSensor_timersMatch (st : State) (sensorId : String) (r : ℚ) (now : Nat)
    (h : TimersMatch st) : TimersMatch (stopSensor st sensorId r now).1 := by
  unfold stopSensor
  cases hget : JsMap.get st.intervalIds sensorId with
  | none => exact h
  | some id =>
    have hclear := clearInterval_eq_filter_sensor st sensorId id h hget
    obtain ⟨hmap, hkeys, hids, hfresh⟩ := h
    refine ⟨?_, ?_, ?_, ?_⟩
    · show List.map _ (clearInterval st.timers id) = JsMap.delete st.intervalIds sensorId
      rw [hclear]
      unfold JsMap.delete
      rw [← hmap, List.filter_map]
      rfl
    · show (JsMap.keys (JsMap.delete st.intervalIds sensorId)).Nodup
      exact List.Nodup.sublist (List.Sublist.map _ (List.filter_sublist _)) hkeys
    · show (List.map _ (clearInterval st.timers id)).Nodup
      exact List.Nodup.sublist (List.Sublist.map _ (List.filter_sublist _)) hids
    · intro t ht
      exact hfresh t (List.mem_of_mem_filter ht)

theorem fire_timers (st : State) (timerId : Nat) (r sn : ℚ) (now : Nat) :
    (fire st timerId r sn now).1.timers = st.timers ∧
    (fire st timerId r sn now).1.intervalIds = st.intervalIds ∧
    (fire st timerId r sn now).1.nextTimerId = st.nextTimerId := by
  unfold fire
  cases st.timers.find? (fun t => t.id == timerId) with
  | none => exact ⟨rfl, rfl, rfl⟩
  | some t => exact generate_timers st t.sensorId r sn now

theorem reachable_timersMatch (st : State) (h : Reachable st) : TimersMatch st := by
  induction h with
  | init => simp [TimersMatch, init, JsMap.keys]
  | createSensor st id config r now _ ih => exact ih
  | startSensor st id _ ih => exact startSensor_timersMatch st id ih
  | stopSensor st id r now _ ih => exact stopSensor_timersMatch st id r now ih
  | fire st tid r sn now _ ih =>
    obtain ⟨h1, h2, h3⟩ := fire_timers st tid r sn now
    unfold TimersMatch
    rw [h1, h2, h3]
    exact ih

theorem timersOf_length (st : State) (sensorId : String) (h : TimersMatch st) :
    (timersOf st sensorId).length = if JsMap.has st.intervalIds sensorId then 1 else 0 := by
  obtain ⟨hmap, hkeys, _, _⟩ := h
  have hk : JsMap.keys st.intervalIds = st.timers.map (fun t => t.sensorId) := by
    rw [← hmap]
    simp [JsMap.keys, List.map_map, Function.comp_def]
  have hcount : (timersOf st sensorId).length = (JsMap.keys st.intervalIds).count sensorId := by
    rw [hk, List.count_eq_countP, List.countP_map, List.countP_eq_length_filter]
    rfl
  rw [hcount]
  by_cases hh : JsMap.has st.intervalIds sensorId = true
  · rw [if_pos hh]
    exact List.count_eq_one_of_mem hkeys ((JsMap.has_eq_true_iff _ _).1 hh)
  · rw [if_neg hh]
    exact List.count_eq_zero_of_not_mem (fun hm => hh ((JsMap.has_eq_true_iff _ _).2 hm))

end Simulator

/-! ## The simulator: starting and stopping -/

namespace Simulator

theorem startSensor_of_running (st : State) (sensorId : String)
    (hreg : JsMap.has st.sensors sensorId = true)
    (hrun : JsMap.has st.intervalIds sensorId = true) :
    startSensor st sensorId =
      Outcome.mk st [Effect.consoleLog ("Sensor " ++ sensorId ++ " is already running")] none := by
  unfold startSensor
  unfold JsMap.has at hreg
  cases hget : JsMap.get st.sensors sensorId with
  | none => simp [hget] at hreg
  | some sensor => simp [hrun]

theorem startSensor_then_running (st : State) (sensorId : String)
    (hreg : JsMap.has st.sensors sensorId = true) :
    (startSensor st sensorId).error = none ∧
    (startSensor st sensorId).state.sensors = st.sensors ∧
    JsMap.has (startSensor st sensorId).state.intervalIds sensorId = true := by
  unfold startSensor
  unfold JsMap.has at hreg
  cases hget : JsMap.get st.sensors sensorId with
  | none => simp [hget] at hreg
  | some sensor =>
    by_cases hh : JsMap.has st.intervalIds sensorId = true
    · simp [hh]
    · simp only [hh, Bool.false_eq_true, if_false]
      exact ⟨trivial, trivial, by simp [JsMap.has, JsMap.get_set_same]⟩

/-- C15: for a registered `sensorId`, `startSensor` raises no error, a second
`startSensor` right after it raises none either and leaves the state of the
first, on a sensor that is already running `startSensor` leaves the state as
it is, and after the two calls the sensor has one live timer. -/
theorem startSensor_idempotent (st : State) (sensorId : String)
    (hreg : JsMap.has st.sensors sensorId = true) :
    (startSensor st sensorId).error = none ∧
    (startSensor (startSensor st sensorId).state sensorId).error = none ∧
    (startSensor (startSensor st sensorId).state sensorId).state =
      (startSensor st sensorId).state ∧
    (JsMap.has st.intervalIds sensorId = true →
      (startSensor st sensorId).state = st ∧ (startSensor st sensorId).error = none) ∧
    (Reachable st →
      (timersOf (startSensor (startSensor st sensorId).state sensorId).state sensorId).length
        = 1) := by
  obtain ⟨herr, hsens, hrun⟩ := startSensor_then_running st sensorId hreg
  have hreg2 : JsMap.has (startSensor st sensorId).state.sensors sensorId = true := by
    rw [hsens]
    exact hreg
  have hsecond := startSensor_of_running (startSensor st sensorId).state sensorId hreg2 hrun
  refine ⟨herr, ?_, ?_, ?_, ?_⟩
  · rw [hsecond]
  · rw [hsecond]
  · intro hr
    rw [startSensor_of_running st sensorId hreg hr]
    exact ⟨rfl, rfl⟩
  · intro hst
    rw [hsecond]
    have hm := reachable_timersMatch _ (Reachable.startSensor st sensorId hst)
    rw [timersOf_length _ sensorId hm, if_pos hrun]

/-- C15 on the sensor `temp-room1` of `test/testSimulator.js`, started
twice. -/
theorem startSensor_idempotent_witness :
    (startSensor (startSensor (createSensor init "temp-room1"
      (Config.mk (some 18) (some 28) (some 3000) (some "celsius") none) 0 0).1
      "temp-room1").state "temp-room1").state =
    (startSensor (createSensor init "temp-room1"
      (Config.mk (some 18) (some 28) (some 3000) (some "celsius") none) 0 0).1
      "temp-room1").state :=
  (startSensor_idempotent (createSensor init "temp-room1"
      (Config.mk (some 18) (some 28) (some 3000) (some "celsius") none) 0 0).1 "temp-room1"
    (createSensor_registers _ _ _ _ _)).2.2.1

/-- C16: in every state reached by `createSensor`, `startSensor`,
`stopSensor` calls (and timer ticks), a sensor with an entry in `intervalIds`
has exactly one live timer and a sensor without one has none; the live timers,
as pairs of sensor and timer id, are the entries of `intervalIds`, in which no
sensor and no timer id occurs twice. -/
theorem timers_match_intervalIds (st : State) (hst : Reachable st) :
    (∀ sensorId, JsMap.has st.intervalIds sensorId = true →
      (timersOf st sensorId).length = 1) ∧
    (∀ sensorId, JsMap.has st.intervalIds sensorId = false → timersOf st sensorId = []) ∧
    st.timers.map (fun t => (t.sensorId, t.id)) = st.intervalIds ∧
    (JsMap.keys st.intervalIds).Nodup ∧
    (st.timers.map (fun t => t.id)).Nodup := by
  have hm := reachable_timersMatch st hst
  refine ⟨?_, ?_, hm.1, hm.2.1, hm.2.2.1⟩
  · intro sensorId hh
    rw [timersOf_length st sensorId hm, if_pos hh]
  · intro sensorId hh
    have := timersOf_length st sensorId hm
    rw [hh] at this
    exact List.length_eq_zero.1 (by simpa using this)

/-- C16 on the run of `test/testSimulator.js` for `temp-room1`: created,
started, stopped and started again, it has one live timer. -/
theorem timers_match_intervalIds_witness :
    (timersOf (startSensor (stopSensor (startSensor (createSensor init "temp-room1"
      (Config.mk (some 18) (some 28) (some 3000) (some "celsius") none) 0 0).1
      "temp-room1").state "temp-room1" 0 0).1 "temp-room1").state "temp-room1").length = 1 :=
  (timers_match_intervalIds _
    (Reachable.startSensor _ _ (Reachable.stopSensor _ _ _ _
      (Reachable.startSensor _ _ (Reachable.createSensor _ _ _ _ _ Reachable.init))))).1
    "temp-room1" (by decide)

end Simulator

namespace Simulator

theorem timersOf_eq_nil_of_stopped (st : State) (sensorId : String) (hm : TimersMatch st)
    (hh : JsMap.has st.intervalIds sensorId = false) : timersOf st sensorId = [] := by
  have := timersOf_length st sensorId hm
  rw [hh] at this
  exact List.length_eq_zero.1 (by simpa using this)

theorem readingsOf_generate_other (st : State) (sensorId other : String) (r sn : ℚ) (now : Nat)
    (hne : other ≠ sensorId) :
    readingsOf sensorId (generateAndPublishData st other r sn now).2 = [] := by
  unfold generateAndPublishData
  cases JsMap.get st.sensors other with
  | none => rfl
  | some sensor => simp [readingsOf, hne]

theorem readingsOf_fire_of_no_timer (st : State) (sensorId : String) (timerId : Nat)
    (r sn : ℚ) (now : Nat) (hnone : timersOf st sensorId = []) :
    readingsOf sensorId (fire st timerId r sn now).2 = [] := by
  unfold fire
  cases hfind : st.timers.find? (fun t => t.id == timerId) with
  | none => rfl
  | some t =>
    have hmem : t ∈ st.timers := List.mem_of_find?_eq_some hfind
    have hne : t.sensorId ≠ sensorId := by
      intro heq
      have : t ∈ timersOf st sensorId := by
        unfold timersOf
        exact List.mem_filter.2 ⟨hmem, by simp [heq]⟩
      rw [hnone] at this
      exact absurd this (List.not_mem_nil _)
    exact readingsOf_generate_other st sensorId t.sensorId r sn now hne

theorem fire_cleared (st : State) (timers : List Timer) (id : Nat) (r sn : ℚ) (now : Nat)
    (ht : st.timers = clearInterval timers id) : fire st id r sn now = (st, []) := by
  unfold fire
  have hfind : st.timers.find? (fun t => t.id == id) = none := by
    rw [ht, List.find?_eq_none]
    intro t hmem
    have := (List.mem_filter.1 hmem).2
    simpa using this
  rw [hfind]

/-- C17, refuted: `temp-room1` is created, started and stopped while the
backend service is not connected (no `connect` event yet): `stopSensor` calls
`mqttService.publish` once, and nothing is handed to the transport. -/
theorem stopSensor_sends_nothing_when_disconnected :
    JsMap.has (startSensor (createSensor init "temp-room1"
      (Config.mk (some 18) (some 28) (some 3000) (some "celsius") none) 0 0).1
      "temp-room1").state.intervalIds "temp-room1" = true ∧
    (Backend.init "mqtt://localhost:1883" false).connected = false ∧
    (published (stopSensor (startSensor (createSensor init "temp-room1"
      (Config.mk (some 18) (some 28) (some 3000) (some "celsius") none) 0 0).1
      "temp-room1").state "temp-room1" (1 / 2) 30000).2).length = 1 ∧
    Backend.sent (onWire (Backend.init "mqtt://localhost:1883" false) (fun _ => "status") some
      false (stopSensor (startSensor (createSensor init "temp-room1"
        (Config.mk (some 18) (some 28) (some 3000) (some "celsius") none) 0 0).1
        "temp-room1").state "temp-room1" (1 / 2) 30000).2) = [] := by
  refine ⟨by decide, rfl, ?_, ?_⟩ <;>
    simp [stopSensor, startSensor, createSensor, init, JsMap.get, JsMap.set, JsMap.has,
      publishSensorStatus, published, onWire, Backend.publish, Backend.init, Backend.sent]

/-- C17, amended: in any state the simulator can be in, `stopSensor(sensorId)`
on a sensor that is not running changes nothing and publishes nothing; on a
running sensor it clears the sensor's timer, removes its entry from
`intervalIds`, leaves the sensors as they are, and calls `mqttService.publish`
exactly once, with a status message `offline` on the topic `sensor/`,
`sensorId`, `/status`; that message is handed to the transport once when the
backend service is connected, the message serialises and the transport does
not throw, and not at all when the service is not connected; afterwards the
sensor has no live timer, the cleared timer does nothing when its turn comes,
and no tick produces a reading of that sensor. -/
theorem stopSensor_spec (st : State) (sensorId : String) (r : ℚ) (now : Nat)
    (hst : Reachable st) :
    (JsMap.has st.intervalIds sensorId = false → stopSensor st sensorId r now = (st, [])) ∧
    (∀ id, JsMap.get st.intervalIds sensorId = some id →
      (stopSensor st sensorId r now).1.timers = clearInterval st.timers id ∧
      JsMap.has (stopSensor st sensorId r now).1.intervalIds sensorId = false ∧
      (stopSensor st sensorId r now).1.sensors = st.sensors ∧
      published (stopSensor st sensorId r now).2 =
        [("sensor/" ++ sensorId ++ "/status",
          Payload.status sensorId "offline" (battery r) now)] ∧
      (∀ service asMessage stringify text, service.connected = true →
        stringify (asMessage (Payload.status sensorId "offline" (battery r) now)) = some text →
        Backend.sent (onWire service asMessage stringify false
          (stopSensor st sensorId r now).2) =
          [("sensor/" ++ sensorId ++ "/status", text, Backend.PublishOptions.default)]) ∧
      (∀ service asMessage stringify transportThrows, service.connected = false →
        Backend.sent (onWire service asMessage stringify transportThrows
          (stopSensor st sensorId r now).2) = []) ∧
      timersOf (stopSensor st sensorId r now).1 sensorId = [] ∧
      (∀ r1 sn1 now1, fire (stopSensor st sensorId r now).1 id r1 sn1 now1 =
        ((stopSensor st sensorId r now).1, [])) ∧
      (∀ timerId r1 sn1 now1,
        readingsOf sensorId (fire (stopSensor st sensorId r now).1 timerId r1 sn1 now1).2
          = [])) := by
  have hm := reachable_timersMatch _ (Reachable.stopSensor st sensorId r now hst)
  constructor
  · intro hh
    unfold JsMap.has at hh
    unfold stopSensor
    cases hget : JsMap.get st.intervalIds sensorId with
    | none => rfl
    | some id => simp [hget] at hh
  · intro id hget
    have hstate : stopSensor st sensorId r now =
        ({ st with
            timers := clearInterval st.timers id,
            intervalIds := JsMap.delete st.intervalIds sensorId },
          publishSensorStatus sensorId "offline" r now ++
            [Effect.consoleLog ("Stopped sensor " ++ sensorId)]) := by
      simp [stopSensor, hget]
    have hhas : JsMap.has (stopSensor st sensorId r now).1.intervalIds sensorId = false := by
      rw [hstate]
      simp [JsMap.has, JsMap.get_delete_same]
    have hnone := timersOf_eq_nil_of_stopped _ sensorId hm hhas
    have htimers : (stopSensor st sensorId r now).1.timers = clearInterval st.timers id := by
      rw [hstate]
    refine ⟨htimers, hhas, ?_, ?_, ?_, ?_, hnone, ?_, ?_⟩
    · rw [hstate]
    · rw [hstate]
      simp [publishSensorStatus, published, statusTopic]
    · intro service asMessage stringify text hc htext
      rw [hstate]
      simp [publishSensorStatus, onWire, Backend.publish, Backend.sent, statusTopic, hc, htext]
    · intro service asMessage stringify tt hc
      rw [hstate]
      simp [publishSensorStatus, onWire, Backend.publish, Backend.sent, hc]
    · intro r1 sn1 now1
      exact fire_cleared _ st.timers id r1 sn1 now1 htimers
    · intro timerId r1 sn1 now1
      exact readingsOf_fire_of_no_timer _ sensorId timerId r1 sn1 now1 hnone

/-- C17, amended, on `temp-room1`, created, started and stopped: one `offline`
status is published on `sensor/temp-room1/status`. -/
theorem stopSensor_spec_witness :
    published (stopSensor (startSensor (createSensor init "temp-room1"
      (Config.mk (some 18) (some 28) (some 3000) (some "celsius") none) 0 0).1
      "temp-room1").state "temp-room1" (1 / 2) 30000).2 =
      [("sensor/temp-room1/status",
        Payload.status "temp-room1" "offline" (battery (1 / 2)) 30000)] :=
  (((stopSensor_spec (startSensor (createSensor init "temp-room1"
      (Config.mk (some 18) (some 28) (some 3000) (some "celsius") none) 0 0).1
      "temp-room1").state "temp-room1" (1 / 2) 30000
    (Reachable.startSensor _ _ (Reachable.createSensor _ _ _ _ _ Reachable.init))).2
    0 (by decide)).2.2.2.1).trans rfl

end Simulator

/-! ## The simulator: generated values -/

namespace Simulator

theorem keepWithin_eq_clamp (lo hi x : ℚ) (h : lo ≤ hi) : keepWithin lo hi x = clamp x lo hi := by
  unfold keepWithin clamp
  by_cases h1 : x < lo
  · have h2 : min hi x = x := min_eq_right (by linarith)
    rw [if_pos h1, h2]
    exact max_eq_left (le_of_lt h1)
  · rw [if_neg h1]
    by_cases h2 : hi < x
    · rw [if_pos h2, min_eq_left (le_of_lt h2)]
      exact max_eq_right h
    · rw [if_neg h2, min_eq_right (not_lt.1 h2)]
      exact max_eq_right (not_lt.1 h1)

theorem keepWithin_bounds (lo hi x : ℚ) (h : lo ≤ hi) :
    lo ≤ keepWithin lo hi x ∧ keepWithin lo hi x ≤ hi := by
  unfold keepWithin
  exact ⟨le_max_left _ _, max_le h (min_le_left _ _)⟩

theorem generate_of_registered (st : State) (sensorId : String) (sensor : Sensor) (r sn : ℚ)
    (now : Nat) (hget : JsMap.get st.sensors sensorId = some sensor) :
    generateAndPublishData st sensorId r sn now =
      ({ st with sensors :=
          JsMap.set st.sensors sensorId (Sensor.mk sensor.config (nextValue sensor r sn)) },
        [Effect.publish (Backend.dataTopic sensorId)
          (Payload.reading sensorId (toFixed2 (nextValue sensor r sn)) sensor.config.unit now)]) := by
  simp [generateAndPublishData, hget]

/-- C20, refuted: a sensor created with `noise = -1` is accepted, and with the
random draw `0` its noise term has absolute value `1`, which is not at most
`noise`. -/
theorem noiseTerm_exceeds_negative_noise :
    (0 : ℚ) ≤ 0 ∧ (0 : ℚ) < 1 ∧
    JsMap.get (createSensor init "s1" (Config.mk none none none none (some (-1)))
      0 0).1.sensors "s1" =
      some (newSensor (mergeConfig (Config.mk none none none none (some (-1))))) ∧
    ¬ (|noiseTerm (newSensor (mergeConfig (Config.mk none none none none (some (-1))))) 0| ≤
      (newSensor (mergeConfig (Config.mk none none none none (some (-1))))).config.noise) := by
  refine ⟨le_refl _, by norm_num, ?_, ?_⟩
  · simp [createSensor, JsMap.get_set_same]
  · norm_num [noiseTerm, newSensor, mergeConfig]

theorem abs_noiseTerm_le (sensor : Sensor) (r : ℚ) (hr0 : 0 ≤ r) (hr1 : r < 1)
    (hnoise : 0 ≤ sensor.config.noise) : |noiseTerm sensor r| ≤ sensor.config.noise := by
  unfold noiseTerm
  rw [abs_le]
  constructor <;> nlinarith

theorem abs_trendTerm_le (sensor : Sensor) (sn : ℚ) (hlo : -1 ≤ sn) (hhi : sn ≤ 1)
    (hle : sensor.config.minValue ≤ sensor.config.maxValue) :
    |trendTerm sensor sn| ≤ 1 / 10 * (sensor.config.maxValue - sensor.config.minValue) := by
  unfold trendTerm
  have hrange : 0 ≤ sensor.config.maxValue - sensor.config.minValue := by linarith
  rw [abs_le]
  constructor <;> nlinarith

theorem abs_keepWithin_sub_le (lo hi x d : ℚ) (h1 : lo ≤ x) (h2 : x ≤ hi) :
    |keepWithin lo hi (x + d) - x| ≤ |d| := by
  unfold keepWithin
  rw [abs_le]
  have hd1 : -|d| ≤ d := neg_abs_le d
  have hd2 : d ≤ |d| := le_abs_self d
  constructor
  · have : x - |d| ≤ max lo (min hi (x + d)) := by
      by_cases hc : hi ≤ x + d
      · rw [min_eq_left hc]
        have := le_max_right lo hi
        have habs := abs_nonneg d
        linarith
      · rw [min_eq_right (le_of_lt (not_le.1 hc))]
        have := le_max_right lo (x + d)
        linarith
    linarith
  · have : max lo (min hi (x + d)) ≤ x + |d| := by
      apply max_le
      · have habs := abs_nonneg d
        linarith
      · have := min_le_right hi (x + d)
        linarith
    linarith

/-- C20, amended: for a sensor with `noise ≥ 0` and `minValue ≤ maxValue`, a
random draw in `[0, 1)` and a sine in `[-1, 1]`, the noise term is at most
`noise` in absolute value, the trend term at most `0.1 · (maxValue - minValue)`,
and when `lastValue` lies in `[minValue, maxValue]` the tick moves it by at
most `noise + 0.1 · (maxValue - minValue)`. -/
theorem tick_bounded_step (sensor : Sensor) (r sn : ℚ) (hr0 : 0 ≤ r) (hr1 : r < 1)
    (hlo : -1 ≤ sn) (hhi : sn ≤ 1) (hnoise : 0 ≤ sensor.config.noise)
    (hle : sensor.config.minValue ≤ sensor.config.maxValue) :
    |noiseTerm sensor r| ≤ sensor.config.noise ∧
    |trendTerm sensor sn| ≤ 1 / 10 * (sensor.config.maxValue - sensor.config.minValue) ∧
    (sensor.config.minValue ≤ sensor.lastValue → sensor.lastValue ≤ sensor.config.maxValue →
      |nextValue sensor r sn - sensor.lastValue| ≤
        sensor.config.noise + 1 / 10 * (sensor.config.maxValue - sensor.config.minValue)) := by
  have hn := abs_noiseTerm_le sensor r hr0 hr1 hnoise
  have ht := abs_trendTerm_le sensor sn hlo hhi hle
  refine ⟨hn, ht, ?_⟩
  intro h1 h2
  have hstep := abs_keepWithin_sub_le sensor.config.minValue sensor.config.maxValue
    sensor.lastValue (noiseTerm sensor r + trendTerm sensor sn) h1 h2
  have hsum := abs_add (noiseTerm sensor r) (trendTerm sensor sn)
  unfold nextValue
  rw [add_assoc]
  linarith

/-- C20, amended, on the default configuration with the draw `0.9` and the
sine at `1 / 2`. -/
theorem tick_bounded_step_witness :
    |noiseTerm (newSensor defaultConfig) (9 / 10)| ≤ (newSensor defaultConfig).config.noise :=
  (tick_bounded_step (newSensor defaultConfig) (9 / 10) (1 / 2) (by norm_num) (by norm_num)
    (by norm_num) (by norm_num) (by norm_num [newSensor, defaultConfig])
    (by norm_num [newSensor, defaultConfig])).1

end Simulator

/-! ## The simulator: status messages and the list of sensors -/

namespace Simulator

theorem getAllSensors_createSensor (st : State) (sensorId : String) (config : Config)
    (r : ℚ) (now : Nat) :
    getAllSensors (createSensor st sensorId config r now).1 =
      if sensorId ∈ getAllSensors st then getAllSensors st
      else getAllSensors st ++ [sensorId] := by
  unfold getAllSensors
  by_cases hk : sensorId ∈ JsMap.keys st.sensors
  · rw [if_pos hk]
    exact JsMap.keys_set_of_present _ _ _ hk
  · rw [if_neg hk]
    show JsMap.keys (JsMap.set st.sensors sensorId _) = _
    rw [JsMap.set_of_absent _ _ _ ((JsMap.get_eq_none_iff _ _).2 hk)]
    simp [JsMap.keys]

theorem getAllSensors_startSensor (st : State) (sensorId : String) :
    getAllSensors (startSensor st sensorId).state = getAllSensors st := by
  unfold startSensor getAllSensors
  cases JsMap.get st.sensors sensorId with
  | none => rfl
  | some sensor =>
    by_cases hh : JsMap.has st.intervalIds sensorId = true
    · simp [hh]
    · simp [hh]

theorem getAllSensors_stopSensor (st : State) (sensorId : String) (r : ℚ) (now : Nat) :
    getAllSensors (stopSensor st sensorId r now).1 = getAllSensors st := by
  unfold stopSensor getAllSensors
  cases JsMap.get st.intervalIds sensorId with
  | none => rfl
  | some id => rfl

theorem getAllSensors_generate (st : State) (sensorId : String) (r sn : ℚ) (now : Nat) :
    getAllSensors (generateAndPublishData st sensorId r sn now).1 = getAllSensors st := by
  unfold getAllSensors
  cases hget : JsMap.get st.sensors sensorId with
  | none => simp [generateAndPublishData, hget]
  | some sensor =>
    rw [generate_of_registered _ _ _ _ _ _ hget]
    apply JsMap.keys_set_of_present
    rw [← JsMap.has_eq_true_iff]
    simp [JsMap.has, hget]

theorem getAllSensors_fire (st : State) (timerId : Nat) (r sn : ℚ) (now : Nat) :
    getAllSensors (fire st timerId r sn now).1 = getAllSensors st := by
  unfold fire
  cases st.timers.find? (fun t => t.id == timerId) with
  | none => rfl
  | some t => exact getAllSensors_generate st t.sensorId r sn now

theorem mem_getAllSensors_runCalls (st : State) (calls : List Call) (sensorId : String) :
    sensorId ∈ getAllSensors (runCalls st calls) ↔
      sensorId ∈ getAllSensors st ∨ sensorId ∈ createdIds calls := by
  induction calls generalizing st with
  | nil => simp [runCalls, createdIds]
  | cons c cs ih =>
    have hrun : runCalls st (c :: cs) = runCalls (applyCall st c) cs := rfl
    rw [hrun, ih]
    cases c with
    | createSensor id config r now =>
      simp only [applyCall, createdIds, List.mem_cons, getAllSensors_createSensor]
      by_cases hk : id ∈ getAllSensors st
      · rw [if_pos hk]
        constructor
        · rintro (h | h)
          · exact Or.inl h
          · exact Or.inr (Or.inr h)
        · rintro (h | h | h)
          · exact Or.inl h
          · exact Or.inl (h ▸ hk)
          · exact Or.inr h
      · rw [if_neg hk]
        simp only [List.mem_append, List.mem_singleton]
        tauto
    | startSensor id => simp [applyCall, createdIds, getAllSensors_startSensor]
    | stopSensor id r now => simp [applyCall, createdIds, getAllSensors_stopSensor]
    | tick tid r sn now => simp [applyCall, createdIds, getAllSensors_fire]

theorem reachable_runCalls (st : State) (calls : List Call) (h : Reachable st) :
    Reachable (runCalls st calls) := by
  induction calls generalizing st with
  | nil => exact h
  | cons c cs ih =>
    have hrun : runCalls st (c :: cs) = runCalls (applyCall st c) cs := rfl
    rw [hrun]
    apply ih
    cases c with
    | createSensor id config r now => exact Reachable.createSensor _ _ _ _ _ h
    | startSensor id => exact Reachable.startSensor _ _ h
    | stopSensor id r now => exact Reachable.stopSensor _ _ _ _ h
    | tick tid r sn now => exact Reachable.fire _ _ _ _ _ h

/-- C22: after any sequence of calls on a fresh simulator, `getAllSensors()`
lists exactly the ids `createSensor` was called with, none of them twice;
`startSensor` and `stopSensor` leave the list as it is, and so does
`createSensor` on an id already listed. -/
theorem getAllSensors_exactly_created (calls : List Call) :
    (∀ sensorId, sensorId ∈ getAllSensors (runCalls init calls) ↔ sensorId ∈ createdIds calls) ∧
    (getAllSensors (runCalls init calls)).Nodup ∧
    (∀ st sensorId, getAllSensors (startSensor st sensorId).state = getAllSensors st) ∧
    (∀ st sensorId r now, getAllSensors (stopSensor st sensorId r now).1 = getAllSensors st) ∧
    (∀ st sensorId config r now, sensorId ∈ getAllSensors st →
      getAllSensors (createSensor st sensorId config r now).1 = getAllSensors st) := by
  refine ⟨?_, ?_, getAllSensors_startSensor, getAllSensors_stopSensor, ?_⟩
  · intro sensorId
    rw [mem_getAllSensors_runCalls]
    simp [init, getAllSensors, JsMap.keys]
  · exact reachable_sensors_nodup _ (reachable_runCalls init calls Reachable.init)
  · intro st sensorId config r now hmem
    rw [getAllSensors_createSensor, if_pos hmem]

/-- C22 on a run in the manner of `test/testSimulator.js`: two sensors
created, one of them started, stopped and created again. -/
theorem getAllSensors_exactly_created_witness :
    getAllSensors (createSensor (runCalls init
      [Call.createSensor "temp-room1" (Config.mk (some 18) (some 28) none none none) 0 0,
       Call.startSensor "temp-room1",
       Call.createSensor "temp-room2" (Config.mk (some 20) (some 30) none none none) 0 0,
       Call.stopSensor "temp-room1" 0 0]) "temp-room1"
      (Config.mk (some 18) (some 28) none none none) 0 0).1 =
    getAllSensors (runCalls init
      [Call.createSensor "temp-room1" (Config.mk (some 18) (some 28) none none none) 0 0,
       Call.startSensor "temp-room1",
       Call.createSensor "temp-room2" (Config.mk (some 20) (some 30) none none none) 0 0,
       Call.stopSensor "temp-room1" 0 0]) :=
  (getAllSensors_exactly_created []).2.2.2.2 _ "temp-room1" _ 0 0
    (((getAllSensors_exactly_created
      [Call.createSensor "temp-room1" (Config.mk (some 18) (some 28) none none none) 0 0,
       Call.startSensor "temp-room1",
       Call.createSensor "temp-room2" (Config.mk (some 20) (some 30) none none none) 0 0,
       Call.stopSensor "temp-room1" 0 0]).1 "temp-room1").2 (by simp [createdIds]))

end Simulator

/-! ## The simulator: re-creating a running sensor -/

namespace Simulator

theorem stopSensor_of_running (st : State) (sensorId : String) (r : ℚ) (now : Nat) (id : Nat)
    (hget : JsMap.get st.intervalIds sensorId = some id) :
    (stopSensor st sensorId r now).1.sensors = st.sensors ∧
    (stopSensor st sensorId r now).1.timers = clearInterval st.timers id ∧
    JsMap.has (stopSensor st sensorId r now).1.intervalIds sensorId = false := by
  simp [stopSensor, hget, JsMap.has, JsMap.get_delete_same]

theorem startSensor_of_stopped (st : State) (sensorId : String) (sensor : Sensor)
    (hget : JsMap.get st.sensors sensorId = some sensor)
    (hstop : JsMap.has st.intervalIds sensorId = false) :
    (startSensor st sensorId).state.timers =
      st.timers ++ [Timer.mk st.nextTimerId sensorId sensor.config.updateInterval] := by
  simp [startSensor, hget, hstop]

/-- C30: `createSensor` on a running sensor leaves the live timers and
`intervalIds` as they are, so the sensor keeps its one timer with the delay it
was started with; once the sensor is stopped and started again, its timer has
the `updateInterval` of the new configuration. -/
theorem createSensor_keeps_timer (st : State) (sensorId : String) (config : Config) (r : ℚ)
    (now : Nat) (hst : Reachable st) (id : Nat)
    (hrun : JsMap.get st.intervalIds sensorId = some id) :
    (createSensor st sensorId config r now).1.timers = st.timers ∧
    (createSensor st sensorId config r now).1.intervalIds = st.intervalIds ∧
    timersOf (createSensor st sensorId config r now).1 sensorId = timersOf st sensorId ∧
    (timersOf st sensorId).length = 1 ∧
    (∀ r1 now1,
      (timersOf (startSensor (stopSensor (createSensor st sensorId config r now).1 sensorId
        r1 now1).1 sensorId).state sensorId).map (fun t => t.delay) =
        [(mergeConfig config).updateInterval]) := by
  have hhas : JsMap.has st.intervalIds sensorId = true := by simp [JsMap.has, hrun]
  refine ⟨rfl, rfl, rfl, ?_, ?_⟩
  · rw [timersOf_length st sensorId (reachable_timersMatch st hst), if_pos hhas]
  · intro r1 now1
    have hrun1 : JsMap.get (createSensor st sensorId config r now).1.intervalIds sensorId =
        some id := hrun
    obtain ⟨hsens, _, hstopped⟩ :=
      stopSensor_of_running (createSensor st sensorId config r now).1 sensorId r1 now1 id hrun1
    have hreach : Reachable (stopSensor (createSensor st sensorId config r now).1 sensorId
        r1 now1).1 :=
      Reachable.stopSensor _ _ _ _ (Reachable.createSensor _ _ _ _ _ hst)
    have hnone := timersOf_eq_nil_of_stopped _ sensorId (reachable_timersMatch _ hreach) hstopped
    have hget : JsMap.get (stopSensor (createSensor st sensorId config r now).1 sensorId
        r1 now1).1.sensors sensorId = some (newSensor (mergeConfig config)) := by
      rw [hsens]
      simp [createSensor, JsMap.get_set_same]
    unfold timersOf at hnone ⊢
    rw [startSensor_of_stopped _ sensorId _ hget hstopped, List.filter_append, hnone]
    simp [newSensor]

/-- C30 on a sensor created with `updateInterval = 3000`, started, and created
again with `updateInterval = 1000`: its timer keeps the delay `3000`. -/
theorem createSensor_keeps_timer_witness :
    (createSensor (startSensor (createSensor init "temp-room1"
      (Config.mk none none (some 3000) none none) 0 0).1 "temp-room1").state "temp-room1"
      (Config.mk none none (some 1000) none none) 0 0).1.timers =
    (startSensor (createSensor init "temp-room1"
      (Config.mk none none (some 3000) none none) 0 0).1 "temp-room1").state.timers :=
  (createSensor_keeps_timer
    (startSensor (createSensor init "temp-room1"
      (Config.mk none none (some 3000) none none) 0 0).1 "temp-room1").state "temp-room1"
    (Config.mk none none (some 1000) none none) 0 0
    (Reachable.startSensor _ _ (Reachable.createSensor _ _ _ _ _ Reachable.init))
    0 (by decide)).1

end Simulator

/-! ## The Dashboard buffer -/

namespace Dashboard

theorem insert_of_limit (timeRange : String) (w now : Int) (prev : List Entry) (data : Entry)
    (hw : timeLimit timeRange = some w) :
    insert timeRange now prev data =
      (prev ++ [data]).filter (fun d => decide (d.timestamp > now - w)) := by
  simp [insert, hw]

theorem insert_sublist (timeRange : String) (now : Int) (prev : List Entry) (data : Entry) :
    (insert timeRange now prev data).Sublist (prev ++ [data]) := by
  unfold insert
  cases timeLimit timeRange with
  | none => exact List.nil_sublist _
  | some w => exact List.filter_sublist _

/-- C23: after an insert at clock value `now` under a time range of window
`w`, every entry of the buffer has a timestamp above `now - w`; readings at
`t`, `t + 1h`, `t + 2h`, each inserted at its own time under the range `1h`,
leave the last one only. -/
theorem insert_keeps_recent (timeRange : String) (w now : Int) (prev : List Entry)
    (data : Entry) (hw : timeLimit timeRange = some w) :
    (∀ e ∈ insert timeRange now prev data, e.timestamp > now - w) ∧
    (∀ (t : Int) (id : String) (v0 v1 v2 : ℚ),
      insert "1h" (t + 2 * 3600000)
        (insert "1h" (t + 3600000) (insert "1h" t [] (Entry.mk id v0 t))
          (Entry.mk id v1 (t + 3600000)))
        (Entry.mk id v2 (t + 2 * 3600000)) = [Entry.mk id v2 (t + 2 * 3600000)]) := by
  constructor
  · intro e he
    rw [insert_of_limit _ _ _ _ _ hw] at he
    simpa using (List.mem_filter.1 he).2
  · intro t id v0 v1 v2
    have h1 : timeLimit "1h" = some 3600000 := by simp [timeLimit]
    rw [insert_of_limit _ _ _ _ _ h1, insert_of_limit _ _ _ _ _ h1, insert_of_limit _ _ _ _ _ h1]
    simp [List.filter_cons]
    omega

/-- C23 under the range `24h`: an entry one day old is evicted, the new
reading stays. -/
theorem insert_keeps_recent_witness :
    Entry.mk "temp-room1" 26 86400000 ∈
      insert "24h" 86400000 [Entry.mk "temp-room1" 25 0] (Entry.mk "temp-room1" 26 86400000) ∧
    (Entry.mk "temp-room1" 26 86400000).timestamp > 86400000 - 86400000 :=
  ⟨by simp [insert, timeLimit],
   (insert_keeps_recent "24h" 86400000 86400000 [Entry.mk "temp-room1" 25 0]
    (Entry.mk "temp-room1" 26 86400000) (by simp [timeLimit])).1 _
    (by simp [insert, timeLimit])⟩

/-- C24, refuted: under the range `1h`, an insert at `now = 3600000` evicts
the entry whose timestamp `0` equals `now - window`. -/
theorem insert_evicts_entry_at_cutoff :
    timeLimit "1h" = some 3600000 ∧
    (Entry.mk "temp-room1" 25 0).timestamp = 3600000 - 3600000 ∧
    insert "1h" 3600000 [Entry.mk "temp-room1" 25 0] (Entry.mk "temp-room1" 26 3600000) =
      [Entry.mk "temp-room1" 26 3600000] ∧
    ([Entry.mk "temp-room1" 25 0] ++ [Entry.mk "temp-room1" 26 3600000]).filter
      (fun d => decide (d.timestamp ≥ 3600000 - 3600000)) =
      [Entry.mk "temp-room1" 25 0, Entry.mk "temp-room1" 26 3600000] := by
  refine ⟨by simp [timeLimit], by norm_num, ?_, ?_⟩
  · simp [insert, timeLimit, List.filter_cons]
  · simp [List.filter_cons]

/-- C24, amended: under a time range of window `w`, the buffer after an insert
is the former buffer followed by the reading, restricted to the entries with a
timestamp above `now - w`, in their order; an entry whose timestamp equals
`now - w` is evicted. -/
theorem insert_eq_filter_above (timeRange : String) (w now : Int) (prev : List Entry)
    (data : Entry) (hw : timeLimit timeRange = some w) :
    insert timeRange now prev data =
      (prev ++ [data]).filter (fun d => decide (d.timestamp > now - w)) ∧
    (∀ e, e ∈ insert timeRange now prev data ↔
      (e ∈ prev ∨ e = data) ∧ e.timestamp > now - w) ∧
    (∀ e, e.timestamp = now - w → e ∉ insert timeRange now prev data) ∧
    (insert timeRange now prev data).Sublist (prev ++ [data]) := by
  have heq := insert_of_limit timeRange w now prev data hw
  refine ⟨heq, ?_, ?_, insert_sublist _ _ _ _⟩
  · intro e
    rw [heq]
    simp only [List.mem_filter, List.mem_append, List.mem_singleton, decide_eq_true_eq]
  · intro e he hmem
    rw [heq] at hmem
    have := (List.mem_filter.1 hmem).2
    simp [he] at this

/-- C24, amended, at the state of the refutation. -/
theorem insert_eq_filter_above_witness :
    Entry.mk "temp-room1" 25 0 ∉
      insert "1h" 3600000 [Entry.mk "temp-room1" 25 0] (Entry.mk "temp-room1" 26 3600000) :=
  (insert_eq_filter_above "1h" 3600000 3600000 [Entry.mk "temp-room1" 25 0]
    (Entry.mk "temp-room1" 26 3600000) (by simp [timeLimit])).2.2.1 _ (by norm_num)

end Dashboard

namespace Dashboard

theorem run_sublist (st : State) (events : List Event) :
    (run st events).historicalData.Sublist (st.historicalData ++ arrivals events) := by
  induction events generalizing st with
  | nil => simp [run, arrivals]
  | cons ev rest ih =>
    have hrun : run st (ev :: rest) = run (step st ev) rest := rfl
    rw [hrun]
    cases ev with
    | data entry now =>
      have h1 := ih (step st (Event.data entry now))
      have h2 : (step st (Event.data entry now)).historicalData.Sublist
          (st.historicalData ++ [entry]) := insert_sublist _ _ _ _
      have h3 := List.Sublist.trans h1 (List.Sublist.append h2 (List.Sublist.refl _))
      simpa [arrivals] using h3
    | timeRange value =>
      simpa [arrivals, step, handleTimeRangeChange] using ih (step st (Event.timeRange value))

/-- C25, refuted: the buffer is seeded with two entries, the newer one first
(the order in which `getData` returns them), and one reading is inserted: the
resulting buffer is not in non-decreasing order of timestamp. -/
theorem seeded_buffer_not_ordered :
    (run (State.mk [Entry.mk "temp-room1" 25 7200000, Entry.mk "temp-room1" 24 3600000] "24h")
      [Event.data (Entry.mk "temp-room1" 26 7300000) 7300000]).historicalData =
      [Entry.mk "temp-room1" 25 7200000, Entry.mk "temp-room1" 24 3600000,
       Entry.mk "temp-room1" 26 7300000] ∧
    ¬ Ordered (run
      (State.mk [Entry.mk "temp-room1" 25 7200000, Entry.mk "temp-room1" 24 3600000] "24h")
      [Event.data (Entry.mk "temp-room1" 26 7300000) 7300000]).historicalData := by
  have h : (run
      (State.mk [Entry.mk "temp-room1" 25 7200000, Entry.mk "temp-room1" 24 3600000] "24h")
      [Event.data (Entry.mk "temp-room1" 26 7300000) 7300000]).historicalData =
      [Entry.mk "temp-room1" 25 7200000, Entry.mk "temp-room1" 24 3600000,
       Entry.mk "temp-room1" 26 7300000] := by
    simp [run, step, onData, insert, timeLimit, List.filter_cons]
  refine ⟨h, ?_⟩
  rw [h]
  simp [Ordered]

/-- C25, amended: whatever the seeded buffer and the events, the resulting
buffer is a subsequence of the seeded buffer followed by the readings in their
order of arrival; so it is in non-decreasing order of timestamp whenever that
sequence is. -/
theorem run_ordered_of_arrivals (st : State) (events : List Event)
    (h : Ordered (st.historicalData ++ arrivals events)) :
    (run st events).historicalData.Sublist (st.historicalData ++ arrivals events) ∧
    Ordered (run st events).historicalData :=
  ⟨run_sublist st events, List.Pairwise.sublist (run_sublist st events) h⟩

/-- C25, amended, on an empty buffer and two readings arriving in the order of
their timestamps. -/
theorem run_ordered_of_arrivals_witness :
    Ordered (run (State.mk [] "1h")
      [Event.data (Entry.mk "temp-room1" 25 1000) 1000,
       Event.data (Entry.mk "temp-room2" 21 2000) 2000]).historicalData :=
  (run_ordered_of_arrivals (State.mk [] "1h")
    [Event.data (Entry.mk "temp-room1" 25 1000) 1000,
     Event.data (Entry.mk "temp-room2" 21 2000) 2000]
    (by simp [Ordered, arrivals])).2

/-- C26, refuted: with an entry of timestamp `0` in the buffer at clock value
`7200000`, the change of the time range from `24h` to `1h` leaves the entry in
the buffer, although its timestamp is below `now - w = 3600000`. -/
theorem timeRange_change_keeps_old_entry :
    timeLimit "1h" = some 3600000 ∧
    (handleTimeRangeChange (State.mk [Entry.mk "temp-room1" 25 0] "24h") "1h").historicalData =
      [Entry.mk "temp-room1" 25 0] ∧
    (Entry.mk "temp-room1" 25 0).timestamp < 7200000 - 3600000 := by
  refine ⟨by simp [timeLimit], rfl, by norm_num⟩

/-- C26, amended: the change of the time range to `value` leaves the buffer as
it is; under the window `w` of `value`, the next insert, at clock value `now`,
leaves no entry with a timestamp at or below `now - w` and keeps every entry
of the buffer with a timestamp above it. -/
theorem timeRange_change_then_insert (st : State) (value : String) :
    (handleTimeRangeChange st value).historicalData = st.historicalData ∧
    (handleTimeRangeChange st value).timeRange = value ∧
    (∀ w, timeLimit value = some w → ∀ data now,
      (∀ e ∈ (onData (handleTimeRangeChange st value) data now).historicalData,
        e.timestamp > now - w) ∧
      (∀ e ∈ st.historicalData, e.timestamp > now - w →
        e ∈ (onData (handleTimeRangeChange st value) data now).historicalData)) := by
  refine ⟨rfl, rfl, ?_⟩
  intro w hw data now
  have heq : (onData (handleTimeRangeChange st value) data now).historicalData =
      (st.historicalData ++ [data]).filter (fun d => decide (d.timestamp > now - w)) :=
    insert_of_limit value w now st.historicalData data hw
  rw [heq]
  constructor
  · intro e he
    simpa using (List.mem_filter.1 he).2
  · intro e he hts
    exact List.mem_filter.2 ⟨List.mem_append_left _ he, by simpa using hts⟩

/-- C26, amended, at the state of the refutation: the next insert under `1h`
evicts the old entry. -/
theorem timeRange_change_then_insert_witness :
    Entry.mk "temp-room1" 26 7200000 ∈
      (onData (handleTimeRangeChange (State.mk [Entry.mk "temp-room1" 25 0] "24h") "1h")
        (Entry.mk "temp-room1" 26 7200000) 7200000).historicalData ∧
    (Entry.mk "temp-room1" 26 7200000).timestamp > 7200000 - 3600000 :=
  ⟨by simp [onData, handleTimeRangeChange, insert, timeLimit],
   ((timeRange_change_then_insert (State.mk [Entry.mk "temp-room1" 25 0] "24h") "1h").2.2
    3600000 (by simp [timeLimit]) (Entry.mk "temp-room1" 26 7200000) 7200000).1 _
    (by simp [onData, handleTimeRangeChange, insert, timeLimit])⟩

end Dashboard

/-! ## Malformed payloads -/

/-- C27: for a payload that is not valid JSON, the backend `message` handler
only logs the error: neither `handleSensorData` nor `handleSensorStatus` is
called, nothing is saved and no error leaves the handler; the frontend
`message` handler only logs the error too: no callback is called and no error
leaves the handler. -/
theorem malformed_payload_dropped (topic : String) (saveFails : Bool) (s : Frontend.Service)
    (throws : Frontend.Handler → Frontend.Data → Bool) :
    Backend.onMessage topic false = Backend.Dispatch.parseError ∧
    Backend.onMessageEffects topic false saveFails =
      [Backend.MessageEffect.consoleError "Error processing MQTT message:"] ∧
    Backend.MessageEffect.handleSensorData ∉ Backend.onMessageEffects topic false saveFails ∧
    Backend.MessageEffect.handleSensorStatus ∉ Backend.onMessageEffects topic false saveFails ∧
    Backend.MessageEffect.saved ∉ Backend.onMessageEffects topic false saveFails ∧
    Backend.MessageEffect.uncaught ∉ Backend.onMessageEffects topic false saveFails ∧
    Frontend.onMessage s throws topic none = [Frontend.processingError] ∧
    Frontend.callsOf (Frontend.onMessage s throws topic none) = [] ∧
    Frontend.Effect.uncaught ∉ Frontend.onMessage s throws topic none := by
  have hb : Backend.onMessageEffects topic false saveFails =
      [Backend.MessageEffect.consoleError "Error processing MQTT message:"] := by
    simp [Backend.onMessageEffects, Backend.onMessage]
  have hf : Frontend.onMessage s throws topic none = [Frontend.processingError] := rfl
  refine ⟨by simp [Backend.onMessage], hb, ?_, ?_, ?_, ?_, hf, ?_, ?_⟩
  · rw [hb]; simp
  · rw [hb]; simp
  · rw [hb]; simp
  · rw [hb]; simp
  · rw [hf]; simp [Frontend.processingError, Frontend.callsOf]
  · rw [hf]; simp [Frontend.processingError]

/-! ## The Alerts list -/

namespace Alerts

theorem take_cons_take (n : Nat) (a : Alert) (l : List Alert) :
    (a :: l.take n).take n = (a :: l).take n := by
  cases n with
  | zero => rfl
  | succ m =>
    simp only [List.take_succ_cons, List.take_take]
    rw [Nat.min_eq_left (Nat.le_succ m)]

theorem afterTriggers_eq (triggers : List Alert) :
    afterTriggers triggers = triggers.reverse.take 50 := by
  induction triggers using List.reverseRecOn with
  | nil => rfl
  | append_singleton l a ih =>
    have hstep : afterTriggers (l ++ [a]) = addAlert (afterTriggers l) a := by
      simp [afterTriggers, List.foldl_append]
    rw [hstep, ih, List.reverse_append]
    exact take_cons_take 50 a l.reverse

/-- C28: after any sequence of triggered alerts the list holds at most 50
entries, which are the most recent alerts, newest first; after more than 50
triggers it holds exactly the 50 most recent ones. -/
theorem alerts_keep_last_50 (triggers : List Alert) :
    (afterTriggers triggers).length ≤ 50 ∧
    afterTriggers triggers = triggers.reverse.take 50 ∧
    afterTriggers triggers = (triggers.drop (triggers.length - 50)).reverse ∧
    (50 < triggers.length → (afterTriggers triggers).length = 50) ∧
    (∀ alert, afterTriggers (triggers ++ [alert]) = (alert :: afterTriggers triggers).take 50) := by
  have heq := afterTriggers_eq triggers
  refine ⟨?_, heq, ?_, ?_, ?_⟩
  · rw [heq]
    exact List.length_take_le _ _
  · rw [heq, List.take_reverse]
  · intro h
    rw [heq, List.length_take, List.length_reverse]
    omega
  · intro alert
    simp [afterTriggers, List.foldl_append, addAlert]

/-- C28 on three alerts: the list is the three of them, newest first. -/
theorem alerts_keep_last_50_witness :
    afterTriggers [Alert.mk 1 "a" "m" "warning", Alert.mk 2 "a" "m" "warning",
      Alert.mk 3 "a" "m" "error"] =
    [Alert.mk 3 "a" "m" "error", Alert.mk 2 "a" "m" "warning", Alert.mk 1 "a" "m" "warning"] :=
  (alerts_keep_last_50 [Alert.mk 1 "a" "m" "warning", Alert.mk 2 "a" "m" "warning",
    Alert.mk 3 "a" "m" "error"]).2.1.trans (by decide)

end Alerts

/-! ## Backend dispatch: what the regular expressions accept -/

namespace Backend

theorem matchLit_eq_some_iff (lit s rest : List Char) :
    matchLit lit s = some rest ↔ s = lit ++ rest := by
  induction lit generalizing s with
  | nil => simp [matchLit, eq_comm]
  | cons l ls ih =>
    cases s with
    | nil => simp [matchLit]
    | cons c cs =>
      by_cases hlc : l = c
      · subst hlc
        simp [matchLit, ih]
      · have hcl : ¬ c = l := fun h => hlc h.symm
        simp [matchLit, hlc, hcl]

theorem wordPlusThen_iff (k : List Char → Bool) (s : List Char) :
    wordPlusThen k s = true ↔
      ∃ w rest, s = w ++ rest ∧ w ≠ [] ∧ (∀ c ∈ w, isWordChar c = true) ∧ k rest = true := by
  induction s with
  | nil =>
    constructor
    · intro h
      simp [wordPlusThen] at h
    · rintro ⟨w, rest, hs, hne, _, _⟩
      have : w = [] := (List.append_eq_nil.1 hs.symm).1
      exact absurd this hne
  | cons c cs ih =>
    constructor
    · intro h
      simp only [wordPlusThen, Bool.and_eq_true, Bool.or_eq_true] at h
      obtain ⟨hc, h | h⟩ := h
      · obtain ⟨w, rest, hs, _, hw, hk⟩ := ih.1 h
        refine ⟨c :: w, rest, by simp [hs], by simp, ?_, hk⟩
        intro d hd
        rcases List.mem_cons.1 hd with rfl | hd
        · exact hc
        · exact hw d hd
      · exact ⟨[c], cs, rfl, by simp, by simpa using hc, h⟩
    · rintro ⟨w, rest, hs, hne, hw, hk⟩
      cases w with
      | nil => exact absurd rfl hne
      | cons d w' =>
        simp only [List.cons_append, List.cons.injEq] at hs
        obtain ⟨hcd, hcs⟩ := hs
        subst hcd
        have hc : isWordChar c = true := hw c (List.mem_cons_self _ _)
        simp only [wordPlusThen, Bool.and_eq_true, Bool.or_eq_true]
        refine ⟨hc, ?_⟩
        by_cases hw' : w' = []
        · subst hw'
          right
          simpa [hcs] using hk
        · left
          exact ih.2 ⟨w', rest, hcs, hw', fun e he => hw e (List.mem_cons_of_mem _ he), hk⟩

theorem matchHere_iff (suffix s : List Char) :
    matchHere suffix s = true ↔
      ∃ w post, s = "sensor/".toList ++ (w ++ ('/' :: suffix ++ post)) ∧ w ≠ [] ∧
        ∀ c ∈ w, isWordChar c = true := by
  have hdef : matchHere suffix s =
      (match matchLit "sensor/".toList s with
        | none => false
        | some rest => wordPlusThen (fun r => (matchLit ('/' :: suffix) r).isSome) rest) := rfl
  rw [hdef]
  constructor
  · intro h
    cases hm : matchLit "sensor/".toList s with
    | none =>
      rw [hm] at h
      exact absurd h Bool.false_ne_true
    | some rest =>
      rw [hm] at h
      have hs := (matchLit_eq_some_iff _ _ _).1 hm
      obtain ⟨w, r, hrest, hne, hw, hk⟩ := (wordPlusThen_iff _ _).1 h
      cases hk2 : matchLit ('/' :: suffix) r with
      | none => simp [hk2] at hk
      | some post =>
        have hr := (matchLit_eq_some_iff _ _ _).1 hk2
        exact ⟨w, post, by rw [hs, hrest, hr], hne, hw⟩
  · rintro ⟨w, post, hs, hne, hw⟩
    have hm : matchLit "sensor/".toList s = some (w ++ ('/' :: suffix ++ post)) :=
      (matchLit_eq_some_iff _ _ _).2 hs
    rw [hm]
    apply (wordPlusThen_iff _ _).2
    refine ⟨w, '/' :: suffix ++ post, rfl, hne, hw, ?_⟩
    have : matchLit ('/' :: suffix) ('/' :: suffix ++ post) = some post :=
      (matchLit_eq_some_iff _ _ _).2 rfl
    show (matchLit ('/' :: suffix) ('/' :: suffix ++ post)).isSome = true
    rw [this]
    rfl

theorem searchFrom_iff (suffix s : List Char) :
    searchFrom suffix s = true ↔ ∃ pre rest, s = pre ++ rest ∧ matchHere suffix rest = true := by
  induction s with
  | nil =>
    constructor
    · intro h
      exact ⟨[], [], rfl, by simpa [searchFrom] using h⟩
    · rintro ⟨pre, rest, hs, hm⟩
      have hrest : rest = [] := (List.append_eq_nil.1 hs.symm).2
      subst hrest
      simpa [searchFrom] using hm
  | cons c cs ih =>
    constructor
    · intro h
      simp only [searchFrom, Bool.or_eq_true] at h
      rcases h with h | h
      · exact ⟨[], c :: cs, rfl, h⟩
      · obtain ⟨pre, rest, hs, hm⟩ := ih.1 h
        exact ⟨c :: pre, rest, by simp [hs], hm⟩
    · rintro ⟨pre, rest, hs, hm⟩
      simp only [searchFrom, Bool.or_eq_true]
      cases pre with
      | nil =>
        left
        simp only [List.nil_append] at hs
        rw [hs]
        exact hm
      | cons d pre' =>
        right
        simp only [List.cons_append, List.cons.injEq] at hs
        exact ih.2 ⟨pre', rest, hs.2, hm⟩

theorem searchFrom_iff_contains (suffix topic : String) :
    searchFrom suffix.toList topic.toList = true ↔ ContainsSensorPath suffix topic := by
  rw [searchFrom_iff]
  unfold ContainsSensorPath
  constructor
  · rintro ⟨pre, rest, hs, hm⟩
    obtain ⟨w, post, hrest, hne, hw⟩ := (matchHere_iff _ _).1 hm
    exact ⟨pre, w, post, by rw [hs, hrest], hne, hw⟩
  · rintro ⟨pre, w, post, hs, hne, hw⟩
    exact ⟨pre, _, hs, (matchHere_iff _ _).2 ⟨w, post, rfl, hne, hw⟩⟩

/-- C29, refuted: the topics `x/sensor/a/data/y` and `sensor/a/database` are
dispatched to `handleSensorData`. -/
theorem onMessage_extra_characters_dispatched :
    onMessage "x/sensor/a/data/y" true = Dispatch.sensorData ∧
    onMessage "sensor/a/database" true = Dispatch.sensorData := by
  decide

/-- C29, amended: a well-formed message is dispatched to `handleSensorData`
exactly when its topic holds, somewhere, `sensor/`, one or more word
characters and `/data`, and to `handleSensorStatus` exactly when it does not
but holds `sensor/`, one or more word characters and `/status`; what comes
before or after in the topic plays no part. -/
theorem onMessage_dispatch_iff (topic : String) :
    (onMessage topic true = Dispatch.sensorData ↔ ContainsSensorPath "data" topic) ∧
    (onMessage topic true = Dispatch.sensorStatus ↔
      ¬ ContainsSensorPath "data" topic ∧ ContainsSensorPath "status" topic) := by
  have hd : matchesData topic = true ↔ ContainsSensorPath "data" topic :=
    searchFrom_iff_contains "data" topic
  have hs : matchesStatus topic = true ↔ ContainsSensorPath "status" topic :=
    searchFrom_iff_contains "status" topic
  rw [← hd, ← hs]
  unfold onMessage
  by_cases h1 : matchesData topic = true
  · simp [h1]
  · by_cases h2 : matchesStatus topic = true
    · simp [h1, h2]
    · simp [h1, h2]

end Backend

/-! ## Lemmas on binary64 rounding -/

namespace Ieee

/-! ### Rounding to an integer -/

theorem floor_le_roundHalfEven (q : ℚ) : Rat.floor q ≤ roundHalfEven q := by
  unfold roundHalfEven
  split_ifs <;> omega

theorem roundHalfEven_le_floor_succ (q : ℚ) : roundHalfEven q ≤ Rat.floor q + 1 := by
  unfold roundHalfEven
  split_ifs <;> omega

theorem le_roundHalfEven (N : ℤ) (q : ℚ) (h : (N : ℚ) ≤ q) : N ≤ roundHalfEven q :=
  le_trans (Rat.le_floor.2 h) (floor_le_roundHalfEven q)

theorem roundHalfEven_intCast (N : ℤ) : roundHalfEven (N : ℚ) = N := by
  have hfl : Rat.floor (N : ℚ) = N := by
    show ⌊(N : ℚ)⌋ = N
    exact Int.floor_intCast N
  unfold roundHalfEven
  rw [hfl]
  norm_num

theorem roundHalfEven_le (N : ℤ) (q : ℚ) (h : q ≤ (N : ℚ)) : roundHalfEven q ≤ N := by
  rcases eq_or_lt_of_le h with heq | hlt
  · rw [heq, roundHalfEven_intCast]
  · have hfl : Rat.floor q < N := by
      have : (⌊q⌋ : ℤ) < N := Int.floor_lt.2 hlt
      exact this
    have := roundHalfEven_le_floor_succ q
    omega

theorem roundHalfEven_of_lt_half (q : ℚ) (z : ℤ) (h1 : (z : ℚ) ≤ q) (h2 : q - z < 1 / 2) :
    roundHalfEven q = z := by
  have hfl : Rat.floor q = z := by
    have : (⌊q⌋ : ℤ) = z := Int.floor_eq_iff.2 ⟨h1, by linarith⟩
    exact this
  unfold roundHalfEven
  rw [hfl, if_pos h2]

theorem roundHalfEven_of_tie_odd (q : ℚ) (z : ℤ) (h : q = z + 1 / 2) (hodd : z % 2 = 1) :
    roundHalfEven q = z + 1 := by
  have hfl : Rat.floor q = z := by
    have : (⌊q⌋ : ℤ) = z := Int.floor_eq_iff.2 ⟨by linarith, by linarith⟩
    exact this
  unfold roundHalfEven
  rw [hfl]
  have h1 : ¬ (q - (z : ℚ) < 1 / 2) := by rw [h]; norm_num
  have h2 : ¬ ((1 : ℚ) / 2 < q - (z : ℚ)) := by rw [h]; norm_num
  have h3 : ¬ (z % 2 = 0) := by omega
  rw [if_neg h1, if_neg h2, if_neg h3]

/-! ### Rounding to a binary64 number -/

theorem two_zpow_pos (z : ℤ) : (0 : ℚ) < (2 : ℚ) ^ z := zpow_pos (by norm_num) z

theorem le_nearest_of_multiple (x : ℚ) (N : ℤ) (h : (N : ℚ) * (2 : ℚ) ^ ulpExp x ≤ x) :
    (N : ℚ) * (2 : ℚ) ^ ulpExp x ≤ nearest x := by
  unfold nearest
  have hpos := two_zpow_pos (ulpExp x)
  have hq : (N : ℚ) ≤ x / (2 : ℚ) ^ ulpExp x := (le_div_iff₀ hpos).2 h
  have := le_roundHalfEven N _ hq
  have hc : (N : ℚ) ≤ (roundHalfEven (x / (2 : ℚ) ^ ulpExp x) : ℚ) := by exact_mod_cast this
  exact mul_le_mul_of_nonneg_right hc (le_of_lt hpos)

theorem nearest_le_of_multiple (x : ℚ) (N : ℤ) (h : x ≤ (N : ℚ) * (2 : ℚ) ^ ulpExp x) :
    nearest x ≤ (N : ℚ) * (2 : ℚ) ^ ulpExp x := by
  unfold nearest
  have hpos := two_zpow_pos (ulpExp x)
  have hq : x / (2 : ℚ) ^ ulpExp x ≤ (N : ℚ) := (div_le_iff₀ hpos).2 h
  have := roundHalfEven_le N _ hq
  have hc : (roundHalfEven (x / (2 : ℚ) ^ ulpExp x) : ℚ) ≤ (N : ℚ) := by exact_mod_cast this
  exact mul_le_mul_of_nonneg_right hc (le_of_lt hpos)

theorem nearest_of_multiple (x : ℚ) (N : ℤ) (h : x = (N : ℚ) * (2 : ℚ) ^ ulpExp x) :
    nearest x = x :=
  le_antisymm
    (by
      have := nearest_le_of_multiple x N (le_of_eq h)
      rw [← h] at this
      exact this)
    (by
      have := le_nearest_of_multiple x N (le_of_eq h.symm)
      rw [← h] at this
      exact this)

/-- A multiple of `2 ^ e` is a multiple of `2 ^ e'` for every `e' ≤ e`. -/
theorem multiple_of_le (K : ℤ) (e e' : ℤ) (h : e' ≤ e) :
    ∃ N : ℤ, (K : ℚ) * (2 : ℚ) ^ e = (N : ℚ) * (2 : ℚ) ^ e' := by
  refine ⟨K * 2 ^ (e - e').toNat, ?_⟩
  have hd : ((e - e').toNat : ℤ) = e - e' := Int.toNat_of_nonneg (by omega)
  have hsplit : (2 : ℚ) ^ e = (2 : ℚ) ^ ((e - e').toNat : ℤ) * (2 : ℚ) ^ e' := by
    rw [← zpow_add₀ (by norm_num : (2 : ℚ) ≠ 0), hd]
    congr 1
    omega
  rw [hsplit, zpow_natCast]
  push_cast
  ring

/-- A dyadic value `m / 2 ^ j` is a multiple of `2 ^ e` for every
`e ≤ -j`. -/
theorem dyadic_multiple (m : ℤ) (j : ℕ) (e : ℤ) (h : e ≤ -(j : ℤ)) :
    ∃ N : ℤ, (m : ℚ) / (2 : ℚ) ^ j = (N : ℚ) * (2 : ℚ) ^ e := by
  obtain ⟨N, hN⟩ := multiple_of_le m (-(j : ℤ)) e h
  refine ⟨N, ?_⟩
  rw [← hN, zpow_neg, zpow_natCast]
  rfl

theorem log_lt_of_abs_lt (x : ℚ) (k : ℤ) (hk : 1 ≤ k) (h : |x| < (2 : ℚ) ^ k) :
    Int.log 2 |x| < k := by
  rcases eq_or_lt_of_le (abs_nonneg x) with h0 | hpos
  · rw [← h0, Int.log_zero_right]
    omega
  · have := (Int.lt_zpow_iff_log_lt (R := ℚ) (b := 2) (by norm_num) (x := k) hpos).1
      (by simpa using h)
    exact this

theorem ulpExp_le_of_abs_lt (x : ℚ) (k : ℤ) (hk : 1 ≤ k) (h : |x| < (2 : ℚ) ^ k) :
    ulpExp x ≤ k - 53 := by
  have := log_lt_of_abs_lt x k hk h
  unfold ulpExp
  have hmax : max (Int.log 2 |x|) (-1022) ≤ k - 1 := max_le (by omega) (by omega)
  omega

theorem le_nearest_dyadic (x : ℚ) (m : ℤ) (j : ℕ) (k : ℤ) (hk : 1 ≤ k)
    (hx : |x| < (2 : ℚ) ^ k) (hj : k - 53 ≤ -(j : ℤ)) (h : (m : ℚ) / (2 : ℚ) ^ j ≤ x) :
    (m : ℚ) / (2 : ℚ) ^ j ≤ nearest x := by
  obtain ⟨N, hN⟩ := dyadic_multiple m j (ulpExp x)
    (le_trans (ulpExp_le_of_abs_lt x k hk hx) hj)
  rw [hN] at h ⊢
  exact le_nearest_of_multiple x N h

theorem nearest_le_dyadic (x : ℚ) (m : ℤ) (j : ℕ) (k : ℤ) (hk : 1 ≤ k)
    (hx : |x| < (2 : ℚ) ^ k) (hj : k - 53 ≤ -(j : ℤ)) (h : x ≤ (m : ℚ) / (2 : ℚ) ^ j) :
    nearest x ≤ (m : ℚ) / (2 : ℚ) ^ j := by
  obtain ⟨N, hN⟩ := dyadic_multiple m j (ulpExp x)
    (le_trans (ulpExp_le_of_abs_lt x k hk hx) hj)
  rw [hN] at h ⊢
  exact nearest_le_of_multiple x N h

theorem nearest_dyadic (m : ℤ) (j : ℕ) (k : ℤ) (hk : 1 ≤ k)
    (hx : |(m : ℚ) / (2 : ℚ) ^ j| < (2 : ℚ) ^ k) (hj : k - 53 ≤ -(j : ℤ)) :
    nearest ((m : ℚ) / (2 : ℚ) ^ j) = (m : ℚ) / (2 : ℚ) ^ j := by
  obtain ⟨N, hN⟩ := dyadic_multiple m j (ulpExp ((m : ℚ) / (2 : ℚ) ^ j))
    (le_trans (ulpExp_le_of_abs_lt _ k hk hx) hj)
  exact nearest_of_multiple _ N hN

theorem log_eq_of_bounds (x : ℚ) (L : ℤ) (h1 : (2 : ℚ) ^ L ≤ |x|) (h2 : |x| < (2 : ℚ) ^ (L + 1)) :
    Int.log 2 |x| = L := by
  have hpos : 0 < |x| := lt_of_lt_of_le (two_zpow_pos L) h1
  have hle : L ≤ Int.log 2 |x| :=
    (Int.zpow_le_iff_le_log (R := ℚ) (b := 2) (by norm_num) hpos).1 (by simpa using h1)
  have hlt : Int.log 2 |x| < L + 1 :=
    (Int.lt_zpow_iff_log_lt (R := ℚ) (b := 2) (by norm_num) hpos).1 (by simpa using h2)
  omega

theorem nearest_eq_of_bounds (x : ℚ) (L : ℤ) (hL : -1022 ≤ L) (h1 : (2 : ℚ) ^ L ≤ |x|)
    (h2 : |x| < (2 : ℚ) ^ (L + 1)) :
    nearest x = (roundHalfEven (x / (2 : ℚ) ^ (L - 52)) : ℚ) * (2 : ℚ) ^ (L - 52) := by
  have hu : ulpExp x = L - 52 := by
    unfold ulpExp
    rw [log_eq_of_bounds x L h1 h2, max_eq_left hL]
  unfold nearest
  rw [hu]

theorem nearest_zero : nearest 0 = 0 := by
  have h := roundHalfEven_intCast 0
  unfold nearest
  rw [zero_div]
  simp only [Int.cast_zero] at h
  rw [h]
  simp

theorem multiple_of_fixed (d : ℚ) (h : nearest d = d) :
    ∃ N : ℤ, d = (N : ℚ) * (2 : ℚ) ^ ulpExp d :=
  ⟨roundHalfEven (d / (2 : ℚ) ^ ulpExp d), h.symm⟩

theorem zpow_log_le_abs (x : ℚ) (hx : x ≠ 0) : (2 : ℚ) ^ Int.log 2 |x| ≤ |x| := by
  have := Int.zpow_log_le_self (R := ℚ) (b := 2) (by norm_num) (abs_pos.2 hx)
  simpa using this

theorem abs_lt_zpow_succ_log (x : ℚ) : |x| < (2 : ℚ) ^ (Int.log 2 |x| + 1) := by
  have := Int.lt_zpow_succ_log_self (R := ℚ) (b := 2) (by norm_num) |x|
  simpa using this

/-- Between two values whose units in the last place are apart lies a power
of two of the larger magnitude. -/
theorem barrier_of_ulpExp_lt (x d : ℚ) (hx : x ≠ 0) (h : ulpExp d < ulpExp x) :
    |d| < (2 : ℚ) ^ Int.log 2 |x| ∧ (2 : ℚ) ^ Int.log 2 |x| ≤ |x| ∧
      (2 : ℚ) ^ Int.log 2 |x| = ((2 ^ 52 : ℤ) : ℚ) * (2 : ℚ) ^ ulpExp x := by
  have hlog : Int.log 2 |d| + 1 ≤ Int.log 2 |x| ∧ -1022 ≤ Int.log 2 |x| := by
    unfold ulpExp at h
    rcases max_cases (Int.log 2 |d|) (-1022) with ⟨h1, _⟩ | ⟨h1, _⟩ <;>
      rcases max_cases (Int.log 2 |x|) (-1022) with ⟨h2, _⟩ | ⟨h2, _⟩ <;>
      rw [h1, h2] at h <;> omega
  have hux : ulpExp x = Int.log 2 |x| - 52 := by
    unfold ulpExp
    rw [max_eq_left hlog.2]
  refine ⟨?_, zpow_log_le_abs x hx, ?_⟩
  · exact lt_of_lt_of_le (abs_lt_zpow_succ_log d) (zpow_le_zpow_right₀ (by norm_num) hlog.1)
  · rw [hux]
    have : (2 : ℚ) ^ Int.log 2 |x| = (2 : ℚ) ^ (52 : ℤ) * (2 : ℚ) ^ (Int.log 2 |x| - 52) := by
      rw [← zpow_add₀ (by norm_num : (2 : ℚ) ≠ 0)]
      congr 1
      ring
    rw [this]
    push_cast
    norm_num

/-- Rounding does not cross a binary64 number: above. -/
theorem nearest_le_of_fixed (x d : ℚ) (hd : nearest d = d) (h : x ≤ d) : nearest x ≤ d := by
  obtain ⟨K, hK⟩ := multiple_of_fixed d hd
  by_cases hx0 : x = 0
  · subst hx0
    rw [nearest_zero]
    exact h
  by_cases hcase : ulpExp x ≤ ulpExp d
  · obtain ⟨N, hN⟩ := multiple_of_le K (ulpExp d) (ulpExp x) hcase
    have hdN : d = (N : ℚ) * (2 : ℚ) ^ ulpExp x := hK.trans hN
    have := nearest_le_of_multiple x N (by rw [← hdN]; exact h)
    rw [← hdN] at this
    exact this
  · push_neg at hcase
    obtain ⟨h1, h2, h3⟩ := barrier_of_ulpExp_lt x d hx0 hcase
    have hxneg : x < 0 := by
      by_contra hn
      push_neg at hn
      have : |x| ≤ |d| := by
        rw [abs_of_nonneg hn, abs_of_nonneg (le_trans hn h)]
        exact h
      linarith
    have hxle : x ≤ -(2 : ℚ) ^ Int.log 2 |x| := by
      have hax : |x| = -x := abs_of_neg hxneg
      linarith
    have hm : -(2 : ℚ) ^ Int.log 2 |x| = ((-(2 ^ 52) : ℤ) : ℚ) * (2 : ℚ) ^ ulpExp x := by
      rw [h3]
      push_cast
      ring
    have := nearest_le_of_multiple x (-(2 ^ 52)) (by rw [← hm]; exact hxle)
    rw [← hm] at this
    have : -|d| ≤ d := neg_abs_le d
    linarith

/-- Rounding does not cross a binary64 number: below. -/
theorem le_nearest_of_fixed (x d : ℚ) (hd : nearest d = d) (h : d ≤ x) : d ≤ nearest x := by
  obtain ⟨K, hK⟩ := multiple_of_fixed d hd
  by_cases hx0 : x = 0
  · subst hx0
    rw [nearest_zero]
    exact h
  by_cases hcase : ulpExp x ≤ ulpExp d
  · obtain ⟨N, hN⟩ := multiple_of_le K (ulpExp d) (ulpExp x) hcase
    have hdN : d = (N : ℚ) * (2 : ℚ) ^ ulpExp x := hK.trans hN
    have := le_nearest_of_multiple x N (by rw [← hdN]; exact h)
    rw [← hdN] at this
    exact this
  · push_neg at hcase
    obtain ⟨h1, h2, h3⟩ := barrier_of_ulpExp_lt x d hx0 hcase
    have hxpos : 0 < x := by
      by_contra hn
      push_neg at hn
      have : |x| ≤ |d| := by
        rw [abs_of_nonpos hn, abs_of_nonpos (le_trans h hn)]
        linarith
      linarith
    have hxle : (2 : ℚ) ^ Int.log 2 |x| ≤ x := by
      have hax : |x| = x := abs_of_pos hxpos
      linarith
    have := le_nearest_of_multiple x (2 ^ 52) (by rw [← h3]; exact hxle)
    rw [← h3] at this
    have : d ≤ |d| := le_abs_self d
    linarith

/-- Twice a binary64 number is one, were the exponent unbounded above. -/
theorem nearest_two_mul (d : ℚ) (hd : nearest d = d) : nearest (2 * d) = 2 * d := by
  by_cases hd0 : d = 0
  · subst hd0
    simp [nearest_zero]
  obtain ⟨K, hK⟩ := multiple_of_fixed d hd
  have h1 : (2 : ℚ) ^ (Int.log 2 |d| + 1) ≤ |2 * d| := by
    rw [abs_mul, zpow_add₀ (by norm_num : (2 : ℚ) ≠ 0)]
    have := zpow_log_le_abs d hd0
    norm_num
    linarith
  have h2 : |2 * d| < (2 : ℚ) ^ (Int.log 2 |d| + 1 + 1) := by
    rw [abs_mul, zpow_add₀ (by norm_num : (2 : ℚ) ≠ 0) (Int.log 2 |d| + 1)]
    have := abs_lt_zpow_succ_log d
    norm_num
    linarith
  have hlog := log_eq_of_bounds (2 * d) _ h1 h2
  have hu : ulpExp (2 * d) ≤ ulpExp d + 1 := by
    unfold ulpExp
    rw [hlog]
    rcases max_cases (Int.log 2 |d|) (-1022) with ⟨h1, _⟩ | ⟨h1, _⟩ <;>
      rcases max_cases (Int.log 2 |d| + 1) (-1022) with ⟨h2, _⟩ | ⟨h2, _⟩ <;>
      rw [h1, h2] <;> omega
  obtain ⟨N, hN⟩ := multiple_of_le K (ulpExp d + 1) (ulpExp (2 * d)) hu
  apply nearest_of_multiple _ N
  rw [← hN, zpow_add₀ (by norm_num : (2 : ℚ) ≠ 0)]
  conv_lhs => rw [hK]
  ring

theorem round_eq_fin (x : ℚ) (h1 : -(2 : ℚ) ^ (1024 : ℕ) < nearest x)
    (h2 : nearest x < (2 : ℚ) ^ (1024 : ℕ)) : round x = Number.fin (nearest x) := by
  unfold round
  rw [if_neg (not_le.2 h2), if_neg (not_le.2 h1)]

theorem round_of_isDouble (x : ℚ) (h : IsDouble x) : round x = Number.fin x := by
  have := abs_lt.1 h.2
  rw [round_eq_fin x (by rw [h.1]; exact this.1) (by rw [h.1]; exact this.2), h.1]

theorem isDouble_dyadic (m : ℤ) (j : ℕ) (k : ℤ) (hk : 1 ≤ k) (hk2 : k ≤ 1024)
    (hx : |(m : ℚ) / (2 : ℚ) ^ j| < (2 : ℚ) ^ k) (hj : k - 53 ≤ -(j : ℤ)) :
    IsDouble ((m : ℚ) / (2 : ℚ) ^ j) := by
  refine ⟨nearest_dyadic m j k hk hx hj, lt_of_lt_of_le hx ?_⟩
  have : (2 : ℚ) ^ k ≤ (2 : ℚ) ^ (1024 : ℤ) := zpow_le_zpow_right₀ (by norm_num) hk2
  calc (2 : ℚ) ^ k ≤ (2 : ℚ) ^ (1024 : ℤ) := this
    _ = (2 : ℚ) ^ (1024 : ℕ) := by rw [← zpow_natCast]; rfl

theorem round_ne_nan (x : ℚ) : round x ≠ Number.nan := by
  unfold round
  split_ifs <;> simp

theorem round_dyadic (x : ℚ) (m : ℤ) (j : ℕ) (k : ℤ) (hx : x = (m : ℚ) / (2 : ℚ) ^ j)
    (hk : 1 ≤ k) (hk2 : k ≤ 1024) (habs : |x| < (2 : ℚ) ^ k) (hj : k - 53 ≤ -(j : ℤ)) :
    round x = Number.fin x := by
  subst hx
  exact round_of_isDouble _ (isDouble_dyadic m j k hk hk2 habs hj)

/-- A result of magnitude at most `2 ^ e`, `e ≤ 52`, rounds to a finite
number of magnitude at most `2 ^ e`. -/
theorem round_abs_le (x : ℚ) (e : ℕ) (he : e ≤ 52) (h : |x| ≤ (2 : ℚ) ^ e) :
    ∃ v, round x = Number.fin v ∧ |v| ≤ (2 : ℚ) ^ e := by
  have hpos : (0 : ℚ) < (2 : ℚ) ^ e := pow_pos (by norm_num) e
  have hk : |x| < (2 : ℚ) ^ ((e : ℤ) + 1) := by
    rw [zpow_add₀ (by norm_num : (2 : ℚ) ≠ 0), zpow_natCast, zpow_one]
    linarith
  have hb := abs_le.1 h
  have h1 := le_nearest_dyadic x (-(2 ^ e)) 0 ((e : ℤ) + 1) (by omega) hk
    (by push_cast; omega) (by push_cast; simpa using hb.1)
  have h2 := nearest_le_dyadic x (2 ^ e) 0 ((e : ℤ) + 1) (by omega) hk
    (by push_cast; omega) (by push_cast; simpa using hb.2)
  push_cast at h1 h2
  simp only [pow_zero, div_one] at h1 h2
  have hlt : (2 : ℚ) ^ e < (2 : ℚ) ^ (1024 : ℕ) :=
    pow_lt_pow_right₀ (by norm_num) (by omega)
  exact ⟨nearest x, round_eq_fin x (by linarith) (by linarith), abs_le.2 ⟨h1, h2⟩⟩

/-- A value with binary exponent `L` that is a multiple of `2 ^ (L - 52)` is
its own rounding. -/
theorem nearest_of_exponent (x : ℚ) (L N : ℤ) (hL : -1022 ≤ L) (h1 : (2 : ℚ) ^ L ≤ |x|)
    (h2 : |x| < (2 : ℚ) ^ (L + 1)) (hN : x = (N : ℚ) * (2 : ℚ) ^ (L - 52)) : nearest x = x := by
  rw [nearest_eq_of_bounds x L hL h1 h2]
  have hq : x / (2 : ℚ) ^ (L - 52) = (N : ℚ) := by
    rw [hN, mul_div_assoc, div_self (ne_of_gt (two_zpow_pos _)), mul_one]
  rw [hq, roundHalfEven_intCast, ← hN]

theorem battery_bounds (r : ℚ) (hr0 : 0 ≤ r) (hr1 : r < 1) :
    70 ≤ Simulator.battery r ∧ Simulator.battery r ≤ 100 := by
  have hx0 : (0 : ℚ) ≤ r * 30 := by linarith
  have hx30 : r * 30 ≤ 30 := by linarith
  have hxabs : |r * 30| < (2 : ℚ) ^ (5 : ℤ) := by
    rw [abs_of_nonneg hx0]
    norm_num
    linarith
  have h1 : (0 : ℚ) ≤ nearest (r * 30) := by
    have := le_nearest_dyadic (r * 30) 0 0 5 (by norm_num) hxabs (by norm_num) (by simpa using hx0)
    simpa using this
  have h2 : nearest (r * 30) ≤ 30 := by
    have := nearest_le_dyadic (r * 30) 30 0 5 (by norm_num) hxabs (by norm_num)
      (by simpa using hx30)
    simpa using this
  have hyabs : |nearest (r * 30) + 70| < (2 : ℚ) ^ (7 : ℤ) := by
    rw [abs_of_nonneg (by linarith)]
    norm_num
    linarith
  have h3 : (70 : ℚ) ≤ nearest (nearest (r * 30) + 70) := by
    have := le_nearest_dyadic (nearest (r * 30) + 70) 70 0 7 (by norm_num) hyabs (by norm_num)
      (by norm_num; linarith)
    simpa using this
  have h4 : nearest (nearest (r * 30) + 70) ≤ 100 := by
    have := nearest_le_dyadic (nearest (r * 30) + 70) 100 0 7 (by norm_num) hyabs (by norm_num)
      (by norm_num; linarith)
    simpa using this
  unfold Simulator.battery
  constructor
  · exact Rat.le_floor.2 (by exact_mod_cast h3)
  · have : (⌊nearest (nearest (r * 30) + 70)⌋ : ℤ) < 101 :=
      Int.floor_lt.2 (by push_cast; linarith)
    have h5 : Rat.floor (nearest (nearest (r * 30) + 70)) < 101 := this
    omega

theorem battery_attains_below_100 (n : ℤ) (h70 : 70 ≤ n) (h99 : n ≤ 99) :
    ∃ r : ℚ, IsDouble r ∧ 0 ≤ r ∧ r < 1 ∧ Simulator.battery r = n := by
  have hq70 : (70 : ℚ) ≤ n := by exact_mod_cast h70
  have hq99 : (n : ℚ) ≤ 99 := by exact_mod_cast h99
  have hc1 : ((n : ℚ) - 70) * 1024 / 30 ≤ (⌈((n : ℚ) - 70) * 1024 / 30⌉ : ℤ) := Int.le_ceil _
  have hc2 : ((⌈((n : ℚ) - 70) * 1024 / 30⌉ : ℤ) : ℚ) < ((n : ℚ) - 70) * 1024 / 30 + 1 :=
    Int.ceil_lt_add_one _
  generalize (⌈((n : ℚ) - 70) * 1024 / 30⌉ : ℤ) = c at hc1 hc2
  have hc0 : (0 : ℚ) ≤ c := le_trans (by apply div_nonneg <;> linarith) hc1
  have hcu : (c : ℚ) < 1024 := by linarith
  have hr0 : (0 : ℚ) ≤ (c : ℚ) / (2 : ℚ) ^ (10 : ℕ) := by positivity
  have hr1 : (c : ℚ) / (2 : ℚ) ^ (10 : ℕ) < 1 := by
    rw [div_lt_one (by norm_num)]
    norm_num
    exact hcu
  refine ⟨(c : ℚ) / (2 : ℚ) ^ (10 : ℕ), ?_, hr0, hr1, ?_⟩
  · apply isDouble_dyadic c 10 1 (by norm_num) (by norm_num) _ (by norm_num)
    rw [abs_of_nonneg hr0]
    norm_num
    linarith
  · have hx : (c : ℚ) / (2 : ℚ) ^ (10 : ℕ) * 30 = ((30 * c : ℤ) : ℚ) / (2 : ℚ) ^ (10 : ℕ) := by
      push_cast
      ring
    have hxn : nearest ((c : ℚ) / (2 : ℚ) ^ (10 : ℕ) * 30) =
        ((30 * c : ℤ) : ℚ) / (2 : ℚ) ^ (10 : ℕ) := by
      rw [hx]
      apply nearest_dyadic (30 * c) 10 5 (by norm_num) _ (by norm_num)
      rw [abs_of_nonneg (by push_cast; positivity)]
      push_cast
      norm_num
      linarith
    have hy : ((30 * c : ℤ) : ℚ) / (2 : ℚ) ^ (10 : ℕ) + 70 =
        ((30 * c + 71680 : ℤ) : ℚ) / (2 : ℚ) ^ (10 : ℕ) := by
      push_cast
      ring
    have hyn : nearest (((30 * c : ℤ) : ℚ) / (2 : ℚ) ^ (10 : ℕ) + 70) =
        ((30 * c : ℤ) : ℚ) / (2 : ℚ) ^ (10 : ℕ) + 70 := by
      rw [hy]
      apply nearest_dyadic (30 * c + 71680) 10 7 (by norm_num) _ (by norm_num)
      rw [abs_of_nonneg (by push_cast; positivity)]
      push_cast
      norm_num
      linarith
    unfold Simulator.battery
    rw [hxn, hyn]
    have : (⌊((30 * c : ℤ) : ℚ) / (2 : ℚ) ^ (10 : ℕ) + 70⌋ : ℤ) = n := by
      rw [Int.floor_eq_iff]
      push_cast
      constructor
      · norm_num
        linarith
      · norm_num
        linarith
    exact this

theorem battery_attains_100 : IsDouble (1 - 1 / 2 ^ 52) ∧ Simulator.battery (1 - 1 / 2 ^ 52) = 100 := by
  have hr : (1 : ℚ) - 1 / 2 ^ 52 = ((2 ^ 52 - 1 : ℤ) : ℚ) / (2 : ℚ) ^ (52 : ℕ) := by
    push_cast
    norm_num
  constructor
  · rw [hr]
    apply isDouble_dyadic _ 52 1 (by norm_num) (by norm_num) _ (by norm_num)
    push_cast
    rw [abs_of_nonneg (by norm_num)]
    norm_num
  · have hx : nearest ((1 - 1 / 2 ^ 52) * 30) = 30 - 1 / 2 ^ 47 := by
      rw [nearest_eq_of_bounds _ 4 (by norm_num) (by rw [abs_of_nonneg (by norm_num)]; norm_num)
        (by rw [abs_of_nonneg (by norm_num)]; norm_num)]
      rw [roundHalfEven_of_lt_half _ (30 * 2 ^ 48 - 2) (by norm_num) (by norm_num)]
      norm_num
    have hy : nearest (30 - 1 / 2 ^ 47 + 70) = 100 := by
      rw [nearest_eq_of_bounds _ 6 (by norm_num) (by rw [abs_of_nonneg (by norm_num)]; norm_num)
        (by rw [abs_of_nonneg (by norm_num)]; norm_num)]
      rw [roundHalfEven_of_tie_odd _ (100 * 2 ^ 46 - 1) (by norm_num) (by norm_num)]
      norm_num
    unfold Simulator.battery
    rw [hx, hy]
    show ⌊(100 : ℚ)⌋ = 100
    exact_mod_cast Int.floor_intCast (100 : ℤ)

end Ieee

/-! ## The simulator in binary64 arithmetic: generated values -/

namespace Simulator

namespace InDoubles

theorem keep_eq_clamp (lo hi x : Ieee.Number) (h : Ieee.le lo hi) :
    Ieee.jsMax lo (Ieee.jsMin hi x) = clamp x lo hi := by
  cases lo <;> cases hi <;> cases x <;> simp [Ieee.jsMax, Ieee.jsMin, clamp, Ieee.le] at h ⊢
  · split_ifs <;> simp_all [Ieee.le]
  · split_ifs <;> simp_all [Ieee.le] <;> linarith
  · intro h2
    linarith
  · split_ifs <;> simp_all [Ieee.le] <;> linarith

theorem keep_within_iff (lo hi x : Ieee.Number) (h : Ieee.le lo hi) :
    x ≠ Ieee.Number.nan ↔
      Ieee.le lo (Ieee.jsMax lo (Ieee.jsMin hi x)) ∧ Ieee.le (Ieee.jsMax lo (Ieee.jsMin hi x)) hi := by
  rw [keep_eq_clamp lo hi x h]
  cases lo <;> cases hi <;> cases x <;> simp [clamp, Ieee.le] at h ⊢
  · split_ifs with h1
    · simp [Ieee.le]
    · simp only [Ieee.le]
      exact ⟨trivial, le_of_lt (not_le.1 h1)⟩
  · exact h
  · split_ifs with h1 h2
    · simp_all [Ieee.le]
    · simp_all [Ieee.le]
    · simp only [Ieee.le]
      exact ⟨le_of_lt (not_le.1 h1), le_of_lt (not_le.1 h2)⟩
  · exact h
  · split_ifs with h1
    · simp_all [Ieee.le]
    · simp only [Ieee.le]
      exact ⟨le_of_lt (not_le.1 h1), trivial⟩

theorem add_fin (a b : ℚ) :
    Ieee.add (Ieee.Number.fin a) (Ieee.Number.fin b) = Ieee.round (a + b) := rfl

theorem sub_fin (a b : ℚ) :
    Ieee.sub (Ieee.Number.fin a) (Ieee.Number.fin b) = Ieee.round (a - b) := rfl

theorem mul_fin (a b : ℚ) :
    Ieee.mul (Ieee.Number.fin a) (Ieee.Number.fin b) = Ieee.round (a * b) := rfl

theorem half_fin (a : ℚ) : Ieee.half (Ieee.Number.fin a) = Ieee.round (a / 2) := rfl

theorem keep_fin (lo hi : ℚ) (x : Ieee.Number) (hle : lo ≤ hi) (hx : x ≠ Ieee.Number.nan) :
    ∃ v, Ieee.jsMax (Ieee.Number.fin lo) (Ieee.jsMin (Ieee.Number.fin hi) x) = Ieee.Number.fin v ∧
      lo ≤ v ∧ v ≤ hi := by
  rw [keep_eq_clamp _ _ _ (show Ieee.le (Ieee.Number.fin lo) (Ieee.Number.fin hi) from hle)]
  cases x with
  | nan => exact absurd rfl hx
  | negInf => exact ⟨lo, by simp [clamp, Ieee.le], le_refl _, hle⟩
  | posInf => exact ⟨hi, by simp [clamp, Ieee.le], hle, le_refl _⟩
  | fin c =>
    by_cases h1 : c ≤ lo
    · exact ⟨lo, by simp [clamp, Ieee.le, h1], le_refl _, hle⟩
    · by_cases h2 : hi ≤ c
      · exact ⟨hi, by simp [clamp, Ieee.le, h1, h2], hle, le_refl _⟩
      · exact ⟨c, by simp [clamp, Ieee.le, h1, h2], le_of_lt (not_le.1 h1), le_of_lt (not_le.1 h2)⟩

theorem midpoint_within (lo hi : ℚ) (hlo : Ieee.IsDouble lo) (hhi : Ieee.IsDouble hi)
    (hle : lo ≤ hi)
    (h1 : Ieee.add (Ieee.Number.fin hi) (Ieee.Number.fin lo) ≠ Ieee.Number.posInf)
    (h2 : Ieee.add (Ieee.Number.fin hi) (Ieee.Number.fin lo) ≠ Ieee.Number.negInf) :
    ∃ v, Ieee.half (Ieee.add (Ieee.Number.fin hi) (Ieee.Number.fin lo)) = Ieee.Number.fin v ∧
      lo ≤ v ∧ v ≤ hi := by
  rw [add_fin] at h1 h2 ⊢
  have hs1 : 2 * lo ≤ Ieee.nearest (hi + lo) :=
    Ieee.le_nearest_of_fixed _ _ (Ieee.nearest_two_mul lo hlo.1) (by linarith)
  have hs2 : Ieee.nearest (hi + lo) ≤ 2 * hi :=
    Ieee.nearest_le_of_fixed _ _ (Ieee.nearest_two_mul hi hhi.1) (by linarith)
  have hfin : Ieee.round (hi + lo) = Ieee.Number.fin (Ieee.nearest (hi + lo)) := by
    unfold Ieee.round at h1 h2 ⊢
    split_ifs at h1 h2 ⊢ <;> simp_all
  rw [hfin, half_fin]
  have hm1 : lo ≤ Ieee.nearest (Ieee.nearest (hi + lo) / 2) :=
    Ieee.le_nearest_of_fixed _ _ hlo.1 (by linarith)
  have hm2 : Ieee.nearest (Ieee.nearest (hi + lo) / 2) ≤ hi :=
    Ieee.nearest_le_of_fixed _ _ hhi.1 (by linarith)
  have hb1 := abs_lt.1 hlo.2
  have hb2 := abs_lt.1 hhi.2
  exact ⟨_, Ieee.round_eq_fin _ (by linarith) (by linarith), hm1, hm2⟩

theorem abs_mul_le (a b A B : ℚ) (ha : |a| ≤ A) (hb : |b| ≤ B) : |a * b| ≤ A * B := by
  rw [abs_mul]
  exact mul_le_mul ha hb (abs_nonneg b) (le_trans (abs_nonneg a) ha)

theorem abs_add_le (a b A B : ℚ) (ha : |a| ≤ A) (hb : |b| ≤ B) : |a + b| ≤ A + B :=
  le_trans (abs_add a b) (add_le_add ha hb)

theorem abs_sub_le_add (a b A B : ℚ) (ha : |a| ≤ A) (hb : |b| ≤ B) : |a - b| ≤ A + B :=
  le_trans (abs_sub a b) (add_le_add ha hb)

/-- With bounds, noise and last value of magnitude at most `2 ^ 40`, a draw
in `[0, 1)` and a sine in `[-1, 1]`, the candidate is a finite number. -/
theorem candidate_finite (lo hi noise last r sn : ℚ)
    (hlo : |lo| ≤ 2 ^ 40) (hhi : |hi| ≤ 2 ^ 40) (hnoise : |noise| ≤ 2 ^ 40)
    (hlast : |last| ≤ 2 ^ 40) (hr0 : 0 ≤ r) (hr1 : r < 1) (hsn : |sn| ≤ 1) :
    ∃ c, candidate (Sensor.mk (Ieee.Number.fin lo) (Ieee.Number.fin hi) (Ieee.Number.fin noise)
      (Ieee.Number.fin last)) r sn = Ieee.Number.fin c := by
  obtain ⟨a1, ha1, hb1⟩ := Ieee.round_abs_le (r - 1 / 2) 0 (by norm_num)
    (abs_le.2 ⟨by norm_num; linarith, by norm_num; linarith⟩)
  obtain ⟨a2, ha2, hb2⟩ := Ieee.round_abs_le (a1 * 2) 1 (by norm_num)
    (le_trans (abs_mul_le a1 2 _ 2 hb1 (by norm_num)) (by norm_num))
  obtain ⟨n, hn, hbn⟩ := Ieee.round_abs_le (a2 * noise) 41 (by norm_num)
    (le_trans (abs_mul_le a2 noise _ _ hb2 hnoise) (by norm_num))
  obtain ⟨ρ, hρ, hbρ⟩ := Ieee.round_abs_le (hi - lo) 41 (by norm_num)
    (le_trans (abs_sub_le_add hi lo _ _ hhi hlo) (by norm_num))
  obtain ⟨τ1, hτ1, hbτ1⟩ := Ieee.round_abs_le (sn * ρ) 41 (by norm_num)
    (le_trans (abs_mul_le sn ρ _ _ hsn hbρ) (by norm_num))
  obtain ⟨c0, hc0, hbc0⟩ := Ieee.round_abs_le (1 / 10) 0 (by norm_num)
    (by rw [abs_of_nonneg (by norm_num)]; norm_num)
  obtain ⟨τ, hτ, hbτ⟩ := Ieee.round_abs_le (τ1 * c0) 41 (by norm_num)
    (le_trans (abs_mul_le τ1 c0 _ _ hbτ1 hbc0) (by norm_num))
  obtain ⟨s1, hs1, hbs1⟩ := Ieee.round_abs_le (last + n) 42 (by norm_num)
    (le_trans (abs_add_le last n _ _ hlast hbn) (by norm_num))
  obtain ⟨c, hc, _⟩ := Ieee.round_abs_le (s1 + τ) 43 (by norm_num)
    (le_trans (abs_add_le s1 τ _ _ hbs1 hbτ) (by norm_num))
  refine ⟨c, ?_⟩
  simp only [candidate, noiseTerm, trendTerm]
  rw [sub_fin, ha1, mul_fin, ha2, mul_fin, hn, sub_fin, hρ, mul_fin, hτ1, hc0, mul_fin, hτ,
    add_fin, hs1, add_fin, hc]

theorem toFixed2_near (v : ℚ) :
    ∃ n : ℤ, Simulator.toFixed2 v = (n : ℚ) / 100 ∧ |(n : ℚ) / 100 - v| ≤ 1 / 200 := by
  unfold Simulator.toFixed2
  by_cases hv : v < 0
  · rw [if_pos hv]
    have h1 : ((Rat.floor (-v * 100 + 1 / 2) : ℤ) : ℚ) ≤ -v * 100 + 1 / 2 := Int.floor_le _
    have h2 : -v * 100 + 1 / 2 < ((Rat.floor (-v * 100 + 1 / 2) : ℤ) : ℚ) + 1 :=
      Int.lt_floor_add_one _
    refine ⟨-Rat.floor (-v * 100 + 1 / 2), by push_cast; ring, ?_⟩
    rw [abs_le]
    push_cast
    constructor <;> linarith
  · rw [if_neg hv]
    have h1 : ((Rat.floor (v * 100 + 1 / 2) : ℤ) : ℚ) ≤ v * 100 + 1 / 2 := Int.floor_le _
    have h2 : v * 100 + 1 / 2 < ((Rat.floor (v * 100 + 1 / 2) : ℤ) : ℚ) + 1 :=
      Int.lt_floor_add_one _
    refine ⟨Rat.floor (v * 100 + 1 / 2), rfl, ?_⟩
    rw [abs_le]
    constructor <;> linarith

/-- Rounding to two decimals does not cross a multiple of `0.01`. -/
theorem toFixed2_within (v : ℚ) (a b : ℤ) (h1 : (a : ℚ) / 100 ≤ v) (h2 : v ≤ (b : ℚ) / 100) :
    (a : ℚ) / 100 ≤ Simulator.toFixed2 v ∧ Simulator.toFixed2 v ≤ (b : ℚ) / 100 := by
  unfold Simulator.toFixed2
  by_cases hv : v < 0
  · rw [if_pos hv]
    have hlo : -b ≤ Rat.floor (-v * 100 + 1 / 2) := Rat.le_floor.2 (by push_cast; linarith)
    have hhi : Rat.floor (-v * 100 + 1 / 2) < -a + 1 := by
      have : (⌊-v * 100 + 1 / 2⌋ : ℤ) < -a + 1 := Int.floor_lt.2 (by push_cast; linarith)
      exact this
    have hlo' : (-(b : ℚ)) ≤ ((Rat.floor (-v * 100 + 1 / 2) : ℤ) : ℚ) := by exact_mod_cast hlo
    have hhi' : ((Rat.floor (-v * 100 + 1 / 2) : ℤ) : ℚ) ≤ -(a : ℚ) := by
      have : Rat.floor (-v * 100 + 1 / 2) ≤ -a := by omega
      exact_mod_cast this
    constructor <;> linarith
  · rw [if_neg hv]
    have hlo : a ≤ Rat.floor (v * 100 + 1 / 2) := Rat.le_floor.2 (by linarith)
    have hhi : Rat.floor (v * 100 + 1 / 2) < b + 1 := by
      have : (⌊v * 100 + 1 / 2⌋ : ℤ) < b + 1 := Int.floor_lt.2 (by push_cast; linarith)
      exact this
    have hlo' : (a : ℚ) ≤ ((Rat.floor (v * 100 + 1 / 2) : ℤ) : ℚ) := by exact_mod_cast hlo
    have hhi' : ((Rat.floor (v * 100 + 1 / 2) : ℤ) : ℚ) ≤ (b : ℚ) := by
      have : Rat.floor (v * 100 + 1 / 2) ≤ b := by omega
      exact_mod_cast this
    constructor <;> linarith

theorem round_exact (x y : ℚ) (m : ℤ) (j k : ℕ) (hxy : x = y) (hy : y = (m : ℚ) / (2 : ℚ) ^ j)
    (hk : 1 ≤ k) (hkj : k + j ≤ 53) (habs : |y| < (2 : ℚ) ^ k) :
    Ieee.round x = Ieee.Number.fin y := by
  subst hxy
  exact Ieee.round_dyadic x m j (k : ℤ) hy (by omega) (by omega)
    (by rw [zpow_natCast]; exact habs) (by omega)

theorem round_bounds (x : ℚ) (m1 m2 : ℤ) (k : ℕ) (hk : 1 ≤ k) (hk53 : k ≤ 53)
    (h1 : (m1 : ℚ) ≤ x) (h2 : x ≤ (m2 : ℚ)) (habs : |x| < (2 : ℚ) ^ k) :
    ∃ v, Ieee.round x = Ieee.Number.fin v ∧ (m1 : ℚ) ≤ v ∧ v ≤ (m2 : ℚ) := by
  have hz : |x| < (2 : ℚ) ^ (k : ℤ) := by rw [zpow_natCast]; exact habs
  have hb := abs_lt.1 habs
  have a1 := Ieee.le_nearest_dyadic x m1 0 k (by omega) hz (by simp; omega) (by simpa using h1)
  have a2 := Ieee.nearest_le_dyadic x m2 0 k (by omega) hz (by simp; omega) (by simpa using h2)
  have a3 := Ieee.le_nearest_dyadic x (-(2 ^ k)) 0 k (by omega) hz (by simp; omega)
    (by push_cast; simp only [pow_zero, div_one]; linarith)
  have a4 := Ieee.nearest_le_dyadic x (2 ^ k) 0 k (by omega) hz (by simp; omega)
    (by push_cast; simp only [pow_zero, div_one]; linarith)
  push_cast at a3 a4
  simp only [pow_zero, div_one] at a1 a2 a3 a4
  have hlt : (2 : ℚ) ^ k < (2 : ℚ) ^ (1024 : ℕ) := pow_lt_pow_right₀ (by norm_num) (by omega)
  exact ⟨Ieee.nearest x, Ieee.round_eq_fin x (by linarith) (by linarith), a1, a2⟩

theorem sufficient_sum_finite (lo hi : ℚ) (hlo : Ieee.IsDouble lo) (hhi : Ieee.IsDouble hi)
    (hle : lo ≤ hi) (h1 : |lo| < (2 : ℚ) ^ (1023 : ℕ)) (h2 : |hi| < (2 : ℚ) ^ (1023 : ℕ)) :
    Ieee.add (Ieee.Number.fin hi) (Ieee.Number.fin lo) =
      Ieee.Number.fin (Ieee.nearest (hi + lo)) := by
  rw [add_fin]
  have hs1 : 2 * lo ≤ Ieee.nearest (hi + lo) :=
    Ieee.le_nearest_of_fixed _ _ (Ieee.nearest_two_mul lo hlo.1) (by linarith)
  have hs2 : Ieee.nearest (hi + lo) ≤ 2 * hi :=
    Ieee.nearest_le_of_fixed _ _ (Ieee.nearest_two_mul hi hhi.1) (by linarith)
  have hb1 := abs_lt.1 h1
  have hb2 := abs_lt.1 h2
  have hp : (2 : ℚ) ^ (1024 : ℕ) = 2 * (2 : ℚ) ^ (1023 : ℕ) := by
    rw [show (1024 : ℕ) = 1023 + 1 from rfl, pow_succ]
    ring
  exact Ieee.round_eq_fin _ (by rw [hp]; linarith) (by rw [hp]; linarith)

theorem emitted_of_fin (sensor : Sensor) (r sn v : ℚ) (h : nextValue sensor r sn = Ieee.Number.fin v) :
    (generateAndPublishData sensor r sn).2 =
      if (10 : ℚ) ^ (21 : ℕ) ≤ |v| then Ieee.Number.fin v
      else Ieee.round (Simulator.toFixed2 v) := by
  simp only [generateAndPublishData, h, toFixed2]

/-- C18: a reading above `maxValue`. The sensor is created with
`minValue = 20`, `maxValue = 29.9990234375` and `noise = 10`; on the first
tick `Math.random()` is `0.875` and the sine is `0.5`. The candidate is at
least `32`, the clamp stores `maxValue`, and rounding it to two decimals
gives the reading `30`, above `maxValue`. -/
theorem reading_above_maxValue :
    Ieee.IsDouble 20 ∧ Ieee.IsDouble (30719 / 1024) ∧ Ieee.IsDouble 10 ∧ Ieee.IsDouble (7 / 8) ∧
    Ieee.IsDouble (1 / 2) ∧ (20 : ℚ) < 30719 / 1024 ∧
    (generateAndPublishData
      (newSensor (Ieee.Number.fin 20) (Ieee.Number.fin (30719 / 1024)) (Ieee.Number.fin 10))
      (7 / 8) (1 / 2)).1.lastValue = Ieee.Number.fin (30719 / 1024) ∧
    (generateAndPublishData
      (newSensor (Ieee.Number.fin 20) (Ieee.Number.fin (30719 / 1024)) (Ieee.Number.fin 10))
      (7 / 8) (1 / 2)).2 = Ieee.Number.fin 30 ∧
    ¬ Ieee.le (Ieee.Number.fin 30) (Ieee.Number.fin (30719 / 1024)) := by
  have d1 : Ieee.IsDouble 20 := by
    have := Ieee.isDouble_dyadic 20 0 5 (by norm_num) (by norm_num)
      (by rw [abs_of_nonneg (by norm_num)]; norm_num) (by norm_num)
    simpa using this
  have d2 : Ieee.IsDouble (30719 / 1024) := by
    have := Ieee.isDouble_dyadic 30719 10 5 (by norm_num) (by norm_num)
      (by rw [abs_of_nonneg (by norm_num)]; norm_num) (by norm_num)
    norm_num at this
    exact this
  have d3 : Ieee.IsDouble 10 := by
    have := Ieee.isDouble_dyadic 10 0 5 (by norm_num) (by norm_num)
      (by rw [abs_of_nonneg (by norm_num)]; norm_num) (by norm_num)
    simpa using this
  have d4 : Ieee.IsDouble (7 / 8) := by
    have := Ieee.isDouble_dyadic 7 3 1 (by norm_num) (by norm_num)
      (by rw [abs_of_nonneg (by norm_num)]; norm_num) (by norm_num)
    norm_num at this
    exact this
  have d5 : Ieee.IsDouble (1 / 2) := by
    have := Ieee.isDouble_dyadic 1 1 1 (by norm_num) (by norm_num)
      (by rw [abs_of_nonneg (by norm_num)]; norm_num) (by norm_num)
    norm_num at this
    exact this
  have e1 : Ieee.round (30719 / 1024 + 20) = Ieee.Number.fin (51199 / 1024) :=
    round_exact _ _ 51199 10 6 (by norm_num) (by norm_num) (by norm_num) (by norm_num)
      (by rw [abs_of_nonneg (by norm_num)]; norm_num)
  have e2 : Ieee.round (51199 / 1024 / 2) = Ieee.Number.fin (51199 / 2048) :=
    round_exact _ _ 51199 11 5 (by norm_num) (by norm_num) (by norm_num) (by norm_num)
      (by rw [abs_of_nonneg (by norm_num)]; norm_num)
  have e3 : Ieee.round (7 / 8 - 1 / 2) = Ieee.Number.fin (3 / 8) :=
    round_exact _ _ 3 3 1 (by norm_num) (by norm_num) (by norm_num) (by norm_num)
      (by rw [abs_of_nonneg (by norm_num)]; norm_num)
  have e4 : Ieee.round (3 / 8 * 2) = Ieee.Number.fin (3 / 4) :=
    round_exact _ _ 3 2 1 (by norm_num) (by norm_num) (by norm_num) (by norm_num)
      (by rw [abs_of_nonneg (by norm_num)]; norm_num)
  have e5 : Ieee.round (3 / 4 * 10) = Ieee.Number.fin (15 / 2) :=
    round_exact _ _ 15 1 3 (by norm_num) (by norm_num) (by norm_num) (by norm_num)
      (by rw [abs_of_nonneg (by norm_num)]; norm_num)
  have e6 : Ieee.round (30719 / 1024 - 20) = Ieee.Number.fin (10239 / 1024) :=
    round_exact _ _ 10239 10 4 (by norm_num) (by norm_num) (by norm_num) (by norm_num)
      (by rw [abs_of_nonneg (by norm_num)]; norm_num)
  have e7 : Ieee.round (1 / 2 * (10239 / 1024)) = Ieee.Number.fin (10239 / 2048) :=
    round_exact _ _ 10239 11 3 (by norm_num) (by norm_num) (by norm_num) (by norm_num)
      (by rw [abs_of_nonneg (by norm_num)]; norm_num)
  obtain ⟨c0, hc0, hc0l, hc0u⟩ := round_bounds (1 / 10) 0 1 1 (by norm_num) (by norm_num)
    (by norm_num) (by norm_num) (by rw [abs_of_nonneg (by norm_num)]; norm_num)
  have hc0l' : (0 : ℚ) ≤ c0 := by simpa using hc0l
  have hc0u' : c0 ≤ 1 := by simpa using hc0u
  obtain ⟨t, ht, htl, htu⟩ := round_bounds (10239 / 2048 * c0) 0 5 3 (by norm_num)
    (by norm_num) (by push_cast; positivity) (by push_cast; nlinarith)
    (by rw [abs_of_nonneg (by positivity)]; norm_num; nlinarith)
  have htl' : (0 : ℚ) ≤ t := by simpa using htl
  have htu' : t ≤ 5 := by simpa using htu
  have e8 : Ieee.round (51199 / 2048 + 15 / 2) = Ieee.Number.fin (66559 / 2048) :=
    round_exact _ _ 66559 11 6 (by norm_num) (by norm_num) (by norm_num) (by norm_num)
      (by rw [abs_of_nonneg (by norm_num)]; norm_num)
  obtain ⟨c, hc, hcl, hcu⟩ := round_bounds (66559 / 2048 + t) 32 38 6 (by norm_num)
    (by norm_num) (by push_cast; linarith) (by push_cast; linarith)
    (by rw [abs_of_nonneg (by positivity)]; norm_num; linarith)
  have hcl' : (32 : ℚ) ≤ c := by simpa using hcl
  have hcand : candidate
      (newSensor (Ieee.Number.fin 20) (Ieee.Number.fin (30719 / 1024)) (Ieee.Number.fin 10))
      (7 / 8) (1 / 2) = Ieee.Number.fin c := by
    simp only [candidate, noiseTerm, trendTerm, newSensor]
    rw [add_fin, e1, half_fin, e2, sub_fin, e3, mul_fin, e4, mul_fin, e5, sub_fin, e6, mul_fin,
      e7, hc0, mul_fin, ht, add_fin, e8, add_fin, hc]
  have hnext : nextValue
      (newSensor (Ieee.Number.fin 20) (Ieee.Number.fin (30719 / 1024)) (Ieee.Number.fin 10))
      (7 / 8) (1 / 2) = Ieee.Number.fin (30719 / 1024) := by
    unfold nextValue
    rw [hcand]
    have h1 : (30719 / 1024 : ℚ) ≤ c := by linarith
    simp [newSensor, Ieee.jsMax, Ieee.jsMin, Ieee.le, h1]
    norm_num
  have hfix : Simulator.toFixed2 (30719 / 1024) = 30 := by
    norm_num [Simulator.toFixed2, Rat.floor_def']
  have e9 : Ieee.round 30 = Ieee.Number.fin 30 :=
    round_exact _ _ 30 0 5 rfl (by norm_num) (by norm_num) (by norm_num)
      (by rw [abs_of_nonneg (by norm_num)]; norm_num)
  refine ⟨d1, d2, d3, d4, d5, by norm_num, ?_, ?_, ?_⟩
  · exact hnext
  · rw [emitted_of_fin _ _ _ _ hnext, if_neg, hfix, e9]
    rw [abs_of_nonneg (by norm_num)]
    norm_num
  · show ¬ ((30 : ℚ) ≤ 30719 / 1024)
    norm_num

theorem isDouble_int (m : ℤ) (k : ℕ) (hk : 1 ≤ k) (hk53 : k ≤ 53)
    (habs : |(m : ℚ)| < (2 : ℚ) ^ k) : Ieee.IsDouble (m : ℚ) := by
  have := Ieee.isDouble_dyadic m 0 (k : ℤ) (by omega) (by omega)
    (by rw [zpow_natCast]; simpa using habs) (by simp; omega)
  simpa using this

theorem isDouble_20 : Ieee.IsDouble 20 := by
  have := isDouble_int 20 5 (by norm_num) (by norm_num)
    (by rw [abs_of_nonneg (by norm_num)]; norm_num)
  simpa using this

theorem isDouble_30 : Ieee.IsDouble 30 := by
  have := isDouble_int 30 5 (by norm_num) (by norm_num)
    (by rw [abs_of_nonneg (by norm_num)]; norm_num)
  simpa using this

theorem add_30_20 :
    Ieee.add (Ieee.Number.fin 30) (Ieee.Number.fin 20) = Ieee.Number.fin 50 := by
  rw [add_fin]
  exact round_exact _ _ 50 0 6 (by norm_num) (by norm_num) (by norm_num) (by norm_num)
    (by rw [abs_of_nonneg (by norm_num)]; norm_num)

theorem isDouble_two_pow_1023 : Ieee.IsDouble (2 ^ 1023) := by
  refine ⟨Ieee.nearest_of_exponent _ 1023 (2 ^ 52) (by norm_num) ?_ ?_ ?_, ?_⟩
  · rw [abs_of_nonneg (by positivity)]
    norm_num
  · rw [abs_of_nonneg (by positivity)]
    norm_num
  · norm_num
  · rw [abs_of_nonneg (by positivity)]
    norm_num

theorem isDouble_three_two_pow_1022 : Ieee.IsDouble (3 * 2 ^ 1022) := by
  refine ⟨Ieee.nearest_of_exponent _ 1023 (3 * 2 ^ 51) (by norm_num) ?_ ?_ ?_, ?_⟩
  · rw [abs_of_nonneg (by positivity)]
    norm_num
  · rw [abs_of_nonneg (by positivity)]
    norm_num
  · norm_num
  · rw [abs_of_nonneg (by positivity)]
    norm_num

/-- C19: a midpoint above `maxValue`. Both bounds are binary64 numbers,
`minValue = 2 ^ 1023` (about `9e307`) and `maxValue = 1.5 * 2 ^ 1023`; their
sum overflows, and `createSensor` stores `lastValue = Infinity`. -/
theorem midpoint_overflows :
    Ieee.IsDouble (2 ^ 1023) ∧ Ieee.IsDouble (3 * 2 ^ 1022) ∧
    (2 ^ 1023 : ℚ) ≤ 3 * 2 ^ 1022 ∧
    (newSensor (Ieee.Number.fin (2 ^ 1023)) (Ieee.Number.fin (3 * 2 ^ 1022))
      (Ieee.Number.fin (1 / 2))).lastValue = Ieee.Number.posInf ∧
    ¬ Ieee.le
      (newSensor (Ieee.Number.fin (2 ^ 1023)) (Ieee.Number.fin (3 * 2 ^ 1022))
        (Ieee.Number.fin (1 / 2))).lastValue
      (newSensor (Ieee.Number.fin (2 ^ 1023)) (Ieee.Number.fin (3 * 2 ^ 1022))
        (Ieee.Number.fin (1 / 2))).maxValue := by
  have hn : Ieee.nearest (3 * 2 ^ 1022 + 2 ^ 1023) = 3 * 2 ^ 1022 + 2 ^ 1023 := by
    refine Ieee.nearest_of_exponent _ 1024 (5 * 2 ^ 50) (by norm_num) ?_ ?_ ?_
    · rw [abs_of_nonneg (by positivity)]
      norm_num
    · rw [abs_of_nonneg (by positivity)]
      norm_num
    · norm_num
  have hsum : Ieee.add (Ieee.Number.fin (3 * 2 ^ 1022)) (Ieee.Number.fin (2 ^ 1023)) =
      Ieee.Number.posInf := by
    rw [add_fin]
    unfold Ieee.round
    rw [hn, if_pos (by norm_num)]
  have hlast : (newSensor (Ieee.Number.fin (2 ^ 1023)) (Ieee.Number.fin (3 * 2 ^ 1022))
      (Ieee.Number.fin (1 / 2))).lastValue = Ieee.Number.posInf := by
    simp only [newSensor]
    rw [hsum]
    rfl
  refine ⟨isDouble_two_pow_1023, isDouble_three_two_pow_1022, by norm_num, hlast, ?_⟩
  rw [hlast]
  simp [newSensor, Ieee.le]

/-- C18, amended: the reading is the value kept as `lastValue`, rounded to
two decimals and read back as a binary64 number. With finite bounds
`minValue ≤ maxValue` and a candidate that is not `NaN`, the kept value `v`
lies within the bounds, and the reading is the binary64 number nearest to a
multiple `n / 100` of `0.01` that is within `0.005` of `v` (`v` itself from
`1e21` on); when both bounds are binary64 numbers that are multiples of
`0.01`, the reading lies within the bounds. The candidate is not `NaN` when
the bounds, the noise and the last value have magnitude at most `2 ^ 40`,
the draw is in `[0, 1)` and the sine in `[-1, 1]`. -/
theorem reading_near_kept_value :
    (∀ (sensor : Sensor) (r sn lo hi : ℚ),
      sensor.minValue = Ieee.Number.fin lo → sensor.maxValue = Ieee.Number.fin hi → lo ≤ hi →
      candidate sensor r sn ≠ Ieee.Number.nan →
      ∃ v, (generateAndPublishData sensor r sn).1.lastValue = Ieee.Number.fin v ∧
        lo ≤ v ∧ v ≤ hi ∧
        (∃ n : ℤ, |(n : ℚ) / 100 - v| ≤ 1 / 200 ∧
          (generateAndPublishData sensor r sn).2 =
            if (10 : ℚ) ^ (21 : ℕ) ≤ |v| then Ieee.Number.fin v
            else Ieee.round ((n : ℚ) / 100)) ∧
        (Ieee.IsDouble lo → Ieee.IsDouble hi → (∃ a : ℤ, lo = (a : ℚ) / 100) →
          (∃ b : ℤ, hi = (b : ℚ) / 100) →
          ∃ e, (generateAndPublishData sensor r sn).2 = Ieee.Number.fin e ∧ lo ≤ e ∧ e ≤ hi)) ∧
    (∀ lo hi noise last r sn : ℚ, |lo| ≤ 2 ^ 40 → |hi| ≤ 2 ^ 40 → |noise| ≤ 2 ^ 40 →
      |last| ≤ 2 ^ 40 → 0 ≤ r → r < 1 → |sn| ≤ 1 →
      candidate (Sensor.mk (Ieee.Number.fin lo) (Ieee.Number.fin hi) (Ieee.Number.fin noise)
        (Ieee.Number.fin last)) r sn ≠ Ieee.Number.nan) := by
  constructor
  · intro sensor r sn lo hi hmin hmax hle hc
    obtain ⟨v, hv, h1, h2⟩ := keep_fin lo hi (candidate sensor r sn) hle hc
    have hnext : nextValue sensor r sn = Ieee.Number.fin v := by
      unfold nextValue
      rw [hmin, hmax]
      exact hv
    obtain ⟨n, hn, hnear⟩ := toFixed2_near v
    refine ⟨v, hnext, h1, h2, ⟨n, hnear, ?_⟩, ?_⟩
    · rw [emitted_of_fin _ _ _ _ hnext, hn]
    · intro dlo dhi ha hb
      obtain ⟨a, ha⟩ := ha
      obtain ⟨b, hb⟩ := hb
      rw [emitted_of_fin _ _ _ _ hnext]
      by_cases hbig : (10 : ℚ) ^ (21 : ℕ) ≤ |v|
      · rw [if_pos hbig]
        exact ⟨v, rfl, h1, h2⟩
      · rw [if_neg hbig]
        obtain ⟨w1, w2⟩ := toFixed2_within v a b (by rw [← ha]; exact h1) (by rw [← hb]; exact h2)
        have m1 := Ieee.le_nearest_of_fixed (Simulator.toFixed2 v) lo dlo.1 (by rw [ha]; exact w1)
        have m2 := Ieee.nearest_le_of_fixed (Simulator.toFixed2 v) hi dhi.1 (by rw [hb]; exact w2)
        have hb1 := abs_lt.1 dlo.2
        have hb2 := abs_lt.1 dhi.2
        exact ⟨_, Ieee.round_eq_fin _ (by linarith) (by linarith), m1, m2⟩
  · intro lo hi noise last r sn hlo hhi hnoise hlast hr0 hr1 hsn
    obtain ⟨c, hc⟩ := candidate_finite lo hi noise last r sn hlo hhi hnoise hlast hr0 hr1 hsn
    rw [hc]
    simp

/-- C18 on the default bounds `20` and `30` with `lastValue = 25`, the draw
`0.5` and the sine `0`: the candidate is a number, and the reading lies
between `20` and `30`. -/
theorem reading_near_kept_value_witness :
    ∃ e, (generateAndPublishData
        (Sensor.mk (Ieee.Number.fin 20) (Ieee.Number.fin 30) (Ieee.Number.fin (1 / 2))
          (Ieee.Number.fin 25)) (1 / 2) 0).2 = Ieee.Number.fin e ∧ 20 ≤ e ∧ e ≤ 30 := by
  obtain ⟨v, _, _, _, _, h⟩ := reading_near_kept_value.1
    (Sensor.mk (Ieee.Number.fin 20) (Ieee.Number.fin 30) (Ieee.Number.fin (1 / 2))
      (Ieee.Number.fin 25)) (1 / 2) 0 20 30 rfl rfl (by norm_num)
    (reading_near_kept_value.2 20 30 (1 / 2) 25 (1 / 2) 0
      (by rw [abs_of_nonneg (by norm_num)]; norm_num)
      (by rw [abs_of_nonneg (by norm_num)]; norm_num)
      (by rw [abs_of_nonneg (by norm_num)]; norm_num)
      (by rw [abs_of_nonneg (by norm_num)]; norm_num)
      (by norm_num) (by norm_num) (by norm_num))
  exact h isDouble_20 isDouble_30 ⟨2000, by norm_num⟩ ⟨3000, by norm_num⟩

/-- C19, amended: in binary64 arithmetic. After `createSensor` with bounds
that are binary64 numbers, `minValue ≤ maxValue`, whose sum does not
overflow, the stored `lastValue` is a number within the bounds; the sum does
not overflow when both bounds have magnitude below `2 ^ 1023`. After a tick
of a sensor with `minValue ≤ maxValue` the entry keeps its bounds and noise,
the new `lastValue` is the clamp of
`lastValue + (r - 0.5) * 2 * noise + sn * (maxValue - minValue) * 0.1`, and
it lies within the bounds exactly when that candidate is not `NaN`. -/
theorem lastValue_within_bounds :
    (∀ (lo hi : ℚ) (noise : Ieee.Number), Ieee.IsDouble lo → Ieee.IsDouble hi → lo ≤ hi →
      Ieee.add (Ieee.Number.fin hi) (Ieee.Number.fin lo) ≠ Ieee.Number.posInf →
      Ieee.add (Ieee.Number.fin hi) (Ieee.Number.fin lo) ≠ Ieee.Number.negInf →
      ∃ v, (newSensor (Ieee.Number.fin lo) (Ieee.Number.fin hi) noise).lastValue =
          Ieee.Number.fin v ∧ lo ≤ v ∧ v ≤ hi) ∧
    (∀ lo hi : ℚ, Ieee.IsDouble lo → Ieee.IsDouble hi → lo ≤ hi →
      |lo| < (2 : ℚ) ^ (1023 : ℕ) → |hi| < (2 : ℚ) ^ (1023 : ℕ) →
      Ieee.add (Ieee.Number.fin hi) (Ieee.Number.fin lo) ≠ Ieee.Number.posInf ∧
      Ieee.add (Ieee.Number.fin hi) (Ieee.Number.fin lo) ≠ Ieee.Number.negInf) ∧
    (∀ (sensor : Sensor) (r sn : ℚ), Ieee.le sensor.minValue sensor.maxValue →
      (generateAndPublishData sensor r sn).1 =
        Sensor.mk sensor.minValue sensor.maxValue sensor.noise
          (clamp
            (Ieee.add
              (Ieee.add sensor.lastValue
                (Ieee.mul (Ieee.mul (Ieee.sub (Ieee.Number.fin r) (Ieee.Number.fin (1 / 2)))
                  (Ieee.Number.fin 2)) sensor.noise))
              (Ieee.mul (Ieee.mul (Ieee.Number.fin sn)
                (Ieee.sub sensor.maxValue sensor.minValue)) (Ieee.round (1 / 10))))
            sensor.minValue sensor.maxValue) ∧
      (Ieee.add
          (Ieee.add sensor.lastValue
            (Ieee.mul (Ieee.mul (Ieee.sub (Ieee.Number.fin r) (Ieee.Number.fin (1 / 2)))
              (Ieee.Number.fin 2)) sensor.noise))
          (Ieee.mul (Ieee.mul (Ieee.Number.fin sn)
            (Ieee.sub sensor.maxValue sensor.minValue)) (Ieee.round (1 / 10))) ≠
          Ieee.Number.nan ↔
        Ieee.le sensor.minValue (generateAndPublishData sensor r sn).1.lastValue ∧
        Ieee.le (generateAndPublishData sensor r sn).1.lastValue sensor.maxValue)) := by
  refine ⟨?_, ?_, ?_⟩
  · intro lo hi noise hlo hhi hle h1 h2
    exact midpoint_within lo hi hlo hhi hle h1 h2
  · intro lo hi hlo hhi hle h1 h2
    rw [sufficient_sum_finite lo hi hlo hhi hle h1 h2]
    exact ⟨by simp, by simp⟩
  · intro sensor r sn hle
    constructor
    · simp only [generateAndPublishData, nextValue]
      rw [keep_eq_clamp _ _ _ hle]
      rfl
    · exact keep_within_iff _ _ _ hle

/-- C19 on the default bounds `20` and `30`: the sum `50` does not overflow,
`createSensor` stores a number between `20` and `30`, and after a tick with
the draw `0.5` and the sine `0` the bounds of the entry are the same. -/
theorem lastValue_within_bounds_witness :
    (∃ v, (newSensor (Ieee.Number.fin 20) (Ieee.Number.fin 30)
        (Ieee.Number.fin (1 / 2))).lastValue = Ieee.Number.fin v ∧ 20 ≤ v ∧ v ≤ 30) ∧
    (generateAndPublishData
      (newSensor (Ieee.Number.fin 20) (Ieee.Number.fin 30) (Ieee.Number.fin (1 / 2)))
      (1 / 2) 0).1.maxValue = Ieee.Number.fin 30 :=
  ⟨lastValue_within_bounds.1 20 30 (Ieee.Number.fin (1 / 2)) isDouble_20 isDouble_30
      (by norm_num) (by rw [add_30_20]; simp) (by rw [add_30_20]; simp),
    congrArg Sensor.maxValue
      ((lastValue_within_bounds.2.2
        (newSensor (Ieee.Number.fin 20) (Ieee.Number.fin 30) (Ieee.Number.fin (1 / 2)))
        (1 / 2) 0 (show (20 : ℚ) ≤ 30 by norm_num)).1)⟩

end InDoubles

end Simulator

/-! ## The battery level -/

namespace Simulator

/-- C21: a status message is published by `publishSensorStatus` on the topic
`sensor/{sensorId}/status`, by `createSensor` with the status `online` and by
`stopSensor` of a running sensor with the status `offline`, and carries the
battery level `Math.floor(Math.random() * 30 + 70)` computed in binary64
arithmetic. For every draw in `[0, 1)` the level is an integer from `70` to
`100`, and every integer from `70` to `100` is the level of some binary64
draw in `[0, 1)`: the level `100` is the one of the draw `1 - 2 ^ (-52)`,
where the sum `99.99999999999999` plus half a unit in the last place rounds
up to `100`. -/
theorem battery_in_range :
    (∀ (sensorId status : String) (r : ℚ) (now : Nat),
      publishSensorStatus sensorId status r now =
        [Effect.publish ("sensor/" ++ sensorId ++ "/status")
          (Payload.status sensorId status (battery r) now)]) ∧
    (∀ (st : State) (sensorId : String) (config : Config) (r : ℚ) (now : Nat),
      published (createSensor st sensorId config r now).2.1 =
        [("sensor/" ++ sensorId ++ "/status", Payload.status sensorId "online" (battery r) now)]) ∧
    (∀ (st : State) (sensorId : String) (r : ℚ) (now : Nat),
      JsMap.has st.intervalIds sensorId = true →
      published (stopSensor st sensorId r now).2 =
        [("sensor/" ++ sensorId ++ "/status",
          Payload.status sensorId "offline" (battery r) now)]) ∧
    (∀ r : ℚ, 0 ≤ r → r < 1 → 70 ≤ battery r ∧ battery r ≤ 100) ∧
    (∀ n : ℤ, 70 ≤ n → n ≤ 100 →
      ∃ r : ℚ, Ieee.IsDouble r ∧ 0 ≤ r ∧ r < 1 ∧ battery r = n) ∧
    battery (1 - 1 / 2 ^ 52) = 100 := by
  refine ⟨fun _ _ _ _ => rfl, fun _ _ _ _ _ => rfl, ?_, Ieee.battery_bounds, ?_,
    Ieee.battery_attains_100.2⟩
  · intro st sensorId r now hrun
    unfold stopSensor
    unfold JsMap.has at hrun
    cases hget : JsMap.get st.intervalIds sensorId with
    | none => simp [hget] at hrun
    | some id => rfl
  · intro n h70 h100
    by_cases h : n ≤ 99
    · exact Ieee.battery_attains_below_100 n h70 h
    · have hn : n = 100 := by omega
      subst hn
      exact ⟨1 - 1 / 2 ^ 52, Ieee.battery_attains_100.1, by norm_num, by norm_num,
        Ieee.battery_attains_100.2⟩

/-- C21 at the draw `0.5`: the level is between `70` and `100`. -/
theorem battery_in_range_witness : 70 ≤ battery (1 / 2) ∧ battery (1 / 2) ≤ 100 :=
  battery_in_range.2.2.2.1 (1 / 2) (by norm_num) (by norm_num)

end Simulator

end IotDashboard
